import Mathlib

/-!
# Energy metering worker

A shallow embedding of the message processing pipeline of the energy metering
worker: the timestamp tolerance check, the metric validator, the anomaly
detector, the per-message orchestration (`ProcessorService.ProcessMessage`),
the acknowledgment decision of the consumer (`Consumer.processMessage`), the
receive loop of the consumer, and the client registry
(`Repository.GetOrCreateClient`).

Conventions of the embedding.

* Go `int`, `int64` and `time.Duration` are mathematical integers; every
  operation that can overflow is followed by an explicit two's-complement wrap.
* Go `error` is a message text together with the chain of wrapped errors; a
  fallible call returns `Except GoError α`.
* Go `float64` is a rational payload or one of the three special values;
  arithmetic rounds to the nearest binary64 value, ties to even.  The sign of
  zero is not represented.
* Calls to collaborators that perform input or output (repository, transaction,
  publisher, message handler, delivery) are state transformers over an arbitrary
  world state, and every such call is recorded in a trace together with its
  outcome.  Log statements are not modelled.  `replay` runs the operations of a
  trace again: the state that a function returns is the state they leave.
* The client table is the list of its rows; the clock, the generated ID and the
  errors of the connection are inputs of a call of the registry.
* Functions of the Go standard library (`time.Parse`, `strconv.ParseFloat`,
  `json.Unmarshal`, `Time.Format`) are parameters, collected in `Lib`.
  `GoTime.Parse` is a model of `time.Parse` for the three layouts of the
  timestamp parser, written from the documentation of package `time`; `goLib`
  is the library with that model.
-/

namespace EnergyMetering

/-! ## Machine integers and errors -/

/-- Smallest value of a Go `int64`. -/
def minInt64 : Int := -(2 ^ 63)

/-- Largest value of a Go `int64`. -/
def maxInt64 : Int := 2 ^ 63 - 1

/-- Two's-complement wrap of a mathematical integer into the `int64` range. -/
def wrapInt64 (x : Int) : Int := (x + 2 ^ 63) % 2 ^ 64 - 2 ^ 63

/-- A Go `error`: the text of `Error()` and the texts of the errors it wraps,
outermost first. -/
structure GoError where
  msg : String
  chain : List String
deriving DecidableEq, Repr

/-- The call `errors.New(msg)`. -/
def GoError.new (msg : String) : GoError := ⟨msg, []⟩

/-- The call `fmt.Errorf(head + "%w", err)`: the text is the head followed by the
text of `err`, and `err` becomes the wrapped error. -/
def GoError.wrap (head : String) (err : GoError) : GoError :=
  ⟨head ++ err.msg, err.msg :: err.chain⟩

/-! ## Instants and durations -/

/-- A Go `time.Time` without monotonic clock reading: seconds since
January 1 of year 1, 00:00:00 UTC, the nanosecond within the second, and the
offset of its location in seconds east of UTC. -/
structure Time where
  sec : Int
  nsec : Int
  offset : Int
deriving DecidableEq, Repr

/-- A Go `time.Duration`: a count of nanoseconds held in an `int64`. -/
abbrev Duration := Int

/-- The constant `time.Minute`. -/
def Minute : Duration := 60 * 1000000000

namespace Time

/-- The zero value `time.Time{}`. -/
def zero : Time := ⟨0, 0, 0⟩

/-- The method `Time.IsZero`. -/
def IsZero (t : Time) : Bool := t.sec == 0 && t.nsec == 0

/-- Position of the instant on the time line, in nanoseconds since year 1. -/
def nanos (t : Time) : Int := t.sec * 1000000000 + t.nsec

/-- The method `Time.Sub`: the duration `t - u`, replaced by the largest or the
smallest duration when the difference does not fit in an `int64`. -/
def Sub (t u : Time) : Duration :=
  let d := t.nanos - u.nanos
  if d < minInt64 then minInt64 else if maxInt64 < d then maxInt64 else d

/-- Days from 0001-01-01 to the given proleptic Gregorian civil date. -/
def daysFromCivil (y m d : Int) : Int :=
  let y1 := if m ≤ 2 then y - 1 else y
  let era := y1 / 400
  let yoe := y1 - era * 400
  let mp := (m + 9) % 12
  let doy := (153 * mp + 2) / 5 + d - 1
  let doe := yoe * 365 + yoe / 4 - yoe / 100 + doy
  era * 146097 + doe - 306

/-- The call `time.Date(y, m, d, hh, mm, ss, 0, time.UTC)`. -/
def date (y m d hh mm ss : Int) : Time :=
  ⟨daysFromCivil y m d * 86400 + hh * 3600 + mm * 60 + ss, 0, 0⟩

end Time

/-! ## tools/timeparser -/

/-- The layout constant `time.RFC3339`. -/
def RFC3339 : String := "2006-01-02T15:04:05Z07:00"

/-- The layouts tried by `ParseMeterTimestamp`, in order. -/
def formats : List String :=
  ["02/01/2006 15:04:05", "02 15:04:05/01/2006", RFC3339]

/-- Text that `fmt.Errorf` prints for the `%w` operand `lastErr`. -/
def lastErrText : Option GoError → GoError
  | some e => e
  | none => GoError.new "%!w(<nil>)"

/-- The loop of `ParseMeterTimestamp` over the remaining layouts, with the error
of the last failed attempt. -/
def parseMeterLoop (timeParse : String → String → Except GoError Time)
    (dateStr : String) : List String → Option GoError → Except GoError Time
  | [], lastErr =>
    .error (GoError.wrap ("failed to parse timestamp \x27" ++ dateStr ++ "\x27: ")
      (lastErrText lastErr))
  | format :: rest, _ =>
    match timeParse format dateStr with
    | .ok t => .ok t
    | .error err => parseMeterLoop timeParse dateStr rest (some err)

/-- The function `timeparser.ParseMeterTimestamp`. -/
def ParseMeterTimestamp (timeParse : String → String → Except GoError Time)
    (dateStr : String) : Except GoError Time :=
  parseMeterLoop timeParse dateStr formats none

/-- The function `timeparser.IsWithinTolerance`.  The negation and the product
are `int64` operations and wrap. -/
def IsWithinTolerance (readingTime receivedTime : Time) (toleranceMinutes : Int) : Bool :=
  let diff : Int := readingTime.Sub receivedTime
  let diff : Int := if diff < 0 then wrapInt64 (-diff) else diff
  decide (diff ≤ wrapInt64 (toleranceMinutes * Minute))

/-! ## Binary64 floating point -/

/-- A Go `float64`: a rational payload (always a representable value when it
results from `Float64.ofFrac`), or one of the special values. -/
inductive Float64 where
  | finite (q : ℚ)
  | posInf
  | negInf
  | nan
deriving DecidableEq, Repr

namespace Float64

/-- The constant `0`. -/
def zero : Float64 := finite 0

/-- The comparison `a < b`; false as soon as an operand is not a number. -/
def lt : Float64 → Float64 → Bool
  | finite a, finite b => decide (a < b)
  | finite _, posInf => true
  | negInf, finite _ => true
  | negInf, posInf => true
  | _, _ => false

/-- The comparison `a > b`. -/
def gt (a b : Float64) : Bool := lt b a

/-- Floor of the binary logarithm of a positive natural number, by halving at
most `fuel` times. -/
def log2Fuel : Nat → Nat → Nat
  | 0, _ => 0
  | fuel + 1, n => if n < 2 then 0 else log2Fuel fuel (n / 2) + 1

/-- Floor of the binary logarithm of a positive natural number. -/
def natLog2 (n : Nat) : Nat := log2Fuel n n

/-- Nearest integer to `n / d`, ties to the even one, for `d > 0`. -/
def roundDiv (n d : Nat) : Nat :=
  let q := n / d
  let r := n % d
  if 2 * r < d then q else if d < 2 * r then q + 1 else if q % 2 = 0 then q else q + 1

/-- Floor of the binary logarithm of `n / d`, for positive `n` and `d`. -/
def fracLog2 (n d : Nat) : Int :=
  let e0 : Int := (natLog2 n : Int) - (natLog2 d : Int)
  let below : Bool :=
    if 0 ≤ e0 then decide (n < d * 2 ^ e0.toNat) else decide (n * 2 ^ (-e0).toNat < d)
  if below then e0 - 1 else e0

/-- Rounding of the exact value `n / d`, for `d > 0`, to binary64: 53
significant bits, smallest quantum `2 ^ (-1074)`, overflow to infinity from
`2 ^ 1024` on. -/
def ofFrac (n : Int) (d : Nat) : Float64 :=
  if n = 0 then finite 0
  else
    let a := n.natAbs
    let p : Int := max (fracLog2 a d - 52) (-1074)
    let m : Nat :=
      if 0 ≤ p then roundDiv a (d * 2 ^ p.toNat) else roundDiv (a * 2 ^ (-p).toNat) d
    if 971 < p ∨ (p = 971 ∧ m = 2 ^ 53) then (if n < 0 then negInf else posInf)
    else
      let sign : Int := if n < 0 then -1 else 1
      finite (if 0 ≤ p then mkRat (sign * m * 2 ^ p.toNat) 1
        else mkRat (sign * m) (2 ^ (-p).toNat))

/-- Rounding of an exact rational result to binary64. -/
def ofRat (q : ℚ) : Float64 := ofFrac q.num q.den

/-- The conversion `float64(n)` of an integer. -/
def ofInt (n : Int) : Float64 := ofFrac n 1

/-- The sum `a + b`. -/
def add : Float64 → Float64 → Float64
  | finite a, finite b => ofFrac (a.num * b.den + b.num * a.den) (a.den * b.den)
  | nan, _ => nan
  | _, nan => nan
  | posInf, negInf => nan
  | negInf, posInf => nan
  | posInf, _ => posInf
  | _, posInf => posInf
  | negInf, _ => negInf
  | _, negInf => negInf

/-- The sign flip of an infinity according to the sign of a finite factor. -/
def signed (inf : Float64) (q : ℚ) : Float64 :=
  if q = 0 then nan
  else if 0 < q then inf
  else match inf with
    | posInf => negInf
    | negInf => posInf
    | x => x

/-- The product `a * b`. -/
def mul : Float64 → Float64 → Float64
  | finite a, finite b => ofFrac (a.num * b.num) (a.den * b.den)
  | nan, _ => nan
  | _, nan => nan
  | finite a, b => signed b a
  | a, finite b => signed a b
  | posInf, posInf => posInf
  | negInf, negInf => posInf
  | posInf, negInf => negInf
  | negInf, posInf => negInf

/-- The quotient `a / b`; a zero divisor counts as positive zero. -/
def div : Float64 → Float64 → Float64
  | finite a, finite b =>
    if b = 0 then (if a = 0 then nan else if 0 < a then posInf else negInf)
    else ofFrac (a.num * b.den * (if b.num < 0 then -1 else 1)) (a.den * b.num.natAbs)
  | nan, _ => nan
  | _, nan => nan
  | finite _, _ => finite 0
  | posInf, finite b => if 0 ≤ b then posInf else negInf
  | negInf, finite b => if 0 ≤ b then negInf else posInf
  | _, _ => nan

/-- Decimal digits of `n`, padded with zeros on the left to `width` digits. -/
def padDigits (width n : Nat) : String :=
  let s := toString n
  String.mk (List.replicate (width - s.length) '0') ++ s

/-- The verb `%.<prec>f` of `fmt.Sprintf`. -/
def fmtFixed (prec : Nat) : Float64 → String
  | nan => "NaN"
  | posInf => "+Inf"
  | negInf => "-Inf"
  | finite q =>
    let n := roundDiv (q.num.natAbs * 10 ^ prec) q.den
    let sign := if q < 0 then "-" else ""
    let whole := toString (n / 10 ^ prec)
    if prec = 0 then sign ++ whole
    else sign ++ whole ++ "." ++ padDigits prec (n % 10 ^ prec)

end Float64

/-! ## Library functions -/

/-- The call `strings.Trim(s, cutset)`: every leading and every trailing
character contained in the cutset is removed. -/
def stringsTrim (s cutset : String) : String :=
  let inCut : Char → Bool := fun c => cutset.toList.contains c
  String.mk ((s.toList.dropWhile inCut).reverse.dropWhile inCut).reverse

/-! ## Data model -/

/-- A `uuid.UUID`: a 128-bit value. -/
structure UUID where
  val : Nat
deriving DecidableEq, Repr

/-- The struct `db.MeterClient`. -/
structure MeterClient where
  ID : UUID
  ClientFingerprint : String
  IPAddress : String
  UserAgent : Option String
  FirstSeenAt : Time
  LastSeenAt : Time
  CreatedAt : Time
deriving DecidableEq, Repr

/-- The struct `db.MeterReading`. -/
structure MeterReading where
  ID : UUID
  ClientID : UUID
  MetricName : String
  MetricValue : Float64
  ReadingTimestamp : Time
  ReceivedAt : Time
  ValidationStatus : String
  AnomalyReason : Option String
  RawPayload : String
deriving DecidableEq, Repr

/-- The struct `mq.ProcessedEvent`. -/
structure ProcessedEvent where
  ClientID : String
  MetricName : String
  MetricValue : Float64
  ReadingTimestamp : String
  ValidationStatus : String
deriving DecidableEq, Repr

/-- The struct `service.PMData`. -/
structure PMData where
  Date : String
  Data : String
  Name : String
deriving DecidableEq, Repr

/-- The struct `service.Payload`. -/
structure Payload where
  PM : List PMData
deriving DecidableEq, Repr

/-- The struct `service.IngestMessage`. -/
structure IngestMessage where
  RequestID : String
  ClientFingerprint : String
  IPAddress : String
  UserAgent : String
  ReceivedAt : Time
  Payload : Payload
deriving DecidableEq, Repr

/-- The pure functions of the Go standard library and of third-party packages
that the pipeline calls: `strconv.ParseFloat(s, 64)`, `time.Parse(layout, value)`,
`Time.Format(time.RFC3339)`, `UUID.String()`, `json.Unmarshal` into an
`IngestMessage` and `json.Marshal` of a `ProcessedEvent`. -/
structure Lib where
  parseFloat : String → Except GoError Float64
  timeParse : String → String → Except GoError Time
  formatRFC3339 : Time → String
  uuidString : UUID → String
  unmarshal : String → Except GoError IngestMessage
  marshal : ProcessedEvent → Except GoError String

/-! ## internal/validator -/

/-- The struct `validator.ValidationResult`. -/
structure ValidationResult where
  IsValid : Bool
  AnomalyReason : String
deriving DecidableEq, Repr

/-- The struct `validator.MetricData`. -/
structure MetricData where
  Date : String
  Data : String
  Name : String
deriving DecidableEq, Repr

/-- The struct `validator.Validator`. -/
structure Validator where
  timestampToleranceMinutes : Int
deriving DecidableEq, Repr

/-- The method `Validator.ValidateMetricData`. -/
def Validator.ValidateMetricData (lib : Lib) (v : Validator) (metric : MetricData)
    (receivedAt : Time) : Float64 × Time × ValidationResult :=
  if metric.Name = "" then
    (Float64.zero, Time.zero, ⟨false, "empty metric name"⟩)
  else
    let dataValue := stringsTrim metric.Data "[]"
    match lib.parseFloat dataValue with
    | .error err =>
      (Float64.zero, Time.zero, ⟨false, "invalid metric value: " ++ err.msg⟩)
    | .ok value =>
      if value.lt Float64.zero then
        (value, Time.zero, ⟨false, "negative value detected"⟩)
      else
        match ParseMeterTimestamp lib.timeParse metric.Date with
        | .error err =>
          (value, Time.zero, ⟨false, "invalid timestamp format: " ++ err.msg⟩)
        | .ok readingTime =>
          if !IsWithinTolerance readingTime receivedAt v.timestampToleranceMinutes then
            (value, readingTime,
              ⟨false, "timestamp outside tolerance window (±" ++
                toString v.timestampToleranceMinutes ++ " minutes)"⟩)
          else
            (value, readingTime, ⟨true, ""⟩)

/-! ## internal/anomaly -/

/-- The struct `anomaly.Detector`. -/
structure Detector where
  spikeThreshold : Float64
  minDataPointsForDetection : Int
deriving DecidableEq, Repr

/-- The method `Detector.DetectAnomaly`. -/
def Detector.DetectAnomaly (d : Detector) (value : Float64)
    (historicalValues : List Float64) : Bool × String :=
  if value.lt Float64.zero then (true, "negative value")
  else if (historicalValues.length : Int) < d.minDataPointsForDetection then (false, "")
  else
    let sum := historicalValues.foldl Float64.add Float64.zero
    let average := sum.div (Float64.ofInt historicalValues.length)
    if average.gt Float64.zero && value.gt (d.spikeThreshold.mul average) then
      (true, "sudden spike detected: value " ++ Float64.fmtFixed 2 value ++ " exceeds " ++
        Float64.fmtFixed 1 d.spikeThreshold ++ "x rolling average " ++
        Float64.fmtFixed 2 average)
    else (false, "")

/-! ## Collaborators with input and output -/

/-- The operations of the database pool, the open transaction and the broker
channel, as transformers of a world state `σ`. -/
structure Env (σ : Type) where
  getOrCreateClient : String → String → Option String → σ → Except GoError MeterClient × σ
  poolBegin : σ → Except GoError Unit × σ
  queryRecentReadings : UUID → String → Int → σ → Except GoError (List Float64) × σ
  txExecInsert : MeterReading → σ → Except GoError Unit × σ
  txCommit : σ → Except GoError Unit × σ
  txRollback : σ → Except GoError Unit × σ
  channelPublish : String → String → String → σ → Except GoError Unit × σ

/-- Whether a fallible call returned without error. -/
def succeeded {α : Type} : Except GoError α → Bool
  | .ok _ => true
  | .error _ => false

/-- One call made by the message processor to a collaborator, with its
arguments and whether it returned without error. -/
inductive Call where
  | getOrCreateClient (fingerprint ipAddress : String) (userAgent : Option String) (ok : Bool)
  | beginTx (ok : Bool)
  | getRecentReadings (clientID : UUID) (metricName : String) (limit : Int) (ok : Bool)
  | detectAnomaly (value : Float64) (historicalValues : List Float64) (isAnomaly : Bool)
  | insertReading (reading : MeterReading) (ok : Bool)
  | commit (ok : Bool)
  | rollback
  | publish (event : ProcessedEvent) (routingKey : String) (ok : Bool)
deriving DecidableEq, Repr

namespace Call

/-- The reading of an insert call. -/
def inserted : Call → Option MeterReading
  | insertReading r _ => some r
  | _ => none

/-- The event of a publish call. -/
def published : Call → Option ProcessedEvent
  | publish e _ _ => some e
  | _ => none

/-- Whether the call is a publish call. -/
def isPublish : Call → Bool
  | publish _ _ _ => true
  | _ => false

/-- Whether the call is a commit call. -/
def isCommit : Call → Bool
  | commit _ => true
  | _ => false

/-- Whether the call is a history lookup. -/
def isGetRecentReadings : Call → Bool
  | getRecentReadings _ _ _ _ => true
  | _ => false

/-- Whether the call is a run of the anomaly detector. -/
def isDetectAnomaly : Call → Bool
  | detectAnomaly _ _ _ => true
  | _ => false

/-- Whether the call is a publish call that returned an error. -/
def isFailedPublish : Call → Bool
  | publish _ _ false => true
  | _ => false

/-- Whether the call is a failed client resolution, transaction begin, insert
or commit: the failures that make `ProcessMessage` return an error. -/
def isHardFailure : Call → Bool
  | getOrCreateClient _ _ _ false => true
  | beginTx false => true
  | insertReading _ false => true
  | commit false => true
  | _ => false

end Call

/-! ## internal/repository and internal/mq (publisher) -/

/-- The method `Repository.BeginTx`. -/
def Repository.BeginTx {σ : Type} (env : Env σ) (w : σ) : Except GoError Unit × σ :=
  env.poolBegin w

/-- The method `Repository.InsertMeterReadingTx`. -/
def Repository.InsertMeterReadingTx {σ : Type} (env : Env σ) (reading : MeterReading)
    (w : σ) : Except GoError Unit × σ :=
  match env.txExecInsert reading w with
  | (.error err, w1) => (.error (GoError.wrap "failed to insert meter reading: " err), w1)
  | (.ok _, w1) => (.ok (), w1)

/-- The struct `mq.Publisher`. -/
structure Publisher where
  exchange : String
deriving DecidableEq, Repr

/-- The method `Publisher.PublishProcessedEvent`. -/
def Publisher.PublishProcessedEvent {σ : Type} (lib : Lib) (env : Env σ) (p : Publisher)
    (event : ProcessedEvent) (routingKey : String) (w : σ) : Except GoError Unit × σ :=
  match lib.marshal event with
  | .error err => (.error (GoError.wrap "failed to marshal event: " err), w)
  | .ok body =>
    match env.channelPublish p.exchange routingKey body w with
    | (.error err, w1) => (.error (GoError.wrap "failed to publish event: " err), w1)
    | (.ok _, w1) => (.ok (), w1)

/-! ## internal/service -/

/-- The struct `service.ProcessorService`, with the one configuration value it
reads, `cfg.RabbitMQ.WorkerRoutingKey`. -/
structure ProcessorService where
  publisher : Publisher
  detector : Detector
  validator : Validator
  workerRoutingKey : String
deriving DecidableEq, Repr

/-- Outcome of the validation and anomaly scoring of one sub-reading: the
variables `value`, `readingTime`, `validationStatus` and `anomalyReason` of
`processSingleReading` when it reaches the insert. -/
structure Scored where
  value : Float64
  readingTime : Time
  validationStatus : String
  anomalyReason : Option String
deriving DecidableEq, Repr

namespace ProcessorService

variable {σ : Type}

/-- The first part of `processSingleReading`, up to the insert: validation,
fallback of the reading time, history lookup and anomaly detection. -/
def scoreReading (lib : Lib) (env : Env σ) (s : ProcessorService) (clientID : UUID)
    (pm : PMData) (receivedAt : Time) (w : σ) : Scored × σ × List Call :=
  let metricData : MetricData := ⟨pm.Date, pm.Data, pm.Name⟩
  let res := s.validator.ValidateMetricData lib metricData receivedAt
  let value := res.1
  let readingTime := if res.2.1.IsZero then receivedAt else res.2.1
  let validationResult := res.2.2
  if !validationResult.IsValid then
    (⟨value, readingTime, "invalid", some validationResult.AnomalyReason⟩, w, [])
  else
    match env.queryRecentReadings clientID pm.Name 10 w with
    | (.error _, w1) =>
      (⟨value, readingTime, "valid", none⟩, w1,
        [Call.getRecentReadings clientID pm.Name 10 false])
    | (.ok historicalValues, w1) =>
      let det := s.detector.DetectAnomaly value historicalValues
      if det.1 then
        (⟨value, readingTime, "invalid", some det.2⟩, w1,
          [Call.getRecentReadings clientID pm.Name 10 true,
           Call.detectAnomaly value historicalValues true])
      else
        (⟨value, readingTime, "valid", none⟩, w1,
          [Call.getRecentReadings clientID pm.Name 10 true,
           Call.detectAnomaly value historicalValues false])

/-- The reading that `processSingleReading` hands to the repository. -/
def buildReading (sc : Scored) (clientID : UUID) (pm : PMData) (receivedAt : Time)
    (rawPayload : String) : MeterReading :=
  { ID := ⟨0⟩
    ClientID := clientID
    MetricName := pm.Name
    MetricValue := sc.value
    ReadingTimestamp := sc.readingTime
    ReceivedAt := receivedAt
    ValidationStatus := sc.validationStatus
    AnomalyReason := sc.anomalyReason
    RawPayload := rawPayload }

/-- The event that `processSingleReading` returns. -/
def buildEvent (lib : Lib) (sc : Scored) (clientID : UUID) (pm : PMData) : ProcessedEvent :=
  { ClientID := lib.uuidString clientID
    MetricName := pm.Name
    MetricValue := sc.value
    ReadingTimestamp := lib.formatRFC3339 sc.readingTime
    ValidationStatus := sc.validationStatus }

/-- The method `ProcessorService.processSingleReading`: the event or the error it
returns, the new world state, and the calls it made. -/
def processSingleReading (lib : Lib) (env : Env σ) (s : ProcessorService) (clientID : UUID)
    (pm : PMData) (receivedAt : Time) (rawPayload : String) (w : σ) :
    Except GoError ProcessedEvent × σ × List Call :=
  let scored := scoreReading lib env s clientID pm receivedAt w
  let reading := buildReading scored.1 clientID pm receivedAt rawPayload
  match Repository.InsertMeterReadingTx env reading scored.2.1 with
  | (.error err, w2) =>
    (.error (GoError.wrap "failed to insert reading: " err), w2,
      scored.2.2 ++ [Call.insertReading reading false])
  | (.ok _, w2) =>
    (.ok (buildEvent lib scored.1 clientID pm), w2,
      scored.2.2 ++ [Call.insertReading reading true])

/-- The loop of `ProcessMessage` over the sub-readings, with the events
accumulated so far. -/
def readingsLoop (lib : Lib) (env : Env σ) (s : ProcessorService) (clientID : UUID)
    (receivedAt : Time) (rawPayload : String) :
    List PMData → List ProcessedEvent → σ → Except GoError (List ProcessedEvent) × σ × List Call
  | [], processedEvents, w => (.ok processedEvents, w, [])
  | pm :: rest, processedEvents, w =>
    match processSingleReading lib env s clientID pm receivedAt rawPayload w with
    | (.error err, w1, calls) =>
      (.error (GoError.wrap "failed to process reading: " err), w1, calls)
    | (.ok event, w1, calls) =>
      let next := readingsLoop lib env s clientID receivedAt rawPayload rest
        (processedEvents ++ [event]) w1
      (next.1, next.2.1, calls ++ next.2.2)

/-- The loop of `ProcessMessage` that publishes the accumulated events; the
error of a publish is logged and dropped. -/
def publishLoop (lib : Lib) (env : Env σ) (s : ProcessorService) :
    List ProcessedEvent → σ → σ × List Call
  | [], w => (w, [])
  | event :: rest, w =>
    let r := s.publisher.PublishProcessedEvent lib env event s.workerRoutingKey w
    let next := publishLoop lib env s rest r.2
    (next.1, Call.publish event s.workerRoutingKey (succeeded r.1) :: next.2)

/-- The part of `ProcessMessage` that runs with the transaction open, from the
loop over the sub-readings to the return. -/
def inTransaction (lib : Lib) (env : Env σ) (s : ProcessorService) (client : MeterClient)
    (msg : IngestMessage) (body : String) (w : σ) : Option GoError × σ × List Call :=
  match readingsLoop lib env s client.ID msg.ReceivedAt body msg.Payload.PM [] w with
  | (.error err, w1, calls) => (some err, w1, calls)
  | (.ok processedEvents, w1, calls) =>
    match env.txCommit w1 with
    | (.error err, w2) =>
      (some (GoError.wrap "failed to commit transaction: " err), w2,
        calls ++ [Call.commit false])
    | (.ok _, w2) =>
      let pub := publishLoop lib env s processedEvents w2
      (none, pub.1, calls ++ [Call.commit true] ++ pub.2)

/-- The method `ProcessorService.ProcessMessage`: the error it returns (`none`
for `nil`), the new world state, and the calls it made, in order.  The deferred
`tx.Rollback` runs at every return that follows a successful `BeginTx`. -/
def ProcessMessage (lib : Lib) (env : Env σ) (s : ProcessorService) (body : String)
    (w : σ) : Option GoError × σ × List Call :=
  match lib.unmarshal body with
  | .error err => (some (GoError.wrap "failed to unmarshal message: " err), w, [])
  | .ok msg =>
    let userAgent : Option String := if msg.UserAgent ≠ "" then some msg.UserAgent else none
    match env.getOrCreateClient msg.ClientFingerprint msg.IPAddress userAgent w with
    | (.error err, w1) =>
      (some (GoError.wrap "failed to get or create client: " err), w1,
        [Call.getOrCreateClient msg.ClientFingerprint msg.IPAddress userAgent false])
    | (.ok client, w1) =>
      match Repository.BeginTx env w1 with
      | (.error err, w2) =>
        (some (GoError.wrap "failed to begin transaction: " err), w2,
          [Call.getOrCreateClient msg.ClientFingerprint msg.IPAddress userAgent true,
           Call.beginTx false])
      | (.ok _, w2) =>
        let r := inTransaction lib env s client msg body w2
        let rb := env.txRollback r.2.1
        (r.1, rb.2,
          [Call.getOrCreateClient msg.ClientFingerprint msg.IPAddress userAgent true,
           Call.beginTx true] ++ r.2.2 ++ [Call.rollback])

end ProcessorService

/-! ## internal/mq (consumer) -/

/-- The operations on one delivery and the registered message handler, as
transformers of a world state `σ`. -/
structure DeliveryEnv (σ : Type) where
  messageProcessor : String → σ → Option GoError × σ
  ack : Bool → σ → Except GoError Unit × σ
  nack : Bool → Bool → σ → Except GoError Unit × σ

/-- One call made by the consumer while it handles a delivery. -/
inductive DeliveryCall where
  | handler (body : String) (ok : Bool)
  | ack (multiple : Bool)
  | nack (multiple requeue : Bool)
deriving DecidableEq, Repr

/-- The method `Consumer.processMessage` for a delivery with the given body: the
new world state and the calls made, in order.  The errors of `Ack` and `Nack` are
logged and dropped. -/
def Consumer.processMessage {σ : Type} (env : DeliveryEnv σ) (body : String) (w : σ) :
    σ × List DeliveryCall :=
  match env.messageProcessor body w with
  | (some _, w1) =>
    let r := env.nack false false w1
    (r.2, [DeliveryCall.handler body false, DeliveryCall.nack false false])
  | (none, w1) =>
    let r := env.ack false w1
    (r.2, [DeliveryCall.handler body true, DeliveryCall.ack false])

/-! ## Shape of an execution of the message processor -/

/-- Whether the call belongs to a successful pass of the loop over the
sub-readings: a history lookup, a run of the detector or a successful insert. -/
def Call.isQuiet : Call → Bool
  | getRecentReadings _ _ _ _ => true
  | detectAnomaly _ _ _ => true
  | insertReading _ true => true
  | _ => false

/-- What the round-trip property compares in a stored reading: client ID (in
text form), metric name, metric value and validation status. -/
def readingKey (lib : Lib) (r : MeterReading) : String × String × Float64 × String :=
  (lib.uuidString r.ClientID, r.MetricName, r.MetricValue, r.ValidationStatus)

/-- What the round-trip property compares in an event. -/
def eventKey (e : ProcessedEvent) : String × String × Float64 × String :=
  (e.ClientID, e.MetricName, e.MetricValue, e.ValidationStatus)

/-- The ways in which an execution of `ProcessMessage` on `body` can go: the
returned error and the calls made. -/
inductive Outcome (lib : Lib) (body : String) : Option GoError → List Call → Prop where
  | undecodable (err : GoError) (hbody : lib.unmarshal body = .error err) :
    Outcome lib body (some (GoError.wrap "failed to unmarshal message: " err)) []
  | clientFailed (msg : IngestMessage) (hbody : lib.unmarshal body = .ok msg) (err : GoError)
      (fingerprint ipAddress : String) (userAgent : Option String) :
    Outcome lib body (some err) [Call.getOrCreateClient fingerprint ipAddress userAgent false]
  | beginFailed (msg : IngestMessage) (hbody : lib.unmarshal body = .ok msg) (err : GoError)
      (fingerprint ipAddress : String) (userAgent : Option String) :
    Outcome lib body (some err)
      [Call.getOrCreateClient fingerprint ipAddress userAgent true, Call.beginTx false]
  | insertFailed (msg : IngestMessage) (hbody : lib.unmarshal body = .ok msg) (err : GoError)
      (fingerprint ipAddress : String) (userAgent : Option String)
      (loop : List Call) (hloop : ∀ c ∈ loop, c.isQuiet = true) (reading : MeterReading) :
    Outcome lib body (some err)
      ([Call.getOrCreateClient fingerprint ipAddress userAgent true, Call.beginTx true] ++ loop ++
        [Call.insertReading reading false, Call.rollback])
  | commitFailed (msg : IngestMessage) (hbody : lib.unmarshal body = .ok msg) (err : GoError)
      (fingerprint ipAddress : String) (userAgent : Option String)
      (loop : List Call) (hloop : ∀ c ∈ loop, c.isQuiet = true) :
    Outcome lib body (some err)
      ([Call.getOrCreateClient fingerprint ipAddress userAgent true, Call.beginTx true] ++ loop ++
        [Call.commit false, Call.rollback])
  | committed (msg : IngestMessage) (hbody : lib.unmarshal body = .ok msg)
      (fingerprint ipAddress : String) (userAgent : Option String)
      (loop : List Call) (hloop : ∀ c ∈ loop, c.isQuiet = true)
      (events : List ProcessedEvent)
      (hkeys : (loop.filterMap Call.inserted).map (readingKey lib) = events.map eventKey)
      (hnames : (loop.filterMap Call.inserted).map (fun r => r.MetricName) =
        msg.Payload.PM.map (fun pm => pm.Name))
      (pubs : List Call) (hpubs : ∀ c ∈ pubs, c.isPublish = true)
      (hevents : pubs.filterMap Call.published = events) :
    Outcome lib body none
      ([Call.getOrCreateClient fingerprint ipAddress userAgent true, Call.beginTx true] ++ loop ++
        [Call.commit true] ++ pubs ++ [Call.rollback])

/-! ## Sample collaborators

Concrete instances on which the definitions are evaluated.  `sampleLib` records
the behaviour of the library functions at the strings used below; it is not a
model of the library elsewhere. -/

/-- Inverse of `Time.daysFromCivil`: year, month and day of a day number. -/
def Time.civilFromDays (days : Int) : Int × Int × Int :=
  let z := days + 306
  let era := z / 146097
  let doe := z - era * 146097
  let yoe := (doe - doe / 1460 + doe / 36524 - doe / 146096) / 365
  let doy := doe - (365 * yoe + yoe / 4 - yoe / 100)
  let mp := (5 * doy + 2) / 153
  let d := doy - (153 * mp + 2) / 5 + 1
  let m := if mp < 10 then mp + 3 else mp - 9
  (if m ≤ 2 then yoe + era * 400 + 1 else yoe + era * 400, m, d)

/-- Decimal digits of a natural number, padded to `width` digits. -/
def pad (width : Nat) (n : Int) : String := Float64.padDigits width n.toNat

/-- The call `t.Format(time.RFC3339)` for an instant in UTC with a year from 1
to 9999. -/
def Time.formatUTC (t : Time) : String :=
  let days := t.sec / 86400
  let rem := t.sec % 86400
  let ymd := Time.civilFromDays days
  pad 4 ymd.1 ++ "-" ++ pad 2 ymd.2.1 ++ "-" ++ pad 2 ymd.2.2 ++ "T" ++
    pad 2 (rem / 3600) ++ ":" ++ pad 2 (rem % 3600 / 60) ++ ":" ++ pad 2 (rem % 60) ++ "Z"

/-- The receipt time of the sample message. -/
def sampleReceivedAt : Time := Time.date 2025 12 29 10 32 0

/-- A message with three sub-readings: a valid one, a negative one and one with
an empty name. -/
def sampleMessage : IngestMessage :=
  { RequestID := "req-1"
    ClientFingerprint := "fp-1"
    IPAddress := "10.0.0.1"
    UserAgent := ""
    ReceivedAt := sampleReceivedAt
    Payload := ⟨[⟨"29/12/2025 10:30:00", "250", "power_consumption"⟩,
                 ⟨"29/12/2025 10:30:00", "-5", "voltage"⟩,
                 ⟨"29/12/2025 10:30:00", "[12]", ""⟩]⟩ }

/-- The JSON text of `sampleMessage`. -/
def sampleBody : String :=
  "\x7b\"request_id\":\"req-1\",\"client_fingerprint\":\"fp-1\",\"ip_address\":\"10.0.0.1\"," ++
  "\"user_agent\":\"\",\"received_at\":\"2025-12-29T10:32:00Z\",\"payload\":\x7b\"PM\":[" ++
  "\x7b\"date\":\"29/12/2025 10:30:00\",\"data\":\"250\",\"name\":\"power_consumption\"\x7d," ++
  "\x7b\"date\":\"29/12/2025 10:30:00\",\"data\":\"-5\",\"name\":\"voltage\"\x7d," ++
  "\x7b\"date\":\"29/12/2025 10:30:00\",\"data\":\"[12]\",\"name\":\"\"\x7d]\x7d\x7d"

/-- Recorded behaviour of the library functions at the sample strings. -/
def sampleLib : Lib where
  parseFloat := fun s =>
    if s = "250" then .ok (.finite 250)
    else if s = "-5" then .ok (.finite (-5))
    else if s = "12" then .ok (.finite 12)
    else .error (GoError.new ("strconv.ParseFloat: parsing \"" ++ s ++ "\": invalid syntax"))
  timeParse := fun layout value =>
    if layout = "02/01/2006 15:04:05" ∧ value = "29/12/2025 10:30:00" then
      .ok (Time.date 2025 12 29 10 30 0)
    else if layout = "02/01/2006 15:04:05" ∧ value = "01/01/1700 00:00:00" then
      .ok (Time.date 1700 1 1 0 0 0)
    else .error (GoError.new ("parsing time \"" ++ value ++ "\" as \"" ++ layout ++ "\""))
  formatRFC3339 := Time.formatUTC
  uuidString := fun u => "00000000-0000-0000-0000-" ++ Float64.padDigits 12 u.val
  unmarshal := fun body =>
    if body = sampleBody then .ok sampleMessage
    else .error (GoError.new "invalid character")
  marshal := fun e =>
    match e.MetricValue with
    | .finite _ => .ok ("event " ++ e.MetricName)
    | _ => .error (GoError.new "json: unsupported value")

/-- World state of the sample collaborators: how many inserts and how many
publishes have been made. -/
structure SampleWorld where
  inserts : Nat
  publishes : Nat
deriving DecidableEq, Repr

/-- The client that the sample registry resolves. -/
def sampleClient : MeterClient :=
  { ID := ⟨7⟩
    ClientFingerprint := "fp-1"
    IPAddress := "10.0.0.1"
    UserAgent := none
    FirstSeenAt := sampleReceivedAt
    LastSeenAt := sampleReceivedAt
    CreatedAt := sampleReceivedAt }

/-- Sample collaborators: the insert with index `failInsertAt` fails, the history
lookup returns `history` or fails when there is none, the commit succeeds when
`commitOk`, and the publish with index `i` succeeds when `publishOk i`. -/
def sampleEnv (failInsertAt : Option Nat) (history : Option (List Float64)) (commitOk : Bool)
    (publishOk : Nat → Bool) : Env SampleWorld where
  getOrCreateClient := fun _ _ _ w => (.ok sampleClient, w)
  poolBegin := fun w => (.ok (), w)
  queryRecentReadings := fun _ _ _ w =>
    match history with
    | some historicalValues => (.ok historicalValues, w)
    | none => (.error (GoError.new "connection reset"), w)
  txExecInsert := fun _ w =>
    if failInsertAt = some w.inserts then
      (.error (GoError.new "connection reset"), { w with inserts := w.inserts + 1 })
    else (.ok (), { w with inserts := w.inserts + 1 })
  txCommit := fun w =>
    if commitOk then (.ok (), w) else (.error (GoError.new "commit failed"), w)
  txRollback := fun w => (.ok (), w)
  channelPublish := fun _ _ _ w =>
    if publishOk w.publishes then (.ok (), { w with publishes := w.publishes + 1 })
    else (.error (GoError.new "channel closed"), { w with publishes := w.publishes + 1 })

/-- The sample service: tolerance 5 minutes, spike threshold 3, at least 3
historical values. -/
def sampleService : ProcessorService :=
  { publisher := ⟨"energy.events"⟩
    detector := ⟨.finite 3, 3⟩
    validator := ⟨5⟩
    workerRoutingKey := "reading.processed" }

/-- A handler that fails on the empty body and only there. -/
def sampleDeliveryEnv : DeliveryEnv Nat where
  messageProcessor := fun body w =>
    if body = "" then (some (GoError.new "failed to unmarshal message"), w + 1)
    else (none, w + 1)
  ack := fun _ w => (.ok (), w)
  nack := fun _ _ w => (.ok (), w)

/-! ## Definitions that follow the words of the specification -/

deriving instance DecidableEq for Except

/-- The stripping that the specification describes for the raw value: a single
pair of enclosing brackets is removed when the string starts with `[` and ends
with `]`, and the string is unchanged otherwise. -/
def stripOnePair (s : String) : String :=
  match s.toList with
  | '[' :: rest => if rest.getLast? = some ']' then String.mk rest.dropLast else s
  | _ => s

/-- A library whose number parser rejects every string and reports the string
it was given: it makes the argument of the parse call observable. -/
def echoLib : Lib :=
  { sampleLib with parseFloat := fun s => .error (GoError.new s) }

/-- The arithmetic mean of a list of rationals, in exact arithmetic. -/
def exactMean (qs : List ℚ) : ℚ := qs.sum / qs.length

/-- The float64 value of the variable `average` of `DetectAnomaly`: the values
summed from left to right, starting from zero, and the sum divided by the
length, every operation rounded. -/
def rollingAverage (historicalValues : List Float64) : Float64 :=
  (historicalValues.foldl Float64.add Float64.zero).div (Float64.ofInt historicalValues.length)

/-- A finite number that is at least zero, the values that the specification
admits for a valid reading. -/
def Float64.isFiniteNonNeg : Float64 → Bool
  | .finite q => decide (0 ≤ q)
  | _ => false

/-! ## Model of the Go standard library: `time.Parse`

The parser of package `time`, specialised to the three layouts that
`ParseMeterTimestamp` passes to it.  For each layout the model goes through the
elements of the layout in the order in which `time.Parse` does, with the
functions of package `time` that read them.  The text of a parse error gives the
value and the layout; the element that Go names after them is left out. -/

namespace GoTime

/-- The function `isLeap` of package `time`. -/
def isLeap (year : Nat) : Bool :=
  year % 4 = 0 && (year % 100 ≠ 0 || year % 400 = 0)

/-- The function `daysIn` of package `time`: the number of days of a month. -/
def daysIn (month year : Nat) : Nat :=
  if month = 2 then (if isLeap year then 29 else 28)
  else if month = 4 ∨ month = 6 ∨ month = 9 ∨ month = 11 then 30
  else 31

/-- The value of a decimal digit character. -/
def digitVal (c : Char) : Nat := c.toNat - 48

/-- The function `getnum` of package `time`: a number of two digits, or of one
digit when the field is not of fixed width. -/
def getnum (fixed : Bool) : List Char → Option (Nat × List Char)
  | [] => none
  | [c0] => if c0.isDigit && !fixed then some (digitVal c0, []) else none
  | c0 :: c1 :: rest =>
    if !c0.isDigit then none
    else if !c1.isDigit then (if fixed then none else some (digitVal c0, c1 :: rest))
    else some (digitVal c0 * 10 + digitVal c1, rest)

/-- The element `2006`: a year of exactly four digits. -/
def getYear : List Char → Option (Nat × List Char)
  | a :: b :: c :: d :: rest =>
    if a.isDigit && b.isDigit && c.isDigit && d.isDigit then
      some (((digitVal a * 10 + digitVal b) * 10 + digitVal c) * 10 + digitVal d, rest)
    else none
  | _ => none

/-- The function `skip` of package `time` for a literal character other than a
space. -/
def skipChar (c : Char) : List Char → Option (List Char)
  | [] => none
  | x :: rest => if x = c then some rest else none

/-- The function `skip` of package `time` for a space of the layout: the end of
the value or a run of spaces of the value. -/
def skipSpace : List Char → Option (List Char)
  | [] => some []
  | x :: rest => if x = ' ' then some ((x :: rest).dropWhile (fun c => c == ' ')) else none

/-- The function `parseNanoseconds` of package `time` on the digits of a
fraction: at most nine digits are read and scaled to nanoseconds. -/
def nanoseconds (digits : List Char) : Nat :=
  (digits.take 9).foldl (fun n c => n * 10 + digitVal c) 0 * 10 ^ (9 - (digits.take 9).length)

/-- The fractional second that `time.Parse` accepts after the seconds although
the layout has none: a period or a comma followed by digits. -/
def fracSeconds : List Char → Nat × List Char
  | c :: d :: rest =>
    if (c == '.' || c == ',') && d.isDigit then
      (nanoseconds ((d :: rest).takeWhile Char.isDigit), (d :: rest).dropWhile Char.isDigit)
    else (0, c :: d :: rest)
  | v => (0, v)

/-- A condition of the parser: failure when it does not hold. -/
def check (b : Bool) : Option Unit := if b then some () else none

/-- The elements `15:04:05` of the three layouts: the hour in one or two
digits, minute and second in two, each in its range, and the optional fraction
of a second. -/
def clock (value : List Char) : Option ((Nat × Nat × Nat × Nat) × List Char) := do
  let (hour, v) ← getnum false value
  check (decide (hour < 24))
  let v ← skipChar ':' v
  let (min, v) ← getnum true v
  check (decide (min < 60))
  let v ← skipChar ':' v
  let (sec, v) ← getnum true v
  check (decide (sec < 60))
  let frac := fracSeconds v
  pure ((hour, min, sec, frac.1), frac.2)

/-- The element `Z07:00` of the layout `time.RFC3339`: the letter `Z` for UTC,
or a sign, two digits of hours, a colon and two digits of minutes; the result is
the zone offset in seconds east of UTC. -/
def zoneColon : List Char → Option (Int × List Char)
  | [] => none
  | 'Z' :: rest => some (0, rest)
  | sign :: h1 :: h2 :: colon :: m1 :: m2 :: rest =>
    if colon ≠ ':' then none
    else
      match getnum true [h1, h2], getnum true [m1, m2] with
      | some (hr, _), some (mm, _) =>
        if 24 < hr ∨ 60 < mm then none
        else if sign = '+' then some ((((hr * 60 + mm) * 60 : Nat) : Int), rest)
        else if sign = '-' then some (-(((hr * 60 + mm) * 60 : Nat) : Int), rest)
        else none
      | _, _ => none
  | _ => none

/-- The end of `time.Parse`: no text may be left, the day must exist in the
month, and the time is the civil time read, taken `zoneOffset` seconds east of
UTC and located in a zone of that offset. -/
def finish (year month day : Nat) (hms : Nat × Nat × Nat × Nat) (zoneOffset : Int)
    (rest : List Char) : Option Time := do
  check (decide (rest = []))
  check (decide (1 ≤ day ∧ day ≤ daysIn month year))
  pure ⟨(Time.date year month day hms.1 hms.2.1 hms.2.2.1).sec - zoneOffset, hms.2.2.2,
    zoneOffset⟩

/-- The call `time.Parse("02/01/2006 15:04:05", value)`. -/
def parseDayFirst (value : List Char) : Option Time := do
  let (day, v) ← getnum true value
  let v ← skipChar '/' v
  let (month, v) ← getnum true v
  check (decide (1 ≤ month ∧ month ≤ 12))
  let v ← skipChar '/' v
  let (year, v) ← getYear v
  let v ← skipSpace v
  let (hms, v) ← clock v
  finish year month day hms 0 v

/-- The call `time.Parse("02 15:04:05/01/2006", value)`. -/
def parseTransposed (value : List Char) : Option Time := do
  let (day, v) ← getnum true value
  let v ← skipSpace v
  let (hms, v) ← clock v
  let v ← skipChar '/' v
  let (month, v) ← getnum true v
  check (decide (1 ≤ month ∧ month ≤ 12))
  let v ← skipChar '/' v
  let (year, v) ← getYear v
  finish year month day hms 0 v

/-- The call `time.Parse(time.RFC3339, value)`. -/
def parseRFC3339 (value : List Char) : Option Time := do
  let (year, v) ← getYear value
  let v ← skipChar '-' v
  let (month, v) ← getnum true v
  check (decide (1 ≤ month ∧ month ≤ 12))
  let v ← skipChar '-' v
  let (day, v) ← getnum true v
  let v ← skipChar 'T' v
  let (hms, v) ← clock v
  let (zoneOffset, v) ← zoneColon v
  finish year month day hms zoneOffset v

/-- The function `time.Parse` for the three layouts of `ParseMeterTimestamp`;
other layouts are not modelled and are rejected. -/
def Parse (layout value : String) : Except GoError Time :=
  let parsed : Option Time :=
    if layout = "02/01/2006 15:04:05" then parseDayFirst value.toList
    else if layout = "02 15:04:05/01/2006" then parseTransposed value.toList
    else if layout = RFC3339 then parseRFC3339 value.toList
    else none
  match parsed with
  | some t => .ok t
  | none => .error (GoError.new ("parsing time \"" ++ value ++ "\" as \"" ++ layout ++ "\""))

end GoTime

/-- The decimal digit character of a number below ten. -/
def digitChar (n : Nat) : Char := Char.ofNat (48 + n)

/-- A number below 100 in two digits. -/
def pad2 (n : Nat) : List Char := [digitChar (n / 10), digitChar (n % 10)]

/-- A number below 10000 in four digits. -/
def pad4 (n : Nat) : List Char :=
  [digitChar (n / 1000), digitChar (n / 100 % 10), digitChar (n / 10 % 10), digitChar (n % 10)]

/-- The date and time in the form `DD/MM/YYYY HH:MM:SS`. -/
def formDayFirst (year month day hour min sec : Nat) : String :=
  String.mk (pad2 day ++ '/' :: pad2 month ++ '/' :: pad4 year ++ ' ' :: pad2 hour ++
    ':' :: pad2 min ++ ':' :: pad2 sec)

/-- The date and time in the transposed form `DD HH:MM:SS/MM/YYYY`. -/
def formTransposed (year month day hour min sec : Nat) : String :=
  String.mk (pad2 day ++ ' ' :: pad2 hour ++ ':' :: pad2 min ++ ':' :: pad2 sec ++
    '/' :: pad2 month ++ '/' :: pad4 year)

/-- The library with the model of `time.Parse` and with the behaviour of
`strconv.ParseFloat` at some more strings: the literals of not-a-number and of
the infinities, and `245.5`. -/
def goLib : Lib :=
  { sampleLib with
    timeParse := GoTime.Parse
    parseFloat := fun s =>
      if s = "NaN" then .ok .nan
      else if s = "+Inf" then .ok .posInf
      else if s = "-Inf" then .ok .negInf
      else if s = "245.5" then .ok (.finite (mkRat 491 2))
      else sampleLib.parseFloat s }

/-- The zone offset, in seconds east of UTC, that an RFC 3339 date-time carries in
its text: zero when it ends in `Z`, and otherwise the hours and minutes of its
last six characters with their sign. -/
def writtenOffset (s : String) : Int :=
  match s.toList.reverse with
  | 'Z' :: _ => 0
  | m2 :: m1 :: _ :: h2 :: h1 :: sign :: _ =>
    let seconds : Nat :=
      ((GoTime.digitVal h1 * 10 + GoTime.digitVal h2) * 60 +
        (GoTime.digitVal m1 * 10 + GoTime.digitVal m2)) * 60
    if sign = '-' then -(seconds : Int) else (seconds : Int)
  | _ => 0

/-! ## The client registry on a model of the client table -/

/-- The rows of the table `meter_clients`, with the columns that the statements
of `GetOrCreateClient` name, in the order of their insertion. -/
abbrev ClientTable := List MeterClient

/-- Modelled from the spec: the constraints of the table `meter_clients`, whose
declaration is not in the source.  The specification gives the invariant that
the fingerprint is unique, and the generated surrogate ID identifies the row. -/
def ClientTable.WellFormed (table : ClientTable) : Prop :=
  (table.map fun r => r.ClientFingerprint).Nodup ∧ (table.map fun r => r.ID).Nodup

/-- What the database and the clock give to one call of `GetOrCreateClient`: the
value of `time.Now()`, the ID that the database generates for a new row, the
text that the cast `ip_address::text` gives for a stored address, and the error,
if any, with which the connection fails the select, the update and the insert. -/
structure DBCall where
  now : Time
  newID : UUID
  inetText : String → String
  queryError : Option GoError
  updateError : Option GoError
  insertError : Option GoError

/-- The statement `UPDATE meter_clients SET last_seen_at = $1 WHERE id = $2`. -/
def ClientTable.updateLastSeen (table : ClientTable) (now : Time) (id : UUID) : ClientTable :=
  table.map fun r => if r.ID = id then { r with LastSeenAt := now } else r

/-- The method `Repository.GetOrCreateClient` on the model of the table: the
client or the error it returns, and the table after the call.  The insert is
refused by the constraints of the table when the generated ID or the fingerprint
is already there. -/
def Repository.GetOrCreateClient (db : DBCall) (fingerprint ipAddress : String)
    (userAgent : Option String) (table : ClientTable) :
    Except GoError MeterClient × ClientTable :=
  match db.queryError with
  | some err => (.error (GoError.wrap "failed to query client: " err), table)
  | none =>
    match table.find? (fun r => r.ClientFingerprint == fingerprint) with
    | some row =>
      match db.updateError with
      | some err =>
        (.error (GoError.wrap "failed to update client last_seen_at: " err), table)
      | none =>
        (.ok { row with IPAddress := db.inetText row.IPAddress, LastSeenAt := db.now },
          table.updateLastSeen db.now row.ID)
    | none =>
      match db.insertError with
      | some err => (.error (GoError.wrap "failed to create client: " err), table)
      | none =>
        if table.any (fun r => r.ID == db.newID || r.ClientFingerprint == fingerprint) then
          (.error (GoError.wrap "failed to create client: "
            (GoError.new "duplicate key value violates unique constraint")), table)
        else
          (.ok { ID := db.newID, ClientFingerprint := fingerprint,
                 IPAddress := db.inetText ipAddress, UserAgent := userAgent,
                 FirstSeenAt := db.now, LastSeenAt := db.now, CreatedAt := db.now },
            table ++ [{ ID := db.newID, ClientFingerprint := fingerprint,
                        IPAddress := ipAddress, UserAgent := userAgent,
                        FirstSeenAt := db.now, LastSeenAt := db.now, CreatedAt := db.now }])

/-- A call of the sample database: the clock at `now`, the generated ID `id`, no
connection error, and the address in text as it was stored. -/
def sampleDBCall (now : Time) (id : Nat) : DBCall :=
  { now := now, newID := ⟨id⟩, inetText := fun s => s, queryError := none,
    updateError := none, insertError := none }

/-! ## The receive loop of the consumer -/

/-- One event of the receive loop: a delivery taken from the channel of
deliveries, or a call made while a delivery is handled. -/
inductive LoopEvent where
  | received (body : String)
  | call (c : DeliveryCall)
deriving DecidableEq, Repr

/-- The loop of the one goroutine that `Consumer.Start` starts, for the deliveries
that the channel yields before it is closed or the context is cancelled: a
delivery is received and `processMessage` is called on it, and only when that
call has returned is the next delivery received. -/
def Consumer.receiveLoop {σ : Type} (env : DeliveryEnv σ) : List String → σ → σ × List LoopEvent
  | [], w => (w, [])
  | body :: rest, w =>
    let r := Consumer.processMessage env body w
    let next := Consumer.receiveLoop env rest r.1
    (next.1, LoopEvent.received body :: (r.2.map LoopEvent.call ++ next.2))

/-- The change that an event makes to the number of deliveries in the state
Processing: a received delivery enters it, an acknowledged or refused one
leaves it. -/
def LoopEvent.delta : LoopEvent → Int
  | .received _ => 1
  | .call (.ack _) => -1
  | .call (.nack _ _) => -1
  | .call (.handler _ _) => 0

/-- The number of deliveries in the state Processing after a sequence of
events. -/
def inProcessing (events : List LoopEvent) : Int := (events.map LoopEvent.delta).sum

/-- The events of one pass of the receive loop: the delivery is received, the
handler is called, and the delivery is acknowledged or refused. -/
def passEvents (body : String) (ok : Bool) : List LoopEvent :=
  [LoopEvent.received body, LoopEvent.call (DeliveryCall.handler body ok),
    LoopEvent.call (if ok then DeliveryCall.ack false else DeliveryCall.nack false false)]

/-- The client that the sample database creates for the fingerprint `fp-2`. -/
def sampleCreated : MeterClient :=
  { ID := ⟨8⟩
    ClientFingerprint := "fp-2"
    IPAddress := "10.0.0.2"
    UserAgent := some "meter/1.0"
    FirstSeenAt := sampleReceivedAt
    LastSeenAt := sampleReceivedAt
    CreatedAt := sampleReceivedAt }

/-- The time of the second call on the sample database. -/
def sampleSecondCall : Time := Time.date 2025 12 29 10 40 0

/-! ## Effect of the recorded calls on the world state -/

/-- The result that a call records: whether it returned without error and, for
the detector, whether it reported an anomaly. -/
def Call.recorded : Call → Bool
  | .getOrCreateClient _ _ _ ok => ok
  | .beginTx ok => ok
  | .getRecentReadings _ _ _ ok => ok
  | .detectAnomaly _ _ isAnomaly => isAnomaly
  | .insertReading _ ok => ok
  | .commit ok => ok
  | .rollback => true
  | .publish _ _ ok => ok

/-- The operation of a collaborator that a recorded call stands for, run on a
world state: the result in the sense of `Call.recorded`, and the state that the
operation leaves.  A publish marshals the event and, when that succeeds, calls
`Publish` on the channel; the detector has no effect on the world. -/
def Call.run {σ : Type} (lib : Lib) (env : Env σ) (s : ProcessorService) : Call → σ → Bool × σ
  | .getOrCreateClient fingerprint ipAddress userAgent _, w =>
    (succeeded (env.getOrCreateClient fingerprint ipAddress userAgent w).1,
      (env.getOrCreateClient fingerprint ipAddress userAgent w).2)
  | .beginTx _, w => (succeeded (env.poolBegin w).1, (env.poolBegin w).2)
  | .getRecentReadings clientID metricName limit _, w =>
    (succeeded (env.queryRecentReadings clientID metricName limit w).1,
      (env.queryRecentReadings clientID metricName limit w).2)
  | .detectAnomaly value historicalValues _, w =>
    ((s.detector.DetectAnomaly value historicalValues).1, w)
  | .insertReading reading _, w =>
    (succeeded (env.txExecInsert reading w).1, (env.txExecInsert reading w).2)
  | .commit _, w => (succeeded (env.txCommit w).1, (env.txCommit w).2)
  | .rollback, w => (true, (env.txRollback w).2)
  | .publish event routingKey _, w =>
    match lib.marshal event with
    | .error _ => (false, w)
    | .ok body =>
      (succeeded (env.channelPublish s.publisher.exchange routingKey body w).1,
        (env.channelPublish s.publisher.exchange routingKey body w).2)

/-- The world state that the operations of a list of recorded calls leave when
they are run in order from `w`, provided that each of them gives the result that
the call records; `none` when one of them gives another result. -/
def replay {σ : Type} (lib : Lib) (env : Env σ) (s : ProcessorService) : List Call → σ → Option σ
  | [], w => some w
  | c :: rest, w =>
    if (c.run lib env s w).1 = c.recorded then replay lib env s rest (c.run lib env s w).2
    else none

/-- One operation written to the journal of the journalled collaborators. -/
inductive Op where
  | resolve (fingerprint : String)
  | begin
  | query (metricName : String)
  | insert (metricName : String) (ok : Bool)
  | commit (ok : Bool)
  | rollback
  | publish (exchange routingKey body : String) (ok : Bool)
deriving DecidableEq, Repr

/-- The collaborators `env` with a journal: every operation is run on `env` and
then written to the journal, which is part of the world state. -/
def journalled {σ : Type} (env : Env σ) : Env (σ × List Op) where
  getOrCreateClient := fun fingerprint ipAddress userAgent w =>
    ((env.getOrCreateClient fingerprint ipAddress userAgent w.1).1,
      (env.getOrCreateClient fingerprint ipAddress userAgent w.1).2,
      w.2 ++ [Op.resolve fingerprint])
  poolBegin := fun w => ((env.poolBegin w.1).1, (env.poolBegin w.1).2, w.2 ++ [Op.begin])
  queryRecentReadings := fun clientID metricName limit w =>
    ((env.queryRecentReadings clientID metricName limit w.1).1,
      (env.queryRecentReadings clientID metricName limit w.1).2,
      w.2 ++ [Op.query metricName])
  txExecInsert := fun reading w =>
    ((env.txExecInsert reading w.1).1, (env.txExecInsert reading w.1).2,
      w.2 ++ [Op.insert reading.MetricName (succeeded (env.txExecInsert reading w.1).1)])
  txCommit := fun w =>
    ((env.txCommit w.1).1, (env.txCommit w.1).2,
      w.2 ++ [Op.commit (succeeded (env.txCommit w.1).1)])
  txRollback := fun w => ((env.txRollback w.1).1, (env.txRollback w.1).2, w.2 ++ [Op.rollback])
  channelPublish := fun exchange routingKey body w =>
    ((env.channelPublish exchange routingKey body w.1).1,
      (env.channelPublish exchange routingKey body w.1).2,
      w.2 ++ [Op.publish exchange routingKey body
        (succeeded (env.channelPublish exchange routingKey body w.1).1)])

/-- A delivery whose handler fails on the empty body and only there, with a
tally of the calls of the handler, of `Ack` and of `Nack` as the world state. -/
def tallyDeliveryEnv : DeliveryEnv (Nat × Nat × Nat) where
  messageProcessor := fun body w =>
    if body = "" then (some (GoError.new "failed to unmarshal message"), w.1 + 1, w.2)
    else (none, w.1 + 1, w.2)
  ack := fun _ w => (.ok (), w.1, w.2.1 + 1, w.2.2)
  nack := fun _ _ w => (.ok (), w.1, w.2.1, w.2.2 + 1)

set_option maxRecDepth 100000

open ProcessorService

/-! ## The validator and the tolerance check -/

/-- C8: a metric with an empty name is rejected with the reason
"empty metric name", value 0 and the zero time, whatever the data string, the
date string, the receipt time, the tolerance and the library do. -/
theorem ValidateMetricData_empty_name (lib : Lib) (v : Validator) (metric : MetricData)
    (receivedAt : Time) (hname : metric.Name = "") :
    v.ValidateMetricData lib metric receivedAt =
      (Float64.zero, Time.zero, ⟨false, "empty metric name"⟩) := by
  simp [Validator.ValidateMetricData, hname]

/-- Witness of C8: empty name with unparseable data and an unparseable date. -/
theorem ValidateMetricData_empty_name_witness :
    (⟨5⟩ : Validator).ValidateMetricData sampleLib ⟨"not a date", "abc", ""⟩ sampleReceivedAt =
      (Float64.zero, Time.zero, ⟨false, "empty metric name"⟩) :=
  ValidateMetricData_empty_name sampleLib ⟨5⟩ ⟨"not a date", "abc", ""⟩ sampleReceivedAt rfl

/-- C9: a metric with a non-empty name whose data (after the brackets are
trimmed, as the validator does before it parses) parses to a value below zero is
rejected with the reason "negative value detected"; the parsed value itself is
returned, with the zero time, whatever the date string is. -/
theorem ValidateMetricData_negative (lib : Lib) (v : Validator) (metric : MetricData)
    (receivedAt : Time) (value : Float64) (hname : metric.Name ≠ "")
    (hparse : lib.parseFloat (stringsTrim metric.Data "[]") = .ok value)
    (hneg : value.lt Float64.zero = true) :
    v.ValidateMetricData lib metric receivedAt =
      (value, Time.zero, ⟨false, "negative value detected"⟩) := by
  simp [Validator.ValidateMetricData, hname, hparse, hneg]

/-- Witness of C9: the value -5 with a date that cannot be parsed. -/
theorem ValidateMetricData_negative_witness :
    (⟨5⟩ : Validator).ValidateMetricData sampleLib ⟨"not a date", "-5", "voltage"⟩
      sampleReceivedAt = (.finite (-5), Time.zero, ⟨false, "negative value detected"⟩) :=
  ValidateMetricData_negative sampleLib ⟨5⟩ ⟨"not a date", "-5", "voltage"⟩ sampleReceivedAt
    (.finite (-5)) (by decide) rfl (by decide)

/-- When the two instants are less than `2 ^ 63` nanoseconds apart and the
tolerance in nanoseconds fits in an `int64`, `IsWithinTolerance` compares the
absolute difference with the tolerance, inclusively. -/
theorem IsWithinTolerance_in_range (readingTime receivedTime : Time) (toleranceMinutes : Int)
    (hlo : minInt64 < readingTime.nanos - receivedTime.nanos)
    (hhi : readingTime.nanos - receivedTime.nanos ≤ maxInt64)
    (htlo : minInt64 ≤ toleranceMinutes * Minute) (hthi : toleranceMinutes * Minute ≤ maxInt64) :
    IsWithinTolerance readingTime receivedTime toleranceMinutes = true ↔
      |readingTime.nanos - receivedTime.nanos| ≤ toleranceMinutes * Minute := by
  unfold IsWithinTolerance Time.Sub wrapInt64
  simp only [minInt64, maxInt64] at *
  generalize readingTime.nanos - receivedTime.nanos = d at *
  generalize toleranceMinutes * Minute = t at *
  norm_num at *
  rw [abs_le]
  have h1 : (t + 9223372036854775808) % 18446744073709551616 = t + 9223372036854775808 := by
    omega
  have h2 : (-d + 9223372036854775808) % 18446744073709551616 = -d + 9223372036854775808 := by
    omega
  simp only [h1, h2]
  split_ifs <;> omega

/-- C10, evaluated: a reading time in the year 1700 and a receipt time in 2025
are more than 5 minutes apart, and `IsWithinTolerance` returns true for them
with tolerance 5: the saturated difference is the smallest `int64`, whose
negation wraps to itself and is below every tolerance. -/
theorem IsWithinTolerance_far_past :
    IsWithinTolerance (Time.date 1700 1 1 0 0 0) (Time.date 2025 12 29 10 35 0) 5 = true ∧
      ¬ |(Time.date 1700 1 1 0 0 0).nanos - (Time.date 2025 12 29 10 35 0).nanos| ≤
          5 * Minute := by
  decide

/-- The three scenarios of the tolerance check: exactly 5 minutes apart is
within, 5 minutes and a second is outside, and the order of the instants does
not matter. -/
theorem IsWithinTolerance_scenarios :
    IsWithinTolerance (Time.date 2025 12 29 10 30 0) (Time.date 2025 12 29 10 35 0) 5 = true ∧
    IsWithinTolerance (Time.date 2025 12 29 10 30 0) (Time.date 2025 12 29 10 35 1) 5 = false ∧
    IsWithinTolerance (Time.date 2025 12 29 10 35 0) (Time.date 2025 12 29 10 32 0) 5 = true := by
  decide

/-! ## The consumer -/

/-- C5: for every delivery, `processMessage` calls the handler once and then
makes one acknowledgment call: `Ack(false)` when the handler returned no error,
`Nack(false, false)` otherwise.  The world state it leaves is the state left by
that one call of `Ack` or `Nack`, made on the state that the handler left. -/
theorem processMessage_ack_decision {σ : Type} (env : DeliveryEnv σ) (body : String) (w : σ) :
    (Consumer.processMessage env body w).2 =
      (if (env.messageProcessor body w).1 = none then
        [DeliveryCall.handler body true, DeliveryCall.ack false]
      else [DeliveryCall.handler body false, DeliveryCall.nack false false]) ∧
    (Consumer.processMessage env body w).1 =
      if (env.messageProcessor body w).1 = none then
        (env.ack false (env.messageProcessor body w).2).2
      else (env.nack false false (env.messageProcessor body w).2).2 := by
  unfold Consumer.processMessage
  rcases h : env.messageProcessor body w with ⟨_ | e, w1⟩ <;> simp

/-! ## The message processor -/

/-- C6: a body that `json.Unmarshal` rejects makes `ProcessMessage` return an
error without any call to the repository, the transaction or the publisher, and
without a change of the world state. -/
theorem ProcessMessage_undecodable {σ : Type} (lib : Lib) (env : Env σ) (s : ProcessorService)
    (body : String) (w : σ) (err : GoError) (hbody : lib.unmarshal body = .error err) :
    ProcessorService.ProcessMessage lib env s body w =
      (some (GoError.wrap "failed to unmarshal message: " err), w, []) := by
  simp [ProcessorService.ProcessMessage, hbody]

/-- Witness of C6: the body `not json`. -/
theorem ProcessMessage_undecodable_witness :
    ProcessorService.ProcessMessage sampleLib (sampleEnv none (some []) true fun _ => true)
        sampleService "not json" ⟨0, 0⟩ =
      (some (GoError.wrap "failed to unmarshal message: " (GoError.new "invalid character")),
        ⟨0, 0⟩, []) :=
  ProcessMessage_undecodable sampleLib (sampleEnv none (some []) true fun _ => true) sampleService
    "not json" ⟨0, 0⟩ (GoError.new "invalid character") rfl

/-! ## Lemmas on the loops of the message processor -/

theorem Call.isQuiet_facts {c : Call} (h : c.isQuiet = true) :
    c.isHardFailure = false ∧ c.isCommit = false ∧ c.isPublish = false ∧
      c.published = none ∧ c ≠ Call.rollback := by
  cases c with
  | insertReading r ok =>
    cases ok <;> simp_all [Call.isQuiet, Call.isHardFailure, Call.isCommit, Call.isPublish,
      Call.published]
  | _ =>
    simp_all [Call.isQuiet, Call.isHardFailure, Call.isCommit, Call.isPublish, Call.published]

theorem scoreReading_quiet {σ : Type} (lib : Lib) (env : Env σ) (s : ProcessorService)
    (clientID : UUID) (pm : PMData) (receivedAt : Time) (w : σ) :
    (∀ c ∈ (scoreReading lib env s clientID pm receivedAt w).2.2, c.isQuiet = true) ∧
      (scoreReading lib env s clientID pm receivedAt w).2.2.filterMap Call.inserted = [] := by
  unfold scoreReading
  simp only
  split
  · simp
  · split <;> [skip; split] <;> simp [Call.isQuiet, Call.inserted]

theorem processSingleReading_cases {σ : Type} (lib : Lib) (env : Env σ) (s : ProcessorService)
    (clientID : UUID) (pm : PMData) (receivedAt : Time) (rawPayload : String) (w : σ) :
    (∃ err pre reading,
      (processSingleReading lib env s clientID pm receivedAt rawPayload w).1 = .error err ∧
      (processSingleReading lib env s clientID pm receivedAt rawPayload w).2.2 =
        pre ++ [Call.insertReading reading false] ∧
      ∀ c ∈ pre, c.isQuiet = true) ∨
    (∃ sc,
      (processSingleReading lib env s clientID pm receivedAt rawPayload w).1 =
        .ok (buildEvent lib sc clientID pm) ∧
      (∀ c ∈ (processSingleReading lib env s clientID pm receivedAt rawPayload w).2.2,
        c.isQuiet = true) ∧
      (processSingleReading lib env s clientID pm receivedAt rawPayload w).2.2.filterMap
        Call.inserted = [buildReading sc clientID pm receivedAt rawPayload]) := by
  have hq := scoreReading_quiet lib env s clientID pm receivedAt w
  unfold processSingleReading
  simp only
  split
  · left
    exact ⟨_, _, _, rfl, rfl, hq.1⟩
  · right
    refine ⟨_, rfl, ?_, ?_⟩
    · intro c hc
      rcases List.mem_append.mp hc with h | h
      · exact hq.1 c h
      · simp at h; subst h; rfl
    · simp [List.filterMap_append, hq.2, Call.inserted]

theorem buildEvent_key (lib : Lib) (sc : Scored) (clientID : UUID) (pm : PMData)
    (receivedAt : Time) (rawPayload : String) :
    readingKey lib (buildReading sc clientID pm receivedAt rawPayload) =
      eventKey (buildEvent lib sc clientID pm) := rfl

theorem readingsLoop_cases {σ : Type} (lib : Lib) (env : Env σ) (s : ProcessorService)
    (clientID : UUID) (receivedAt : Time) (rawPayload : String) (pms : List PMData) :
    ∀ (acc : List ProcessedEvent) (w : σ),
    (∃ err pre reading,
      (readingsLoop lib env s clientID receivedAt rawPayload pms acc w).1 = .error err ∧
      (readingsLoop lib env s clientID receivedAt rawPayload pms acc w).2.2 =
        pre ++ [Call.insertReading reading false] ∧
      ∀ c ∈ pre, c.isQuiet = true) ∨
    (∃ events,
      (readingsLoop lib env s clientID receivedAt rawPayload pms acc w).1 = .ok (acc ++ events) ∧
      (∀ c ∈ (readingsLoop lib env s clientID receivedAt rawPayload pms acc w).2.2,
        c.isQuiet = true) ∧
      ((readingsLoop lib env s clientID receivedAt rawPayload pms acc w).2.2.filterMap
        Call.inserted).map (readingKey lib) = events.map eventKey ∧
      ((readingsLoop lib env s clientID receivedAt rawPayload pms acc w).2.2.filterMap
        Call.inserted).map (fun r => r.MetricName) = pms.map (fun pm => pm.Name)) := by
  induction pms with
  | nil =>
    intro acc w
    right
    exact ⟨[], by simp [readingsLoop]⟩
  | cons pm rest ih =>
    intro acc w
    rcases processSingleReading_cases lib env s clientID pm receivedAt rawPayload w with
      ⟨err, pre, reading, h1, h2, h3⟩ | ⟨sc, h1, h2, h3⟩
    · left
      rcases hp : processSingleReading lib env s clientID pm receivedAt rawPayload w with
        ⟨res, w1, calls⟩
      rw [hp] at h1 h2
      simp only at h1 h2
      subst h1 h2
      exact ⟨GoError.wrap "failed to process reading: " err, pre, reading,
        by simp [readingsLoop, hp], by simp [readingsLoop, hp], h3⟩
    · rcases hp : processSingleReading lib env s clientID pm receivedAt rawPayload w with
        ⟨res, w1, calls⟩
      rw [hp] at h1 h2 h3
      simp only at h1 h2 h3
      subst h1
      rcases ih (acc ++ [buildEvent lib sc clientID pm]) w1 with
        ⟨err, pre, reading, g1, g2, g3⟩ | ⟨events, g1, g2, g3, g4⟩
      · left
        refine ⟨err, calls ++ pre, reading, by simp [readingsLoop, hp, g1],
          by simp [readingsLoop, hp, g2], ?_⟩
        intro c hc
        rcases List.mem_append.mp hc with h | h
        · exact h2 c h
        · exact g3 c h
      · right
        refine ⟨buildEvent lib sc clientID pm :: events, by simp [readingsLoop, hp, g1], ?_, ?_, ?_⟩
        · intro c hc
          simp only [readingsLoop, hp] at hc
          rcases List.mem_append.mp hc with h | h
          · exact h2 c h
          · exact g2 c h
        · simp only [readingsLoop, hp, List.filterMap_append, h3, List.map_append, g3]
          simp [buildEvent_key]
        · simp only [readingsLoop, hp, List.filterMap_append, h3, List.map_append, g4]
          simp [buildReading]

theorem publishLoop_calls {σ : Type} (lib : Lib) (env : Env σ) (s : ProcessorService)
    (events : List ProcessedEvent) :
    ∀ w : σ, (∀ c ∈ (publishLoop lib env s events w).2, c.isPublish = true) ∧
      (publishLoop lib env s events w).2.filterMap Call.published = events := by
  induction events with
  | nil => intro w; simp [publishLoop]
  | cons e rest ih =>
    intro w
    have h := ih (s.publisher.PublishProcessedEvent lib env e s.workerRoutingKey w).2
    constructor
    · intro c hc
      simp only [publishLoop, List.mem_cons] at hc
      rcases hc with rfl | hc
      · rfl
      · exact h.1 c hc
    · simp only [publishLoop, List.filterMap_cons, Call.published, h.2]

theorem inTransaction_outcome {σ : Type} (lib : Lib) (env : Env σ) (s : ProcessorService)
    (client : MeterClient) (msg : IngestMessage) (body : String) (w : σ)
    (hbody : lib.unmarshal body = .ok msg) (fingerprint ipAddress : String)
    (userAgent : Option String) :
    Outcome lib body (inTransaction lib env s client msg body w).1
      ([Call.getOrCreateClient fingerprint ipAddress userAgent true, Call.beginTx true] ++
        (inTransaction lib env s client msg body w).2.2 ++ [Call.rollback]) := by
  unfold inTransaction
  rcases readingsLoop_cases lib env s client.ID msg.ReceivedAt body msg.Payload.PM [] w with
    ⟨err, pre, reading, h1, h2, h3⟩ | ⟨events, h1, h2, h3, h4⟩
  · rcases hl : readingsLoop lib env s client.ID msg.ReceivedAt body msg.Payload.PM [] w with
      ⟨res, w1, calls⟩
    rw [hl] at h1 h2
    simp only at h1 h2
    subst h1 h2
    have := Outcome.insertFailed msg hbody err fingerprint ipAddress userAgent pre h3 reading
    simpa using this
  · rcases hl : readingsLoop lib env s client.ID msg.ReceivedAt body msg.Payload.PM [] w with
      ⟨res, w1, calls⟩
    rw [hl] at h1 h2 h3 h4
    simp only [List.nil_append] at h1 h2 h3 h4
    subst h1
    simp only
    rcases hc : env.txCommit w1 with ⟨_ | _, w2⟩
    · have := Outcome.commitFailed msg hbody
        (GoError.wrap "failed to commit transaction: " ‹GoError›) fingerprint ipAddress userAgent
        calls h2
      simpa using this
    · have hp := publishLoop_calls lib env s events w2
      have := Outcome.committed msg hbody fingerprint ipAddress userAgent calls h2 events h3 h4
        (publishLoop lib env s events w2).2 hp.1 hp.2
      simpa using this

/-- Every execution of `ProcessMessage` has one of the shapes of `Outcome`. -/
theorem ProcessMessage_outcome {σ : Type} (lib : Lib) (env : Env σ) (s : ProcessorService)
    (body : String) (w : σ) :
    Outcome lib body (ProcessMessage lib env s body w).1 (ProcessMessage lib env s body w).2.2 := by
  unfold ProcessMessage
  rcases hbody : lib.unmarshal body with err | msg
  · exact Outcome.undecodable err hbody
  · simp only
    split
    · exact Outcome.clientFailed msg hbody _ _ _ _
    · simp only [Repository.BeginTx]
      split
      · exact Outcome.beginFailed msg hbody _ _ _ _
      · exact inTransaction_outcome lib env s _ msg body _ hbody _ _ _

/-! ## The claims on the message processor -/

theorem filterMap_eq_nil_of_forall {α β : Type} (f : α → Option β) (l : List α)
    (h : ∀ x ∈ l, f x = none) : l.filterMap f = [] := by
  induction l with
  | nil => rfl
  | cons a l ih =>
    have ha := h a (List.mem_cons_self a l)
    simp only [List.filterMap_cons, ha]
    exact ih fun x hx => h x (List.mem_cons_of_mem a hx)

theorem quiet_published_nil (loop : List Call) (h : ∀ c ∈ loop, c.isQuiet = true) :
    loop.filterMap Call.published = [] :=
  filterMap_eq_nil_of_forall _ _ fun c hc => (Call.isQuiet_facts (h c hc)).2.2.2.1

theorem publish_inserted_nil (pubs : List Call) (h : ∀ c ∈ pubs, c.isPublish = true) :
    pubs.filterMap Call.inserted = [] := by
  apply filterMap_eq_nil_of_forall
  intro c hc
  have := h c hc
  cases c <;> simp_all [Call.isPublish, Call.inserted]

/-- An execution on a decodable body without a failed client resolution, begin,
insert or commit is a committed one: readings and events correspond to the
sub-readings one to one. -/
theorem round_trip_of_no_failure {σ : Type} (lib : Lib) (env : Env σ) (s : ProcessorService)
    (body : String) (w : σ) (msg : IngestMessage) (hbody : lib.unmarshal body = .ok msg)
    (hok : ∀ c ∈ (ProcessMessage lib env s body w).2.2, c.isHardFailure = false) :
    (ProcessMessage lib env s body w).1 = none ∧
    ((ProcessMessage lib env s body w).2.2.filterMap Call.inserted).length =
      msg.Payload.PM.length ∧
    ((ProcessMessage lib env s body w).2.2.filterMap Call.published).length =
      msg.Payload.PM.length ∧
    ((ProcessMessage lib env s body w).2.2.filterMap Call.inserted).map (fun r => r.MetricName) =
      msg.Payload.PM.map (fun pm => pm.Name) ∧
    ((ProcessMessage lib env s body w).2.2.filterMap Call.published).map eventKey =
      ((ProcessMessage lib env s body w).2.2.filterMap Call.inserted).map (readingKey lib) := by
  have h := ProcessMessage_outcome lib env s body w
  rcases hpm : ProcessMessage lib env s body w with ⟨res, w1, trace⟩
  rw [hpm] at h hok
  simp only at h hok ⊢
  cases h with
  | undecodable err hb => simp [hbody] at hb
  | clientFailed _ _ _ f i u => simpa [Call.isHardFailure] using hok _ (List.mem_singleton_self _)
  | beginFailed _ _ _ f i u =>
    have := hok (Call.beginTx false) (by simp)
    simp [Call.isHardFailure] at this
  | insertFailed _ _ _ f i u loop hloop reading =>
    have := hok (Call.insertReading reading false) (by simp)
    simp [Call.isHardFailure] at this
  | commitFailed _ _ _ f i u loop hloop =>
    have := hok (Call.commit false) (by simp)
    simp [Call.isHardFailure] at this
  | committed msg1 hb f i u loop hloop events hkeys hnames pubs hpubs hevents =>
    have hm : msg1 = msg := by
      rw [hbody] at hb
      exact (Except.ok.inj hb).symm
    subst hm
    have hins : ([Call.getOrCreateClient f i u true, Call.beginTx true] ++ loop ++
        [Call.commit true] ++ pubs ++ [Call.rollback]).filterMap Call.inserted =
        loop.filterMap Call.inserted := by
      simp [List.filterMap_append, Call.inserted, publish_inserted_nil pubs hpubs]
    have hpub : ([Call.getOrCreateClient f i u true, Call.beginTx true] ++ loop ++
        [Call.commit true] ++ pubs ++ [Call.rollback]).filterMap Call.published = events := by
      simp [List.filterMap_append, Call.published, quiet_published_nil loop hloop, hevents]
    rw [hins, hpub]
    have hlen1 : (loop.filterMap Call.inserted).length = msg1.Payload.PM.length := by
      simpa using congrArg List.length hnames
    have hlen2 : events.length = (loop.filterMap Call.inserted).length := by
      simpa using (congrArg List.length hkeys).symm
    exact ⟨rfl, hlen1, hlen2.trans hlen1, hnames, hkeys.symm⟩

/-! ## The recorded calls are the calls made -/

/-- Replaying two lists of calls one after the other. -/
theorem replay_append {σ : Type} (lib : Lib) (env : Env σ) (s : ProcessorService)
    (a b : List Call) (w : σ) :
    replay lib env s (a ++ b) w = (replay lib env s a w).bind (replay lib env s b) := by
  induction a generalizing w with
  | nil => rfl
  | cons c rest ih =>
    simp only [List.cons_append, replay]
    split
    · exact ih _
    · rfl

/-- The calls that `scoreReading` records are the calls it made, with their
results, and its world state is the state they leave. -/
theorem scoreReading_replay {σ : Type} (lib : Lib) (env : Env σ) (s : ProcessorService)
    (clientID : UUID) (pm : PMData) (receivedAt : Time) (w : σ) :
    replay lib env s (scoreReading lib env s clientID pm receivedAt w).2.2 w =
      some (scoreReading lib env s clientID pm receivedAt w).2.1 := by
  unfold scoreReading
  simp only
  split
  · rfl
  · rcases hh : env.queryRecentReadings clientID pm.Name 10 w with ⟨_ | hist, w1⟩
    · simp [replay, Call.run, Call.recorded, hh, succeeded]
    · simp only
      split <;> simp_all [replay, Call.run, Call.recorded, hh, succeeded]

/-- The calls that `processSingleReading` records are the calls it made. -/
theorem processSingleReading_replay {σ : Type} (lib : Lib) (env : Env σ)
    (s : ProcessorService) (clientID : UUID) (pm : PMData) (receivedAt : Time)
    (rawPayload : String) (w : σ) :
    replay lib env s (processSingleReading lib env s clientID pm receivedAt rawPayload w).2.2 w =
      some (processSingleReading lib env s clientID pm receivedAt rawPayload w).2.1 := by
  have hs := scoreReading_replay lib env s clientID pm receivedAt w
  unfold processSingleReading Repository.InsertMeterReadingTx
  simp only
  rcases hi : env.txExecInsert
    (buildReading (scoreReading lib env s clientID pm receivedAt w).1 clientID pm receivedAt
      rawPayload) (scoreReading lib env s clientID pm receivedAt w).2.1 with ⟨err | u, w2⟩
  · simp [replay_append, hs, replay, Call.run, Call.recorded, hi, succeeded]
  · simp [replay_append, hs, replay, Call.run, Call.recorded, hi, succeeded]

/-- The calls that the loop over the sub-readings records are the calls it
made. -/
theorem readingsLoop_replay {σ : Type} (lib : Lib) (env : Env σ) (s : ProcessorService)
    (clientID : UUID) (receivedAt : Time) (rawPayload : String) (pms : List PMData) :
    ∀ (acc : List ProcessedEvent) (w : σ),
    replay lib env s (readingsLoop lib env s clientID receivedAt rawPayload pms acc w).2.2 w =
      some (readingsLoop lib env s clientID receivedAt rawPayload pms acc w).2.1 := by
  induction pms with
  | nil => intro acc w; rfl
  | cons pm rest ih =>
    intro acc w
    have hp := processSingleReading_replay lib env s clientID pm receivedAt rawPayload w
    unfold readingsLoop
    rcases hr : processSingleReading lib env s clientID pm receivedAt rawPayload w with
      ⟨err | event, w1, calls⟩
    · rw [hr] at hp
      simpa using hp
    · rw [hr] at hp
      simp only at hp ⊢
      rw [replay_append, hp]
      exact ih _ _

/-- The calls that the publish loop records are the calls it made. -/
theorem publishLoop_replay {σ : Type} (lib : Lib) (env : Env σ) (s : ProcessorService)
    (events : List ProcessedEvent) :
    ∀ w : σ, replay lib env s (publishLoop lib env s events w).2 w =
      some (publishLoop lib env s events w).1 := by
  induction events with
  | nil => intro w; rfl
  | cons event rest ih =>
    intro w
    unfold publishLoop Publisher.PublishProcessedEvent
    simp only
    rcases hm : lib.marshal event with err | body
    · simp only [replay, Call.run, Call.recorded, hm, succeeded, if_true]
      exact ih _
    · simp only
      rcases hc : env.channelPublish s.publisher.exchange s.workerRoutingKey body w with
        ⟨err | u, w1⟩
      · simp only [replay, Call.run, Call.recorded, hm, hc, succeeded, if_true]
        exact ih _
      · simp only [replay, Call.run, Call.recorded, hm, hc, succeeded, if_true]
        exact ih _

/-- The calls that `inTransaction` records are the calls it made. -/
theorem inTransaction_replay {σ : Type} (lib : Lib) (env : Env σ) (s : ProcessorService)
    (client : MeterClient) (msg : IngestMessage) (body : String) (w : σ) :
    replay lib env s (inTransaction lib env s client msg body w).2.2 w =
      some (inTransaction lib env s client msg body w).2.1 := by
  have hl := readingsLoop_replay lib env s client.ID msg.ReceivedAt body msg.Payload.PM [] w
  unfold inTransaction
  rcases hr : readingsLoop lib env s client.ID msg.ReceivedAt body msg.Payload.PM [] w with
    ⟨err | events, w1, calls⟩
  · rw [hr] at hl
    simpa using hl
  · rw [hr] at hl
    simp only at hl ⊢
    rcases hc : env.txCommit w1 with ⟨err | u, w2⟩
    · simp [replay_append, hl, replay, Call.run, Call.recorded, hc, succeeded]
    · simp [replay_append, hl, replay, Call.run, Call.recorded, hc, succeeded,
        publishLoop_replay]

/-- The calls that `ProcessMessage` records are the calls it made to the
collaborators, in that order and with the recorded results, and the world state
it returns is the state that these calls leave. -/
theorem ProcessMessage_replay {σ : Type} (lib : Lib) (env : Env σ) (s : ProcessorService)
    (body : String) (w : σ) :
    replay lib env s (ProcessMessage lib env s body w).2.2 w =
      some (ProcessMessage lib env s body w).2.1 := by
  unfold ProcessMessage Repository.BeginTx
  rcases hu : lib.unmarshal body with err | msg
  · rfl
  · simp only
    generalize (if msg.UserAgent ≠ "" then some msg.UserAgent else none : Option String) = ua
    rcases hg : env.getOrCreateClient msg.ClientFingerprint msg.IPAddress ua w with
      ⟨err | client, w1⟩
    · simp [replay, Call.run, Call.recorded, hg, succeeded]
    · simp only
      rcases hb : env.poolBegin w1 with ⟨err | u, w2⟩
      · simp [replay, Call.run, Call.recorded, hg, hb, succeeded]
      · simp [replay, replay_append, Call.run, Call.recorded, hg, hb, succeeded,
          inTransaction_replay]

/-- C1: when the body decodes and no client resolution, transaction begin,
insert or commit fails, `ProcessMessage` returns no error, inserts one reading
per sub-reading and offers one event per sub-reading to the publisher, both in
the order of `payload.PM`, and the events agree with the inserted readings,
position by position, in client ID, metric name, metric value and validation
status.  The recorded inserts and publishes are calls made to the transaction
and to the channel: the world state that `ProcessMessage` leaves is the state
left by the operations of the recorded calls, run in their order. -/
theorem ProcessMessage_round_trip {σ : Type} (lib : Lib) (env : Env σ) (s : ProcessorService)
    (body : String) (w : σ) (msg : IngestMessage) (hbody : lib.unmarshal body = .ok msg)
    (hok : ∀ c ∈ (ProcessMessage lib env s body w).2.2, c.isHardFailure = false) :
    (ProcessMessage lib env s body w).1 = none ∧
    ((ProcessMessage lib env s body w).2.2.filterMap Call.inserted).length =
      msg.Payload.PM.length ∧
    ((ProcessMessage lib env s body w).2.2.filterMap Call.published).length =
      msg.Payload.PM.length ∧
    ((ProcessMessage lib env s body w).2.2.filterMap Call.inserted).map (fun r => r.MetricName) =
      msg.Payload.PM.map (fun pm => pm.Name) ∧
    ((ProcessMessage lib env s body w).2.2.filterMap Call.published).map eventKey =
      ((ProcessMessage lib env s body w).2.2.filterMap Call.inserted).map (readingKey lib) ∧
    (∀ c ∈ (ProcessMessage lib env s body w).2.2, ∀ r, c.inserted = some r →
      c = Call.insertReading r true) ∧
    replay lib env s (ProcessMessage lib env s body w).2.2 w =
      some (ProcessMessage lib env s body w).2.1 := by
  have h := round_trip_of_no_failure lib env s body w msg hbody hok
  refine ⟨h.1, h.2.1, h.2.2.1, h.2.2.2.1, h.2.2.2.2, ?_, ProcessMessage_replay lib env s body w⟩
  intro c hc r hr
  have hf := hok c hc
  cases c with
  | insertReading reading ok =>
    cases ok
    · simp [Call.isHardFailure] at hf
    · simp only [Call.inserted, Option.some.injEq] at hr
      rw [hr]
  | _ => simp [Call.inserted] at hr

/-- Witness of C1: the sample message with three sub-readings, one valid and two
invalid, with collaborators that all succeed and keep a journal; the journal
shows the three inserts before the commit and the three publishes after it. -/
theorem ProcessMessage_round_trip_witness :
    (ProcessMessage sampleLib (journalled (sampleEnv none (some []) true fun _ => true))
      sampleService sampleBody (⟨0, 0⟩, [])).1 = none ∧
    ((ProcessMessage sampleLib (journalled (sampleEnv none (some []) true fun _ => true))
      sampleService sampleBody (⟨0, 0⟩, [])).2.2.filterMap Call.inserted).length = 3 ∧
    ((ProcessMessage sampleLib (journalled (sampleEnv none (some []) true fun _ => true))
      sampleService sampleBody (⟨0, 0⟩, [])).2.2.filterMap Call.published).length = 3 ∧
    (ProcessMessage sampleLib (journalled (sampleEnv none (some []) true fun _ => true))
      sampleService sampleBody (⟨0, 0⟩, [])).2.1 =
      (⟨3, 3⟩, [Op.resolve "fp-1", Op.begin, Op.query "power_consumption",
        Op.insert "power_consumption" true, Op.insert "voltage" true, Op.insert "" true,
        Op.commit true,
        Op.publish "energy.events" "reading.processed" "event power_consumption" true,
        Op.publish "energy.events" "reading.processed" "event voltage" true,
        Op.publish "energy.events" "reading.processed" "event " true, Op.rollback]) :=
  have h := ProcessMessage_round_trip sampleLib
    (journalled (sampleEnv none (some []) true fun _ => true)) sampleService sampleBody
    (⟨0, 0⟩, []) sampleMessage rfl (by decide)
  ⟨h.1, h.2.1, h.2.2.1, by decide⟩

theorem quiet_forall (loop : List Call) (h : ∀ c ∈ loop, c.isQuiet = true) :
    (∀ c ∈ loop, c.isHardFailure = false) ∧ (∀ c ∈ loop, c.isCommit = false) ∧
      (∀ c ∈ loop, c.isPublish = false) :=
  ⟨fun c hc => (Call.isQuiet_facts (h c hc)).1, fun c hc => (Call.isQuiet_facts (h c hc)).2.1,
    fun c hc => (Call.isQuiet_facts (h c hc)).2.2.1⟩

theorem quiet_not_mem (loop : List Call) (h : ∀ c ∈ loop, c.isQuiet = true) :
    (∀ r, Call.insertReading r false ∉ loop) ∧ (∀ ok, Call.commit ok ∉ loop) :=
  ⟨fun r hr => by simpa [Call.isQuiet] using h _ hr,
    fun ok hr => by simpa [Call.isQuiet] using h _ hr⟩

theorem publish_not_mem (pubs : List Call) (h : ∀ c ∈ pubs, c.isPublish = true) :
    (∀ r, Call.insertReading r false ∉ pubs) ∧ (∀ ok, Call.commit ok ∉ pubs) :=
  ⟨fun r hr => by simpa [Call.isPublish] using h _ hr,
    fun ok hr => by simpa [Call.isPublish] using h _ hr⟩

/-- The trace of an execution in which an insert fails: no commit and no
publish, and the failed insert followed by the rollback at the end. -/
theorem insert_failure_trace {σ : Type} (lib : Lib) (env : Env σ)
    (s : ProcessorService) (body : String) (w : σ) (reading : MeterReading)
    (hfail : Call.insertReading reading false ∈ (ProcessMessage lib env s body w).2.2) :
    (ProcessMessage lib env s body w).1.isSome = true ∧
    (∀ c ∈ (ProcessMessage lib env s body w).2.2, c.isCommit = false) ∧
    (∀ c ∈ (ProcessMessage lib env s body w).2.2, c.isPublish = false) ∧
    ∃ pre, (ProcessMessage lib env s body w).2.2 =
        pre ++ [Call.insertReading reading false, Call.rollback] ∧
      ∀ c ∈ pre, c.isHardFailure = false := by
  have h := ProcessMessage_outcome lib env s body w
  rcases hpm : ProcessMessage lib env s body w with ⟨res, w1, trace⟩
  rw [hpm] at h hfail
  simp only at h hfail ⊢
  cases h with
  | undecodable err hb => simp at hfail
  | clientFailed _ _ _ f i u => simp at hfail
  | beginFailed _ _ _ f i u => simp at hfail
  | insertFailed _ _ _ f i u loop hloop r =>
    have hq := quiet_forall loop hloop
    have hr : reading = r := by
      simpa [(quiet_not_mem loop hloop).1] using hfail
    subst hr
    refine ⟨rfl, ?_, ?_, [Call.getOrCreateClient f i u true, Call.beginTx true] ++ loop, ?_, ?_⟩
    · simpa [Call.isCommit, or_imp, forall_and] using hq.2.1
    · simpa [Call.isPublish, or_imp, forall_and] using hq.2.2
    · simp
    · simpa [Call.isHardFailure, or_imp, forall_and] using hq.1
  | commitFailed _ _ _ f i u loop hloop =>
    simp [(quiet_not_mem loop hloop).1] at hfail
  | committed _ _ f i u loop hloop events hkeys hnames pubs hpubs hevents =>
    simp [(quiet_not_mem loop hloop).1, (publish_not_mem pubs hpubs).1] at hfail

/-- C2: when the insert of a sub-reading fails, `ProcessMessage` returns an
error, the call trace contains no commit and no publish, and it ends with the
failed insert followed by the rollback: nothing is processed after the failed
insert, however many calls, all without failure, were made before it.  The
rollback is a call made to the transaction: the world state that
`ProcessMessage` leaves is the state left by `Rollback`, called on the state
that the failed insert left. -/
theorem ProcessMessage_insert_failure {σ : Type} (lib : Lib) (env : Env σ)
    (s : ProcessorService) (body : String) (w : σ) (reading : MeterReading)
    (hfail : Call.insertReading reading false ∈ (ProcessMessage lib env s body w).2.2) :
    (ProcessMessage lib env s body w).1.isSome = true ∧
    (∀ c ∈ (ProcessMessage lib env s body w).2.2, c.isCommit = false) ∧
    (∀ c ∈ (ProcessMessage lib env s body w).2.2, c.isPublish = false) ∧
    ∃ pre w1, (ProcessMessage lib env s body w).2.2 =
        pre ++ [Call.insertReading reading false, Call.rollback] ∧
      (∀ c ∈ pre, c.isHardFailure = false) ∧
      replay lib env s pre w = some w1 ∧
      succeeded (env.txExecInsert reading w1).1 = false ∧
      (ProcessMessage lib env s body w).2.1 =
        (env.txRollback (env.txExecInsert reading w1).2).2 := by
  obtain ⟨h1, h2, h3, pre, htrace, hpre⟩ := insert_failure_trace lib env s body w reading hfail
  refine ⟨h1, h2, h3, pre, ?_⟩
  have hrep := ProcessMessage_replay lib env s body w
  rw [htrace, replay_append] at hrep
  rcases hp : replay lib env s pre w with _ | w1
  · rw [hp] at hrep
    simp at hrep
  · rw [hp] at hrep
    refine ⟨w1, htrace, hpre, rfl, ?_⟩
    simp only [Option.some_bind, replay, Call.run, Call.recorded] at hrep
    by_cases hs : succeeded (env.txExecInsert reading w1).1 = false
    · simp only [hs, if_true, Option.some.injEq] at hrep
      exact ⟨hs, hrep.symm⟩
    · simp [hs] at hrep

/-- Witness of C2: the insert of the second of the three sample sub-readings
fails; the journal of the collaborators ends with the failed insert and the
rollback, and has no commit and no publish. -/
theorem ProcessMessage_insert_failure_witness :
    (ProcessMessage sampleLib (journalled (sampleEnv (some 1) (some []) true fun _ => true))
      sampleService sampleBody (⟨0, 0⟩, [])).1.isSome = true ∧
    ((ProcessMessage sampleLib (journalled (sampleEnv (some 1) (some []) true fun _ => true))
      sampleService sampleBody (⟨0, 0⟩, [])).2.2.filterMap Call.inserted).length = 2 ∧
    (∀ c ∈ (ProcessMessage sampleLib
      (journalled (sampleEnv (some 1) (some []) true fun _ => true)) sampleService
      sampleBody (⟨0, 0⟩, [])).2.2, c.isPublish = false) ∧
    (ProcessMessage sampleLib (journalled (sampleEnv (some 1) (some []) true fun _ => true))
      sampleService sampleBody (⟨0, 0⟩, [])).2.1 =
      (⟨2, 0⟩, [Op.resolve "fp-1", Op.begin, Op.query "power_consumption",
        Op.insert "power_consumption" true, Op.insert "voltage" false, Op.rollback]) :=
  have h := ProcessMessage_insert_failure sampleLib
    (journalled (sampleEnv (some 1) (some []) true fun _ => true))
    sampleService sampleBody (⟨0, 0⟩, [])
    { ID := ⟨0⟩, ClientID := ⟨7⟩, MetricName := "voltage", MetricValue := .finite (-5),
      ReadingTimestamp := sampleReceivedAt, ReceivedAt := sampleReceivedAt,
      ValidationStatus := "invalid", AnomalyReason := some "negative value detected",
      RawPayload := sampleBody } (by decide)
  ⟨h.1, by decide, h.2.2.1, by decide⟩

theorem mem_before_split {α : Type} (p : α → Bool) (x c : α) (hx : p x = false)
    (hc : p c = true) (a : List α) :
    ∀ (rest pre post : List α), (∀ y ∈ a, p y = false) → a ++ x :: rest = pre ++ c :: post →
      x ∈ pre := by
  induction a with
  | nil =>
    intro rest pre post _ h
    cases pre with
    | nil =>
      simp only [List.nil_append, List.cons.injEq] at h
      rw [h.1, hc] at hx
      cases hx
    | cons z pre1 =>
      simp only [List.nil_append, List.cons_append, List.cons.injEq] at h
      rw [h.1]
      exact List.mem_cons_self _ _
  | cons y a1 ih =>
    intro rest pre post ha h
    cases pre with
    | nil =>
      simp only [List.nil_append, List.cons_append, List.cons.injEq] at h
      have := ha y (List.mem_cons_self _ _)
      rw [h.1, hc] at this
      cases this
    | cons z pre1 =>
      simp only [List.cons_append, List.cons.injEq] at h
      exact List.mem_cons_of_mem _
        (ih rest pre1 post (fun y1 hy => ha y1 (List.mem_cons_of_mem _ hy)) h.2)

/-- C3: in every execution of `ProcessMessage`, every publish call is preceded
in the call trace by a commit that succeeded; and when the commit fails,
`ProcessMessage` returns an error and the trace contains no publish call. -/
theorem ProcessMessage_publish_after_commit {σ : Type} (lib : Lib) (env : Env σ)
    (s : ProcessorService) (body : String) (w : σ) :
    (∀ pre c post, (ProcessMessage lib env s body w).2.2 = pre ++ c :: post →
      c.isPublish = true → Call.commit true ∈ pre) ∧
    (Call.commit false ∈ (ProcessMessage lib env s body w).2.2 →
      (ProcessMessage lib env s body w).1.isSome = true ∧
      ∀ c ∈ (ProcessMessage lib env s body w).2.2, c.isPublish = false) := by
  have h := ProcessMessage_outcome lib env s body w
  rcases hpm : ProcessMessage lib env s body w with ⟨res, w1, trace⟩
  rw [hpm] at h
  simp only at h ⊢
  have key : (∀ c ∈ trace, c.isPublish = false) →
      ∀ pre c post, trace = pre ++ c :: post → c.isPublish = true → Call.commit true ∈ pre := by
    intro hno pre c post ht hc
    have := hno c (by rw [ht]; simp)
    rw [hc] at this
    cases this
  cases h with
  | undecodable err hb => exact ⟨key (by simp), by simp⟩
  | clientFailed _ _ _ f i u => exact ⟨key (by simp [Call.isPublish]), by simp⟩
  | beginFailed _ _ _ f i u => exact ⟨key (by simp [Call.isPublish]), by simp⟩
  | insertFailed _ _ _ f i u loop hloop r =>
    have hq := quiet_forall loop hloop
    have hno : ∀ c ∈ [Call.getOrCreateClient f i u true, Call.beginTx true] ++ loop ++
        [Call.insertReading r false, Call.rollback], c.isPublish = false := by
      simpa [Call.isPublish, or_imp, forall_and] using hq.2.2
    exact ⟨key hno, fun _ => ⟨rfl, hno⟩⟩
  | commitFailed _ _ _ f i u loop hloop =>
    have hq := quiet_forall loop hloop
    have hno : ∀ c ∈ [Call.getOrCreateClient f i u true, Call.beginTx true] ++ loop ++
        [Call.commit false, Call.rollback], c.isPublish = false := by
      simpa [Call.isPublish, or_imp, forall_and] using hq.2.2
    exact ⟨key hno, fun _ => ⟨rfl, hno⟩⟩
  | committed _ _ f i u loop hloop events hkeys hnames pubs hpubs hevents =>
    have hq := quiet_forall loop hloop
    constructor
    · intro pre c post ht hc
      refine mem_before_split Call.isPublish (Call.commit true) c rfl hc
        ([Call.getOrCreateClient f i u true, Call.beginTx true] ++ loop)
        (pubs ++ [Call.rollback]) pre post ?_ ?_
      · simpa [Call.isPublish, or_imp, forall_and] using hq.2.2
      · rw [← ht]; simp
    · intro hcf
      simp [(quiet_not_mem loop hloop).2, (publish_not_mem pubs hpubs).2] at hcf

/-- The trace of an execution in which the commit succeeded: no error, one
publish call per sub-reading, and events that agree with the readings. -/
theorem publish_best_effort_trace {σ : Type} (lib : Lib) (env : Env σ)
    (s : ProcessorService) (body : String) (w : σ) (msg : IngestMessage)
    (hbody : lib.unmarshal body = .ok msg)
    (hcommit : Call.commit true ∈ (ProcessMessage lib env s body w).2.2) :
    (ProcessMessage lib env s body w).1 = none ∧
    ((ProcessMessage lib env s body w).2.2.filter Call.isPublish).length =
      msg.Payload.PM.length ∧
    ((ProcessMessage lib env s body w).2.2.filterMap Call.published).map eventKey =
      ((ProcessMessage lib env s body w).2.2.filterMap Call.inserted).map (readingKey lib) := by
  have hok : ∀ c ∈ (ProcessMessage lib env s body w).2.2, c.isHardFailure = false := by
    have h := ProcessMessage_outcome lib env s body w
    rcases hpm : ProcessMessage lib env s body w with ⟨res, w1, trace⟩
    rw [hpm] at h hcommit
    simp only at h hcommit ⊢
    cases h with
    | undecodable err hb => simp at hcommit
    | clientFailed _ _ _ f i u => simp at hcommit
    | beginFailed _ _ _ f i u => simp at hcommit
    | insertFailed _ _ _ f i u loop hloop r =>
      simp [(quiet_not_mem loop hloop).2] at hcommit
    | commitFailed _ _ _ f i u loop hloop =>
      simp [(quiet_not_mem loop hloop).2] at hcommit
    | committed _ _ f i u loop hloop events hkeys hnames pubs hpubs hevents =>
      have hq := quiet_forall loop hloop
      have hp : ∀ c ∈ pubs, c.isHardFailure = false := by
        intro c hc
        have := hpubs c hc
        cases c <;> simp_all [Call.isPublish, Call.isHardFailure]
      simpa [Call.isHardFailure, or_imp, forall_and] using ⟨hq.1, hp⟩
  have h := round_trip_of_no_failure lib env s body w msg hbody hok
  refine ⟨h.1, ?_, h.2.2.2.2⟩
  rw [← h.2.2.1]
  generalize (ProcessMessage lib env s body w).2.2 = trace
  induction trace with
  | nil => rfl
  | cons c t ih => cases c <;> simp [List.filter_cons, Call.isPublish, Call.published, ih]

/-- C4: when the commit succeeded, `ProcessMessage` returns no error whatever
the publish calls return, and one publish call is made for every sub-reading of
the message, the published events agreeing position by position with the
inserted readings.  Every recorded publish, failed or not, is a call made to the
publisher: the world state that `ProcessMessage` leaves is the state left by
the operations of the recorded calls, run in their order, each with the
recorded result. -/
theorem ProcessMessage_publish_best_effort {σ : Type} (lib : Lib) (env : Env σ)
    (s : ProcessorService) (body : String) (w : σ) (msg : IngestMessage)
    (hbody : lib.unmarshal body = .ok msg)
    (hcommit : Call.commit true ∈ (ProcessMessage lib env s body w).2.2) :
    (ProcessMessage lib env s body w).1 = none ∧
    ((ProcessMessage lib env s body w).2.2.filter Call.isPublish).length =
      msg.Payload.PM.length ∧
    ((ProcessMessage lib env s body w).2.2.filterMap Call.published).map eventKey =
      ((ProcessMessage lib env s body w).2.2.filterMap Call.inserted).map (readingKey lib) ∧
    replay lib env s (ProcessMessage lib env s body w).2.2 w =
      some (ProcessMessage lib env s body w).2.1 := by
  have h := publish_best_effort_trace lib env s body w msg hbody hcommit
  exact ⟨h.1, h.2.1, h.2.2, ProcessMessage_replay lib env s body w⟩

/-- Witness of C4: the sample message with a publisher that fails on every
event; the journal of the collaborators shows the three failed publishes, each
made after the one before it had failed. -/
theorem ProcessMessage_publish_best_effort_witness :
    (ProcessMessage sampleLib (journalled (sampleEnv none (some []) true fun _ => false))
      sampleService sampleBody (⟨0, 0⟩, [])).1 = none ∧
    ((ProcessMessage sampleLib (journalled (sampleEnv none (some []) true fun _ => false))
      sampleService sampleBody (⟨0, 0⟩, [])).2.2.filter Call.isPublish).length = 3 ∧
    ((ProcessMessage sampleLib (journalled (sampleEnv none (some []) true fun _ => false))
      sampleService sampleBody (⟨0, 0⟩, [])).2.2.filter Call.isFailedPublish).length = 3 ∧
    (ProcessMessage sampleLib (journalled (sampleEnv none (some []) true fun _ => false))
      sampleService sampleBody (⟨0, 0⟩, [])).2.1 =
      (⟨3, 3⟩, [Op.resolve "fp-1", Op.begin, Op.query "power_consumption",
        Op.insert "power_consumption" true, Op.insert "voltage" true, Op.insert "" true,
        Op.commit true,
        Op.publish "energy.events" "reading.processed" "event power_consumption" false,
        Op.publish "energy.events" "reading.processed" "event voltage" false,
        Op.publish "energy.events" "reading.processed" "event " false, Op.rollback]) :=
  have h := ProcessMessage_publish_best_effort sampleLib
    (journalled (sampleEnv none (some []) true fun _ => false)) sampleService sampleBody
    (⟨0, 0⟩, []) sampleMessage rfl (by decide)
  ⟨h.1, h.2.1, by decide, by decide⟩

/-- C7, as the code has it: `processSingleReading` looks the history up exactly
when the validator's outcome is valid, and runs the detector exactly when the
outcome is valid and the lookup succeeded; when the detector flags the value,
the inserted reading has status "invalid" and the detector's reason, and so has
the returned event; when the validator's outcome is invalid, the inserted
reading has status "invalid" and the validator's reason, and the detector is
not run. -/
theorem processSingleReading_scoring {σ : Type} (lib : Lib) (env : Env σ)
    (s : ProcessorService) (clientID : UUID) (pm : PMData) (receivedAt : Time)
    (rawPayload : String) (w : σ) :
    ((∃ c ∈ (processSingleReading lib env s clientID pm receivedAt rawPayload w).2.2,
        c.isGetRecentReadings = true) ↔
      (s.validator.ValidateMetricData lib ⟨pm.Date, pm.Data, pm.Name⟩ receivedAt).2.2.IsValid =
        true) ∧
    ((∃ c ∈ (processSingleReading lib env s clientID pm receivedAt rawPayload w).2.2,
        c.isDetectAnomaly = true) ↔
      ((s.validator.ValidateMetricData lib ⟨pm.Date, pm.Data, pm.Name⟩ receivedAt).2.2.IsValid =
        true ∧ succeeded (env.queryRecentReadings clientID pm.Name 10 w).1 = true)) ∧
    (∀ value historicalValues,
      Call.detectAnomaly value historicalValues true ∈
        (processSingleReading lib env s clientID pm receivedAt rawPayload w).2.2 →
      (∃ reading ok, Call.insertReading reading ok ∈
          (processSingleReading lib env s clientID pm receivedAt rawPayload w).2.2 ∧
        reading.ValidationStatus = "invalid" ∧
        reading.AnomalyReason = some (s.detector.DetectAnomaly value historicalValues).2) ∧
      ∀ event, (processSingleReading lib env s clientID pm receivedAt rawPayload w).1 =
        .ok event → event.ValidationStatus = "invalid") ∧
    ((s.validator.ValidateMetricData lib ⟨pm.Date, pm.Data, pm.Name⟩ receivedAt).2.2.IsValid =
        false →
      (∃ reading ok, Call.insertReading reading ok ∈
          (processSingleReading lib env s clientID pm receivedAt rawPayload w).2.2 ∧
        reading.ValidationStatus = "invalid" ∧
        reading.AnomalyReason = some (s.validator.ValidateMetricData lib
          ⟨pm.Date, pm.Data, pm.Name⟩ receivedAt).2.2.AnomalyReason) ∧
      ∀ event, (processSingleReading lib env s clientID pm receivedAt rawPayload w).1 =
        .ok event → event.ValidationStatus = "invalid") := by
  unfold processSingleReading scoreReading
  simp only
  rcases hv : (s.validator.ValidateMetricData lib ⟨pm.Date, pm.Data, pm.Name⟩
    receivedAt).2.2.IsValid with _ | _
  · simp only [Bool.not_false, if_true]
    split <;>
      simp [Call.isGetRecentReadings, Call.isDetectAnomaly, buildReading, buildEvent]
  · simp only [Bool.not_true, Bool.false_eq_true, if_false]
    rcases hh : env.queryRecentReadings clientID pm.Name 10 w with ⟨_ | hist, w1⟩
    · simp only
      split <;>
        simp [Call.isGetRecentReadings, Call.isDetectAnomaly, succeeded]
    · simp only
      rcases hd : (s.detector.DetectAnomaly (s.validator.ValidateMetricData lib
        ⟨pm.Date, pm.Data, pm.Name⟩ receivedAt).1 hist).1 with _ | _
      · simp only [Bool.false_eq_true, if_false]
        split <;>
          simp [Call.isGetRecentReadings, Call.isDetectAnomaly, succeeded]
      · simp only [if_true]
        split <;>
          simp [Call.isGetRecentReadings, Call.isDetectAnomaly, succeeded, buildReading,
            buildEvent]

/-- C7, as stated, fails: the first sample sub-reading is valid, the history
lookup is made and fails, and the detector is not run, so "history fetched and
detector run" is not equivalent to "valid". -/
theorem processSingleReading_detector_skipped :
    ¬ (((∃ c ∈ (processSingleReading sampleLib (sampleEnv none none true fun _ => true)
            sampleService ⟨7⟩ ⟨"29/12/2025 10:30:00", "250", "power_consumption"⟩
            sampleReceivedAt sampleBody ⟨0, 0⟩).2.2, c.isGetRecentReadings = true) ∧
        (∃ c ∈ (processSingleReading sampleLib (sampleEnv none none true fun _ => true)
            sampleService ⟨7⟩ ⟨"29/12/2025 10:30:00", "250", "power_consumption"⟩
            sampleReceivedAt sampleBody ⟨0, 0⟩).2.2, c.isDetectAnomaly = true)) ↔
      (sampleService.validator.ValidateMetricData sampleLib
        ⟨"29/12/2025 10:30:00", "250", "power_consumption"⟩ sampleReceivedAt).2.2.IsValid =
        true) := by
  decide

/-- Witness of C7: the valid sample sub-reading with value 250 against a history
of three values 50 is flagged by the detector, and the inserted reading is
invalid with the detector's reason. -/
theorem processSingleReading_scoring_witness :
    (∃ reading ok, Call.insertReading reading ok ∈
        (processSingleReading sampleLib
          (sampleEnv none (some [.finite 50, .finite 50, .finite 50]) true fun _ => true)
          sampleService ⟨7⟩ ⟨"29/12/2025 10:30:00", "250", "power_consumption"⟩
          sampleReceivedAt "raw" ⟨0, 0⟩).2.2 ∧
      reading.ValidationStatus = "invalid" ∧
      reading.AnomalyReason = some (sampleService.detector.DetectAnomaly (.finite 250)
        [.finite 50, .finite 50, .finite 50]).2) ∧
    (sampleService.detector.DetectAnomaly (.finite 250)
        [.finite 50, .finite 50, .finite 50]).2 =
      "sudden spike detected: value 250.00 exceeds 3.0x rolling average 50.00" :=
  ⟨((processSingleReading_scoring sampleLib
      (sampleEnv none (some [.finite 50, .finite 50, .finite 50]) true fun _ => true)
      sampleService ⟨7⟩ ⟨"29/12/2025 10:30:00", "250", "power_consumption"⟩
      sampleReceivedAt "raw" ⟨0, 0⟩).2.2.1 (.finite 250)
      [.finite 50, .finite 50, .finite 50] (by decide)).1,
    by decide⟩

/-- Witness of C3: the sample message with a commit that fails; an error is
returned and no event is published. -/
theorem ProcessMessage_publish_after_commit_witness :
    (ProcessMessage sampleLib (sampleEnv none (some []) false fun _ => true) sampleService
      sampleBody ⟨0, 0⟩).1.isSome = true ∧
    ∀ c ∈ (ProcessMessage sampleLib (sampleEnv none (some []) false fun _ => true) sampleService
      sampleBody ⟨0, 0⟩).2.2, c.isPublish = false :=
  (ProcessMessage_publish_after_commit sampleLib (sampleEnv none (some []) false fun _ => true)
    sampleService sampleBody ⟨0, 0⟩).2 (by decide)

/-- Witness of C5: a delivery whose handler fails is refused without requeue,
and one whose handler succeeds is acknowledged; the tally of the calls shows one
call of the handler and one call of `Nack`, or of `Ack`. -/
theorem processMessage_ack_decision_witness :
    ((Consumer.processMessage tallyDeliveryEnv "" (0, 0, 0)).2 =
        [DeliveryCall.handler "" false, DeliveryCall.nack false false] ∧
      (Consumer.processMessage tallyDeliveryEnv "" (0, 0, 0)).1 = (1, 0, 1)) ∧
    ((Consumer.processMessage tallyDeliveryEnv "body" (0, 0, 0)).2 =
        [DeliveryCall.handler "body" true, DeliveryCall.ack false] ∧
      (Consumer.processMessage tallyDeliveryEnv "body" (0, 0, 0)).1 = (1, 1, 0)) :=
  ⟨⟨(processMessage_ack_decision tallyDeliveryEnv "" (0, 0, 0)).1.trans (by decide),
      (processMessage_ack_decision tallyDeliveryEnv "" (0, 0, 0)).2.trans (by decide)⟩,
    ⟨(processMessage_ack_decision tallyDeliveryEnv "body" (0, 0, 0)).1.trans (by decide),
      (processMessage_ack_decision tallyDeliveryEnv "body" (0, 0, 0)).2.trans (by decide)⟩⟩

/-! ## The bracket trimming of the validator -/

/-- Membership in the cutset `[]` of the validator. -/
theorem inCut_brackets (c : Char) :
    "[]".toList.contains c = true ↔ c = '[' ∨ c = ']' := by
  have h : "[]".toList = ['[', ']'] := rfl
  rw [h]
  simp

/-- A list is a run of characters that satisfy `p`, followed by a part that
neither starts nor ends with such a character, followed by another run. -/
theorem trim_decomposition (p : Char → Bool) (l : List Char) :
    ∃ pre post, l = pre ++ ((l.dropWhile p).reverse.dropWhile p).reverse ++ post ∧
      (∀ c ∈ pre, p c = true) ∧ (∀ c ∈ post, p c = true) ∧
      (∀ c, (((l.dropWhile p).reverse.dropWhile p).reverse).head? = some c → p c = false) ∧
      (∀ c, (((l.dropWhile p).reverse.dropWhile p).reverse).getLast? = some c → p c = false) := by
  have hl : l = l.takeWhile p ++ l.dropWhile p := (List.takeWhile_append_dropWhile p l).symm
  have hm : l.dropWhile p = ((l.dropWhile p).reverse.dropWhile p).reverse ++
      ((l.dropWhile p).reverse.takeWhile p).reverse := by
    rw [← List.reverse_append, List.takeWhile_append_dropWhile, List.reverse_reverse]
  have hhead : ∀ (k : List Char) c, (k.dropWhile p).head? = some c → p c = false := by
    intro k
    induction k with
    | nil => intro c h; simp at h
    | cons a k ih =>
      intro c h
      by_cases ha : p a = true
      · rw [List.dropWhile_cons_of_pos ha] at h
        exact ih c h
      · rw [List.dropWhile_cons_of_neg ha] at h
        simp only [List.head?_cons, Option.some.injEq] at h
        subst h
        simpa using ha
  refine ⟨l.takeWhile p, ((l.dropWhile p).reverse.takeWhile p).reverse, ?_, ?_, ?_, ?_, ?_⟩
  · rw [List.append_assoc, ← hm]
    exact hl
  · intro c hc
    exact List.mem_takeWhile_imp hc
  · intro c hc
    exact List.mem_takeWhile_imp (List.mem_reverse.mp hc)
  · intro c hc
    have h1 : (l.dropWhile p).head? = some c := by
      rw [hm]
      cases hr : ((l.dropWhile p).reverse.dropWhile p).reverse with
      | nil => rw [hr] at hc; simp at hc
      | cons a r => rw [hr] at hc; simpa using hc
    exact hhead l c h1
  · intro c hc
    rw [List.getLast?_reverse] at hc
    exact hhead _ c hc

/-- C11, as the code has it: the string that `ValidateMetricData` hands to the
number parser is the data with every leading and every trailing bracket
character removed, whether the brackets pair up or not; the characters in
between, brackets included, are kept.  The parse call is observed through a
parser that reports its argument. -/
theorem ValidateMetricData_trims_brackets (lib : Lib) (v : Validator) (metric : MetricData)
    (receivedAt : Time) (hecho : ∀ s, lib.parseFloat s = .error (GoError.new s))
    (hname : metric.Name ≠ "") :
    (v.ValidateMetricData lib metric receivedAt).2.2.AnomalyReason =
      "invalid metric value: " ++ stringsTrim metric.Data "[]" ∧
    ∃ pre post,
      metric.Data.toList = pre ++ (stringsTrim metric.Data "[]").toList ++ post ∧
      (∀ c ∈ pre, c = '[' ∨ c = ']') ∧ (∀ c ∈ post, c = '[' ∨ c = ']') ∧
      (∀ c, (stringsTrim metric.Data "[]").toList.head? = some c → c ≠ '[' ∧ c ≠ ']') ∧
      (∀ c, (stringsTrim metric.Data "[]").toList.getLast? = some c → c ≠ '[' ∧ c ≠ ']') := by
  constructor
  · simp [Validator.ValidateMetricData, hname, hecho, GoError.new]
  · obtain ⟨pre, post, h1, h2, h3, h4, h5⟩ :=
      trim_decomposition (fun c => "[]".toList.contains c) metric.Data.toList
    refine ⟨pre, post, h1, ?_, ?_, ?_, ?_⟩
    · intro c hc
      exact (inCut_brackets c).mp (h2 c hc)
    · intro c hc
      exact (inCut_brackets c).mp (h3 c hc)
    · intro c hc
      have := h4 c hc
      constructor <;> rintro rfl <;> simp at this
    · intro c hc
      have := h5 c hc
      constructor <;> rintro rfl <;> simp at this

/-- Witness of C11: the data `[[5]]` reaches the number parser as `5`. -/
theorem ValidateMetricData_trims_brackets_witness :
    ((⟨5⟩ : Validator).ValidateMetricData echoLib ⟨"29/12/2025 10:30:00", "[[5]]", "voltage"⟩
      sampleReceivedAt).2.2.AnomalyReason = "invalid metric value: 5" :=
  (ValidateMetricData_trims_brackets echoLib ⟨5⟩ ⟨"29/12/2025 10:30:00", "[[5]]", "voltage"⟩
    sampleReceivedAt (fun _ => rfl) (by decide)).1.trans (by decide)

/-- C11, as stated, fails: for the data `[[5]]` the validator parses `5`, where
the removal of a single enclosing pair gives `[5]`; and for `[5`, which is not
enclosed in a pair, the validator parses `5` and not the unchanged string. -/
theorem stringsTrim_not_one_pair :
    stringsTrim "[[5]]" "[]" = "5" ∧ stripOnePair "[[5]]" = "[5]" ∧
    stringsTrim "[5" "[]" = "5" ∧ stripOnePair "[5" = "[5" := by
  decide

/-! ## The anomaly detector -/

/-- C14: a value below zero is anomalous with the reason "negative value", for
every history and every configuration of the detector. -/
theorem DetectAnomaly_negative (d : Detector) (value : Float64)
    (historicalValues : List Float64) (hneg : value.lt Float64.zero = true) :
    d.DetectAnomaly value historicalValues = (true, "negative value") := by
  simp [Detector.DetectAnomaly, hneg]

/-- Witness of C14: the value -5 with an empty history and with a history of
five values. -/
theorem DetectAnomaly_negative_witness :
    (⟨.finite 3, 3⟩ : Detector).DetectAnomaly (.finite (-5)) [] = (true, "negative value") ∧
    (⟨.finite 3, 3⟩ : Detector).DetectAnomaly (.finite (-5))
      [.finite 100, .finite 105, .finite 98, .finite 102, .finite 99] =
      (true, "negative value") :=
  ⟨DetectAnomaly_negative ⟨.finite 3, 3⟩ (.finite (-5)) [] (by decide),
    DetectAnomaly_negative ⟨.finite 3, 3⟩ (.finite (-5)) _ (by decide)⟩

/-- C15: with a history shorter than the configured minimum, a value that is not
below zero (in particular every value at least zero, however large) is not
anomalous and the reason is empty. -/
theorem DetectAnomaly_insufficient_data (d : Detector) (value : Float64)
    (historicalValues : List Float64)
    (hshort : (historicalValues.length : Int) < d.minDataPointsForDetection)
    (hvalue : value.lt Float64.zero = false) :
    d.DetectAnomaly value historicalValues = (false, "") := by
  simp [Detector.DetectAnomaly, hvalue, hshort]

/-- Witness of C15: history `[100, 105]` with minimum 3 and value 300, and the
empty history with value 100. -/
theorem DetectAnomaly_insufficient_data_witness :
    (⟨.finite 3, 3⟩ : Detector).DetectAnomaly (.finite 300) [.finite 100, .finite 105] =
      (false, "") ∧
    (⟨.finite 3, 3⟩ : Detector).DetectAnomaly (.finite 100) [] = (false, "") :=
  ⟨DetectAnomaly_insufficient_data ⟨.finite 3, 3⟩ (.finite 300) [.finite 100, .finite 105]
      (by decide) (by decide),
    DetectAnomaly_insufficient_data ⟨.finite 3, 3⟩ (.finite 100) [] (by decide) (by decide)⟩

/-- The value of `DetectAnomaly` once the negative check and the length check
are passed, in terms of the average it computes. -/
theorem DetectAnomaly_spike_branch (d : Detector) (value : Float64)
    (historicalValues : List Float64) (hvalue : value.lt Float64.zero = false)
    (hlen : ¬ (historicalValues.length : Int) < d.minDataPointsForDetection) :
    d.DetectAnomaly value historicalValues =
      if (rollingAverage historicalValues).gt Float64.zero = true ∧
          value.gt (d.spikeThreshold.mul (rollingAverage historicalValues)) = true then
        (true, "sudden spike detected: value " ++ Float64.fmtFixed 2 value ++ " exceeds " ++
          Float64.fmtFixed 1 d.spikeThreshold ++ "x rolling average " ++
          Float64.fmtFixed 2 (rollingAverage historicalValues))
      else (false, "") := by
  simp only [Detector.DetectAnomaly, hvalue, hlen, rollingAverage, if_false, Bool.false_eq_true,
    Bool.and_eq_true]

/-- A text that starts with a non-empty text is not empty. -/
theorem append_ne_empty (a b : String) (ha : a ≠ "") : a ++ b ≠ "" := by
  intro h
  apply ha
  have h1 : (a ++ b).data = [] := by rw [h]
  have h2 : a.data ++ b.data = [] := by simpa [String.data_append] using h1
  have h3 : a.data = [] := (List.append_eq_nil.mp h2).1
  exact String.ext h3

/-- C16, as the code has it: when the average that the detector computes in
float64 arithmetic is not greater than zero, a value that is not below zero is
not anomalous, whatever the spike threshold and the minimum length are. -/
theorem DetectAnomaly_nonpositive_average (d : Detector) (value : Float64)
    (historicalValues : List Float64) (hvalue : value.lt Float64.zero = false)
    (havg : (rollingAverage historicalValues).gt Float64.zero = false) :
    d.DetectAnomaly value historicalValues = (false, "") := by
  by_cases hlen : (historicalValues.length : Int) < d.minDataPointsForDetection
  · simp [Detector.DetectAnomaly, hvalue, hlen]
  · rw [DetectAnomaly_spike_branch d value historicalValues hvalue hlen]
    simp [havg]

/-- Witness of C16: the history `[0, 0, 0]` with value 100. -/
theorem DetectAnomaly_nonpositive_average_witness :
    (⟨.finite 3, 3⟩ : Detector).DetectAnomaly (.finite 100) [.finite 0, .finite 0, .finite 0] =
      (false, "") :=
  DetectAnomaly_nonpositive_average ⟨.finite 3, 3⟩ (.finite 100)
    [.finite 0, .finite 0, .finite 0] (by decide) (by decide)

/-- C16, as stated, fails: the history `[-1, -2^53, 2^53, 1]` has arithmetic mean
0, yet the detector flags the value 100 against it, because the float64 sum
loses the first `-1` to rounding and the computed average is 0.25. -/
theorem DetectAnomaly_zero_mean_flagged :
    exactMean [-1, -9007199254740992, 9007199254740992, 1] = 0 ∧
    rollingAverage [.finite (-1), .finite (-9007199254740992), .finite 9007199254740992,
      .finite 1] = .finite (mkRat 1 4) ∧
    (⟨.finite 3, 3⟩ : Detector).DetectAnomaly (.finite 100)
      [.finite (-1), .finite (-9007199254740992), .finite 9007199254740992, .finite 1] =
      (true, "sudden spike detected: value 100.00 exceeds 3.0x rolling average 0.25") := by
  refine ⟨by norm_num [exactMean], by decide, by decide⟩

/-- C17, as the code has it: for a value that is not below zero and a history of
at least the minimum length whose float64 average, as the detector computes it,
is greater than zero, the value is anomalous if and only if it is strictly
greater than the float64 product of the spike threshold and that average; and
the reason of an anomalous value is not empty. -/
theorem DetectAnomaly_spike_iff (d : Detector) (value : Float64)
    (historicalValues : List Float64) (hvalue : value.lt Float64.zero = false)
    (hlen : ¬ (historicalValues.length : Int) < d.minDataPointsForDetection)
    (havg : (rollingAverage historicalValues).gt Float64.zero = true) :
    ((d.DetectAnomaly value historicalValues).1 = true ↔
      value.gt (d.spikeThreshold.mul (rollingAverage historicalValues)) = true) ∧
    ((d.DetectAnomaly value historicalValues).1 = true →
      (d.DetectAnomaly value historicalValues).2 ≠ "") := by
  rw [DetectAnomaly_spike_branch d value historicalValues hvalue hlen]
  by_cases hs : value.gt (d.spikeThreshold.mul (rollingAverage historicalValues)) = true
  · simp only [havg, hs, and_self, if_true, true_implies, iff_true, true_and]
    simp only [String.append_assoc]
    exact append_ne_empty _ _ (by decide)
  · simp [havg, hs]

/-- Witness of C17: against the history `[100, 105, 98, 102, 99]` with threshold
3 and minimum 3, the value 350 is anomalous and the value 103 is not. -/
theorem DetectAnomaly_spike_iff_witness :
    (⟨.finite 3, 3⟩ : Detector).DetectAnomaly (.finite 350)
      [.finite 100, .finite 105, .finite 98, .finite 102, .finite 99] =
      (true, "sudden spike detected: value 350.00 exceeds 3.0x rolling average 100.80") ∧
    (⟨.finite 3, 3⟩ : Detector).DetectAnomaly (.finite 103)
      [.finite 100, .finite 105, .finite 98, .finite 102, .finite 99] = (false, "") ∧
    (((⟨.finite 3, 3⟩ : Detector).DetectAnomaly (.finite 350)
      [.finite 100, .finite 105, .finite 98, .finite 102, .finite 99]).1 = true ↔
      (Float64.finite 350).gt ((Float64.finite 3).mul (rollingAverage
        [.finite 100, .finite 105, .finite 98, .finite 102, .finite 99])) = true) :=
  ⟨by decide, by decide,
    (DetectAnomaly_spike_iff ⟨.finite 3, 3⟩ (.finite 350)
      [.finite 100, .finite 105, .finite 98, .finite 102, .finite 99]
      (by decide) (by decide) (by decide)).1⟩

/-- C17, as stated, fails: the history `[1, 2, 2]` has arithmetic mean 5/3, the
value is the float64 nearest to 5/3, which is above 5/3, and the threshold is 1,
so the value exceeds threshold times mean; the detector compares the value with
the rounded average, which is the value itself, and does not flag it. -/
theorem DetectAnomaly_rounded_mean_not_flagged :
    exactMean [1, 2, 2] = 5 / 3 ∧
    Float64.ofFrac 5 3 = .finite (mkRat 7505999378950827 4503599627370496) ∧
    (1 : ℚ) * exactMean [1, 2, 2] < mkRat 7505999378950827 4503599627370496 ∧
    (⟨.finite 1, 3⟩ : Detector).DetectAnomaly
      (.finite (mkRat 7505999378950827 4503599627370496))
      [.finite 1, .finite 2, .finite 2] = (false, "") := by
  refine ⟨by norm_num [exactMean], by decide, ?_, by decide⟩
  rw [Rat.mkRat_eq_div]
  norm_num [exactMean]

/-! ## The timestamp parser -/

/-- The loop of `ParseMeterTimestamp`, written out for its three layouts. -/
theorem ParseMeterTimestamp_unroll (timeParse : String → String → Except GoError Time)
    (dateStr : String) :
    ParseMeterTimestamp timeParse dateStr =
      (match timeParse "02/01/2006 15:04:05" dateStr with
      | .ok t => .ok t
      | .error _ =>
        match timeParse "02 15:04:05/01/2006" dateStr with
        | .ok t => .ok t
        | .error _ =>
          match timeParse RFC3339 dateStr with
          | .ok t => .ok t
          | .error err =>
            .error ⟨"failed to parse timestamp \x27" ++ dateStr ++ "\x27: " ++ err.msg,
              err.msg :: err.chain⟩) := by
  unfold ParseMeterTimestamp formats
  simp only [parseMeterLoop]
  rcases h1 : timeParse "02/01/2006 15:04:05" dateStr with e1 | t1
  · rcases h2 : timeParse "02 15:04:05/01/2006" dateStr with e2 | t2
    · rcases h3 : timeParse RFC3339 dateStr with e3 | t3
      · simp [lastErrText, GoError.wrap]
      · simp
    · simp
  · simp

/-- C18: `ParseMeterTimestamp` tries the three layouts in their order and
returns the result of the first that accepts the string; it fails exactly when
all three reject the string, and then its error has a text that contains the
string and ends with the text of the error of the RFC 3339 attempt, which it
wraps. -/
theorem ParseMeterTimestamp_first_match (timeParse : String → String → Except GoError Time)
    (dateStr : String) :
    ParseMeterTimestamp timeParse dateStr =
      (match timeParse "02/01/2006 15:04:05" dateStr with
      | .ok t => .ok t
      | .error _ =>
        match timeParse "02 15:04:05/01/2006" dateStr with
        | .ok t => .ok t
        | .error _ =>
          match timeParse RFC3339 dateStr with
          | .ok t => .ok t
          | .error err =>
            .error ⟨"failed to parse timestamp \x27" ++ dateStr ++ "\x27: " ++ err.msg,
              err.msg :: err.chain⟩) ∧
    (succeeded (ParseMeterTimestamp timeParse dateStr) = false ↔
      succeeded (timeParse "02/01/2006 15:04:05" dateStr) = false ∧
      succeeded (timeParse "02 15:04:05/01/2006" dateStr) = false ∧
      succeeded (timeParse RFC3339 dateStr) = false) ∧
    ∀ e, ParseMeterTimestamp timeParse dateStr = .error e →
      ∃ last, timeParse RFC3339 dateStr = .error last ∧
        e.msg = "failed to parse timestamp \x27" ++ dateStr ++ "\x27: " ++ last.msg ∧
        e.chain = last.msg :: last.chain := by
  unfold ParseMeterTimestamp formats
  simp only [parseMeterLoop]
  rcases h1 : timeParse "02/01/2006 15:04:05" dateStr with e1 | t1
  · rcases h2 : timeParse "02 15:04:05/01/2006" dateStr with e2 | t2
    · rcases h3 : timeParse RFC3339 dateStr with e3 | t3
      · simp [succeeded, lastErrText, GoError.wrap]
      · simp [succeeded]
    · simp [succeeded]
  · simp [succeeded]

/-- Witness of C18: the three layouts each accept their own form, and a string
that all three reject gives an error whose text names the string. -/
theorem ParseMeterTimestamp_first_match_witness :
    ParseMeterTimestamp GoTime.Parse "29/12/2025 10:30:45" =
      .ok (Time.date 2025 12 29 10 30 45) ∧
    ParseMeterTimestamp GoTime.Parse "29 10:30:45/12/2025" =
      .ok (Time.date 2025 12 29 10 30 45) ∧
    ParseMeterTimestamp GoTime.Parse "2025-12-29T10:30:45Z" =
      .ok (Time.date 2025 12 29 10 30 45) ∧
    ParseMeterTimestamp GoTime.Parse "invalid-date-string" =
      .error ⟨"failed to parse timestamp \x27invalid-date-string\x27: " ++
        "parsing time \"invalid-date-string\" as \"2006-01-02T15:04:05Z07:00\"",
        ["parsing time \"invalid-date-string\" as \"2006-01-02T15:04:05Z07:00\""]⟩ :=
  ⟨(ParseMeterTimestamp_first_match GoTime.Parse "29/12/2025 10:30:45").1.trans (by decide),
    by decide, by decide, by decide⟩

/-! ### Reading back the canonical forms -/

/-- A digit character is a digit and has its value. -/
theorem digitChar_spec {n : Nat} (h : n < 10) :
    (digitChar n).isDigit = true ∧ GoTime.digitVal (digitChar n) = n ∧
      (digitChar n == ' ') = false := by
  interval_cases n <;> decide

/-- A number in two digits is read back by `getnum`. -/
theorem getnum_pad2 (fixed : Bool) {n : Nat} (h : n < 100) (rest : List Char) :
    GoTime.getnum fixed (pad2 n ++ rest) = some (n, rest) := by
  have h1 := digitChar_spec (n := n / 10) (by omega)
  have h2 := digitChar_spec (n := n % 10) (by omega)
  simp only [pad2, List.cons_append, List.nil_append, GoTime.getnum, h1.1, h2.1, h1.2.1, h2.2.1,
    Bool.not_true, Bool.false_eq_true, if_false]
  congr 2
  omega

/-- A year in four digits is read back by `getYear`. -/
theorem getYear_pad4 {n : Nat} (h : n < 10000) (rest : List Char) :
    GoTime.getYear (pad4 n ++ rest) = some (n, rest) := by
  have h1 := digitChar_spec (n := n / 1000) (by omega)
  have h2 := digitChar_spec (n := n / 100 % 10) (by omega)
  have h3 := digitChar_spec (n := n / 10 % 10) (by omega)
  have h4 := digitChar_spec (n := n % 10) (by omega)
  simp only [pad4, List.cons_append, List.nil_append, GoTime.getYear, h1.1, h2.1, h3.1, h4.1,
    h1.2.1, h2.2.1, h3.2.1, h4.2.1, Bool.and_self, if_true]
  congr 2
  omega

/-- A space of the layout in front of a number in two digits. -/
theorem skipSpace_pad2 (n : Nat) (h : n < 100) (rest : List Char) :
    GoTime.skipSpace (' ' :: (pad2 n ++ rest)) = some (pad2 n ++ rest) := by
  have h1 := digitChar_spec (n := n / 10) (by omega)
  simp [GoTime.skipSpace, pad2, List.dropWhile, h1.2.2]

/-- The time of day in two digits each is read back by `clock` when what follows
is not a fraction of a second. -/
theorem clock_pad (hour min sec : Nat) (hh : hour < 24) (hm : min < 60) (hs : sec < 60)
    (rest : List Char) (hrest : GoTime.fracSeconds rest = (0, rest)) :
    GoTime.clock (pad2 hour ++ ':' :: (pad2 min ++ ':' :: (pad2 sec ++ rest))) =
      some ((hour, min, sec, 0), rest) := by
  simp [GoTime.clock, getnum_pad2 false (by omega : hour < 100),
    getnum_pad2 true (by omega : min < 100), getnum_pad2 true (by omega : sec < 100),
    GoTime.skipChar, GoTime.check, hh, hm, hs, hrest]

/-- No fraction of a second starts with a slash. -/
theorem fracSeconds_slash (rest : List Char) :
    GoTime.fracSeconds ('/' :: rest) = (0, '/' :: rest) := by
  cases rest with
  | nil => rfl
  | cons d rest => simp [GoTime.fracSeconds]

/-- The variants of the read-back lemmas at the end of the value. -/
theorem read_back_at_end (year hour min sec : Nat) (hy : year < 10000) (hh : hour < 24)
    (hm : min < 60) (hs : sec < 60) :
    GoTime.getYear (pad4 year) = some (year, []) ∧
    GoTime.clock (pad2 hour ++ ':' :: (pad2 min ++ ':' :: pad2 sec)) =
      some ((hour, min, sec, 0), []) := by
  have h1 := getYear_pad4 hy []
  have h2 := clock_pad hour min sec hh hm hs [] rfl
  simp only [List.append_nil] at h1 h2
  exact ⟨h1, h2⟩

/-- The days of a month are at most 31. -/
theorem daysIn_le (month year : Nat) : GoTime.daysIn month year ≤ 31 := by
  unfold GoTime.daysIn
  split_ifs <;> omega

/-- The form `DD/MM/YYYY HH:MM:SS` of a valid date and time is read back under
the first layout. -/
theorem parseDayFirst_form (year month day hour min sec : Nat) (hy : year ≤ 9999)
    (hm1 : 1 ≤ month) (hm2 : month ≤ 12) (hd1 : 1 ≤ day)
    (hd2 : day ≤ GoTime.daysIn month year) (hh : hour < 24) (hmin : min < 60)
    (hs : sec < 60) :
    GoTime.Parse "02/01/2006 15:04:05" (formDayFirst year month day hour min sec) =
      .ok (Time.date year month day hour min sec) := by
  have hday : day < 100 := by
    have := daysIn_le month year
    omega
  have hend := read_back_at_end year hour min sec (by omega) hh hmin hs
  have hp : GoTime.parseDayFirst (pad2 day ++ '/' :: pad2 month ++ '/' :: pad4 year ++
      ' ' :: pad2 hour ++ ':' :: pad2 min ++ ':' :: pad2 sec) =
      some (Time.date year month day hour min sec) := by
    simp only [GoTime.parseDayFirst, List.append_assoc, List.cons_append]
    simp [getnum_pad2 true hday, getnum_pad2 true (by omega : month < 100),
      getYear_pad4 (by omega : year < 10000), skipSpace_pad2 hour (by omega),
      hend.2, GoTime.skipChar, GoTime.check, GoTime.finish,
      hm1, hm2, hd1, hd2, Time.date]
  unfold GoTime.Parse
  have hl : (formDayFirst year month day hour min sec).toList = pad2 day ++ '/' :: pad2 month ++
      '/' :: pad4 year ++ ' ' :: pad2 hour ++ ':' :: pad2 min ++ ':' :: pad2 sec := rfl
  rw [hl, hp]
  simp

/-- The transposed form `DD HH:MM:SS/MM/YYYY` of a valid date and time is read
back under the second layout and rejected under the first. -/
theorem parseTransposed_form (year month day hour min sec : Nat) (hy : year ≤ 9999)
    (hm1 : 1 ≤ month) (hm2 : month ≤ 12) (hd1 : 1 ≤ day)
    (hd2 : day ≤ GoTime.daysIn month year) (hh : hour < 24) (hmin : min < 60)
    (hs : sec < 60) :
    succeeded (GoTime.Parse "02/01/2006 15:04:05"
      (formTransposed year month day hour min sec)) = false ∧
    GoTime.Parse "02 15:04:05/01/2006" (formTransposed year month day hour min sec) =
      .ok (Time.date year month day hour min sec) := by
  have hday : day < 100 := by
    have := daysIn_le month year
    omega
  have hend := read_back_at_end year hour min sec (by omega) hh hmin hs
  have hl : (formTransposed year month day hour min sec).toList = pad2 day ++ ' ' :: pad2 hour ++
      ':' :: pad2 min ++ ':' :: pad2 sec ++ '/' :: pad2 month ++ '/' :: pad4 year := rfl
  have hp1 : GoTime.parseDayFirst (pad2 day ++ ' ' :: pad2 hour ++
      ':' :: pad2 min ++ ':' :: pad2 sec ++ '/' :: pad2 month ++ '/' :: pad4 year) = none := by
    simp only [GoTime.parseDayFirst, List.append_assoc, List.cons_append]
    simp [getnum_pad2 true hday, GoTime.skipChar]
  have hp2 : GoTime.parseTransposed (pad2 day ++ ' ' :: pad2 hour ++
      ':' :: pad2 min ++ ':' :: pad2 sec ++ '/' :: pad2 month ++ '/' :: pad4 year) =
      some (Time.date year month day hour min sec) := by
    simp only [GoTime.parseTransposed, List.append_assoc, List.cons_append]
    simp [getnum_pad2 true hday, getnum_pad2 true (by omega : month < 100),
      hend.1, skipSpace_pad2 hour (by omega),
      clock_pad hour min sec hh hmin hs _ (fracSeconds_slash _), GoTime.skipChar, GoTime.check,
      GoTime.finish, hm1, hm2, hd1, hd2, Time.date]
  unfold GoTime.Parse
  rw [hl, hp1, hp2]
  constructor
  · simp [succeeded]
  · simp

/-! ### The zone of the parsed time -/

/-- What `getnum` leaves is the end of what it was given. -/
theorem getnum_suffix (fixed : Bool) (s v : List Char) (n : Nat)
    (h : GoTime.getnum fixed s = some (n, v)) : v <:+ s := by
  match s with
  | [] => simp [GoTime.getnum] at h
  | [c0] =>
    simp only [GoTime.getnum] at h
    split_ifs at h
    simp only [Option.some.injEq, Prod.mk.injEq] at h
    rw [← h.2]
    exact List.nil_suffix
  | c0 :: c1 :: rest =>
    simp only [GoTime.getnum] at h
    split_ifs at h <;> simp only [Option.some.injEq, Prod.mk.injEq] at h
    · rw [← h.2]
      exact List.suffix_cons _ _
    · rw [← h.2]
      exact (List.suffix_cons _ _).trans (List.suffix_cons _ _)

/-- What `getYear` leaves is the end of what it was given. -/
theorem getYear_suffix (s v : List Char) (n : Nat)
    (h : GoTime.getYear s = some (n, v)) : v <:+ s := by
  match s with
  | a :: b :: c :: d :: rest =>
    simp only [GoTime.getYear] at h
    split_ifs at h
    simp only [Option.some.injEq, Prod.mk.injEq] at h
    rw [← h.2]
    exact ⟨[a, b, c, d], rfl⟩
  | [] => simp [GoTime.getYear] at h
  | [_] => simp [GoTime.getYear] at h
  | [_, _] => simp [GoTime.getYear] at h
  | [_, _, _] => simp [GoTime.getYear] at h

/-- What `skipChar` leaves is the end of what it was given. -/
theorem skipChar_suffix (c : Char) (s v : List Char)
    (h : GoTime.skipChar c s = some v) : v <:+ s := by
  match s with
  | [] => simp [GoTime.skipChar] at h
  | x :: rest =>
    simp only [GoTime.skipChar] at h
    split_ifs at h
    simp only [Option.some.injEq] at h
    rw [← h]
    exact List.suffix_cons _ _

/-- What `fracSeconds` leaves is the end of what it was given. -/
theorem fracSeconds_suffix (s : List Char) : (GoTime.fracSeconds s).2 <:+ s := by
  match s with
  | [] => exact List.suffix_refl _
  | [_] => exact List.suffix_refl _
  | c :: d :: rest =>
    simp only [GoTime.fracSeconds]
    split_ifs
    · exact (List.dropWhile_suffix _).trans (List.suffix_cons _ _)
    · exact List.suffix_refl _

/-- What `clock` leaves is the end of what it was given. -/
theorem clock_suffix (s v : List Char) (hms : Nat × Nat × Nat × Nat)
    (h : GoTime.clock s = some (hms, v)) : v <:+ s := by
  simp only [GoTime.clock, Option.bind_eq_bind, Option.bind_eq_some, Option.pure_def,
    Option.some.injEq, Prod.mk.injEq, Prod.exists] at h
  obtain ⟨hour, v1, h1, _, _, v2, h2, min, v3, h3, _, _, v4, h4, sec, v5, h5, _, _, _, h6⟩ := h
  rw [← h6]
  exact (fracSeconds_suffix v5).trans <| (getnum_suffix _ _ _ _ h5).trans <|
    (skipChar_suffix _ _ _ h4).trans <| (getnum_suffix _ _ _ _ h3).trans <|
    (skipChar_suffix _ _ _ h2).trans (getnum_suffix _ _ _ _ h1)

/-- Two digits read by `getnum` of fixed width. -/
theorem getnum_two (a b : Char) (n : Nat) (v : List Char)
    (h : GoTime.getnum true [a, b] = some (n, v)) :
    n = GoTime.digitVal a * 10 + GoTime.digitVal b ∧ b.isDigit = true := by
  simp only [GoTime.getnum] at h
  split_ifs at h with h1 h2
  simp only [Option.some.injEq, Prod.mk.injEq] at h
  exact ⟨h.1.symm, by simpa using h2⟩

/-- The zone element that reads a whole text reads `Z` or a sign with hours and
minutes, and gives the offset written there. -/
theorem zoneColon_whole (v : List Char) (off : Int)
    (h : GoTime.zoneColon v = some (off, [])) (pre : List Char) :
    off = writtenOffset (String.mk (pre ++ v)) := by
  unfold GoTime.zoneColon at h
  split at h
  · simp at h
  · simp only [Option.some.injEq, Prod.mk.injEq] at h
    obtain ⟨h1, h2⟩ := h
    subst h1 h2
    simp [writtenOffset]
  · rename_i sign h1 h2 colon m1 m2 rest hz
    by_cases hc : colon = ':'
    · subst hc
      simp only [ne_eq, not_true_eq_false, if_false] at h
      rcases hg1 : GoTime.getnum true [h1, h2] with _ | ⟨hr, x⟩
      · simp [hg1] at h
      rcases hg2 : GoTime.getnum true [m1, m2] with _ | ⟨mm, y⟩
      · simp [hg1, hg2] at h
      simp only [hg1, hg2] at h
      have e1 := getnum_two _ _ _ _ hg1
      have e2 := getnum_two _ _ _ _ hg2
      have hm2 : m2 ≠ 'Z' := by
        rintro rfl
        have := e2.2
        simp at this
      by_cases hr1 : 24 < hr ∨ 60 < mm
      · simp [hr1] at h
      simp only [hr1, if_false] at h
      by_cases hs1 : sign = '+'
      · subst hs1
        simp only [if_true, Option.some.injEq, Prod.mk.injEq] at h
        obtain ⟨h3, h4⟩ := h
        subst h4
        simp [writtenOffset, hm2, ← h3, e1.1, e2.1]
      simp only [hs1, if_false] at h
      by_cases hs2 : sign = '-'
      · subst hs2
        simp only [if_true, Option.some.injEq, Prod.mk.injEq] at h
        obtain ⟨h3, h4⟩ := h
        subst h4
        simp [writtenOffset, hm2, ← h3, e1.1, e2.1]
      simp [hs2] at h
    · simp [hc] at h
  · simp at h

/-- A time built by `finish` has the zone offset that `finish` was given. -/
theorem finish_offset (year month day : Nat) (hms : Nat × Nat × Nat × Nat) (off : Int)
    (rest : List Char) (t : Time) (h : GoTime.finish year month day hms off rest = some t) :
    t.offset = off ∧ rest = [] := by
  simp only [GoTime.finish, GoTime.check, Option.bind_eq_bind, Option.bind_eq_some,
    Option.pure_def, Option.some.injEq] at h
  obtain ⟨_, h1, _, _, h3⟩ := h
  constructor
  · rw [← h3]
  · split_ifs at h1 with hr
    simpa using hr

/-- The two custom layouts give a time in UTC. -/
theorem custom_layout_offset (s : List Char) (t : Time)
    (h : GoTime.parseDayFirst s = some t ∨ GoTime.parseTransposed s = some t) :
    t.offset = 0 := by
  rcases h with h | h
  · simp only [GoTime.parseDayFirst, Option.bind_eq_bind, Option.bind_eq_some, Prod.exists] at h
    obtain ⟨day, v1, h1, v2, h2, month, v3, h3, _, _, v4, h4, year, v5, h5, v6, h6, a, b, c, d,
      v7, h7, hf⟩ := h
    exact (finish_offset _ _ _ _ _ _ _ hf).1
  · simp only [GoTime.parseTransposed, Option.bind_eq_bind, Option.bind_eq_some,
      Prod.exists] at h
    obtain ⟨day, v1, h1, v2, h2, a, b, c, d, v3, h3, v4, h4, month, v5, h5, _, _, v6, h6, year,
      v7, h7, hf⟩ := h
    exact (finish_offset _ _ _ _ _ _ _ hf).1

/-- The layout RFC 3339 gives a time with the zone offset written in the text. -/
theorem rfc3339_offset (s : List Char) (t : Time) (h : GoTime.parseRFC3339 s = some t) :
    t.offset = writtenOffset (String.mk s) := by
  simp only [GoTime.parseRFC3339, Option.bind_eq_bind, Option.bind_eq_some, Prod.exists] at h
  obtain ⟨year, v1, h1, v2, h2, month, v3, h3, _, _, v4, h4, day, v5, h5, v6, h6, a, b, c, d,
    v7, h7, off, v8, h8, hf⟩ := h
  obtain ⟨ho, hrest⟩ := finish_offset _ _ _ _ _ _ _ hf
  subst hrest
  have hsuf : v7 <:+ s :=
    (clock_suffix _ _ _ h7).trans <| (skipChar_suffix _ _ _ h6).trans <|
    (getnum_suffix _ _ _ _ h5).trans <| (skipChar_suffix _ _ _ h4).trans <|
    (getnum_suffix _ _ _ _ h3).trans <| (skipChar_suffix _ _ _ h2).trans
    (getYear_suffix _ _ _ h1)
  obtain ⟨pre, hpre⟩ := hsuf
  rw [ho, ← hpre]
  exact zoneColon_whole v7 off h8 pre

/-- The result of `GoTime.Parse` in terms of the parser of the layout. -/
theorem Parse_ok (layout value : String) (t : Time) (h : GoTime.Parse layout value = .ok t) :
    (layout = "02/01/2006 15:04:05" ∧ GoTime.parseDayFirst value.toList = some t) ∨
    (layout = "02 15:04:05/01/2006" ∧ GoTime.parseTransposed value.toList = some t) ∨
    (layout = RFC3339 ∧ GoTime.parseRFC3339 value.toList = some t) := by
  unfold GoTime.Parse at h
  simp only at h
  split at h
  · rename_i t1 hp
    simp only [Except.ok.injEq] at h
    subst h
    split_ifs at hp with h1 h2 h3
    · exact Or.inl ⟨h1, hp⟩
    · exact Or.inr (Or.inl ⟨h2, hp⟩)
    · exact Or.inr (Or.inr ⟨h3, hp⟩)
  · simp at h

/-- C19, as the code has it: a time that `ParseMeterTimestamp` returns for a
string accepted under one of the two custom layouts has zone offset zero; a
time returned for a string accepted only as RFC 3339 has the zone offset written
in the string, zero when it ends in `Z` and the signed hours and minutes of its
last six characters otherwise, and is not converted to UTC. -/
theorem ParseMeterTimestamp_zone (dateStr : String) (t : Time)
    (h : ParseMeterTimestamp GoTime.Parse dateStr = .ok t) :
    ((succeeded (GoTime.Parse "02/01/2006 15:04:05" dateStr) = true ∨
        succeeded (GoTime.Parse "02 15:04:05/01/2006" dateStr) = true) → t.offset = 0) ∧
    (succeeded (GoTime.Parse "02/01/2006 15:04:05" dateStr) = false →
      succeeded (GoTime.Parse "02 15:04:05/01/2006" dateStr) = false →
      t.offset = writtenOffset dateStr) := by
  rw [ParseMeterTimestamp_unroll] at h
  rcases h1 : GoTime.Parse "02/01/2006 15:04:05" dateStr with e1 | t1
  · rcases h2 : GoTime.Parse "02 15:04:05/01/2006" dateStr with e2 | t2
    · rcases h3 : GoTime.Parse RFC3339 dateStr with e3 | t3
      · simp [h1, h2, h3] at h
      · simp only [h1, h2, h3, Except.ok.injEq] at h
        subst h
        refine ⟨by simp [succeeded], fun _ _ => ?_⟩
        rcases Parse_ok _ _ _ h3 with ⟨hl, _⟩ | ⟨hl, _⟩ | ⟨_, hp⟩
        · exact absurd hl (by decide)
        · exact absurd hl (by decide)
        · exact rfc3339_offset _ _ hp
    · simp only [h1, h2, Except.ok.injEq] at h
      subst h
      refine ⟨fun _ => ?_, by simp [succeeded]⟩
      rcases Parse_ok _ _ _ h2 with ⟨hl, _⟩ | ⟨_, hp⟩ | ⟨hl, _⟩
      · exact absurd hl (by decide)
      · exact custom_layout_offset _ _ (Or.inr hp)
      · exact absurd hl (by decide)
  · simp only [h1, Except.ok.injEq] at h
    subst h
    refine ⟨fun _ => ?_, by simp [succeeded]⟩
    rcases Parse_ok _ _ _ h1 with ⟨_, hp⟩ | ⟨hl, _⟩ | ⟨hl, _⟩
    · exact custom_layout_offset _ _ (Or.inl hp)
    · exact absurd hl (by decide)
    · exact absurd hl (by decide)

/-- Witness of C19: the RFC 3339 string with offset +07:00 is returned with that
offset, 25200 seconds, at the instant 10:30:45 UTC. -/
theorem ParseMeterTimestamp_zone_witness :
    ParseMeterTimestamp GoTime.Parse "2025-12-29T17:30:45+07:00" =
      .ok ⟨(Time.date 2025 12 29 10 30 45).sec, 0, 25200⟩ ∧
    writtenOffset "2025-12-29T17:30:45+07:00" = 25200 ∧
    (⟨(Time.date 2025 12 29 10 30 45).sec, 0, 25200⟩ : Time).offset =
      writtenOffset "2025-12-29T17:30:45+07:00" :=
  ⟨by decide, by decide,
    (ParseMeterTimestamp_zone "2025-12-29T17:30:45+07:00"
      ⟨(Time.date 2025 12 29 10 30 45).sec, 0, 25200⟩ (by decide)).2 (by decide) (by decide)⟩

/-- C19, as stated, fails: `ParseMeterTimestamp` accepts the RFC 3339 string with
offset +07:00 and the time it returns has a zone offset that is not zero. -/
theorem ParseMeterTimestamp_keeps_offset :
    ∃ t, ParseMeterTimestamp GoTime.Parse "2025-12-29T17:30:45+07:00" = .ok t ∧
      t.offset ≠ 0 :=
  ⟨⟨(Time.date 2025 12 29 10 30 45).sec, 0, 25200⟩, by decide, by decide⟩

/-- C20: for every valid calendar date with a year of at most four digits and
every valid time of day, the form `DD/MM/YYYY HH:MM:SS` and the transposed form
`DD HH:MM:SS/MM/YYYY` are both accepted by `ParseMeterTimestamp` and give the
same time, that date and time in UTC; the string `invalid-date-string` is
rejected. -/
theorem ParseMeterTimestamp_both_forms (year month day hour min sec : Nat) (hy : year ≤ 9999)
    (hm1 : 1 ≤ month) (hm2 : month ≤ 12) (hd1 : 1 ≤ day)
    (hd2 : day ≤ GoTime.daysIn month year) (hh : hour < 24) (hmin : min < 60)
    (hs : sec < 60) :
    ParseMeterTimestamp GoTime.Parse (formDayFirst year month day hour min sec) =
      .ok (Time.date year month day hour min sec) ∧
    ParseMeterTimestamp GoTime.Parse (formTransposed year month day hour min sec) =
      .ok (Time.date year month day hour min sec) ∧
    succeeded (ParseMeterTimestamp GoTime.Parse "invalid-date-string") = false := by
  refine ⟨?_, ?_, by decide⟩
  · rw [ParseMeterTimestamp_unroll,
      parseDayFirst_form year month day hour min sec hy hm1 hm2 hd1 hd2 hh hmin hs]
  · have h := parseTransposed_form year month day hour min sec hy hm1 hm2 hd1 hd2 hh hmin hs
    rw [ParseMeterTimestamp_unroll]
    rcases h1 : GoTime.Parse "02/01/2006 15:04:05"
      (formTransposed year month day hour min sec) with e1 | t1
    · simp only [h.2]
    · rw [h1] at h
      simp [succeeded] at h

/-- Witness of C20: 29 December 2025, 10:30:45, in both forms and as an RFC 3339
string. -/
theorem ParseMeterTimestamp_both_forms_witness :
    formDayFirst 2025 12 29 10 30 45 = "29/12/2025 10:30:45" ∧
    formTransposed 2025 12 29 10 30 45 = "29 10:30:45/12/2025" ∧
    ParseMeterTimestamp GoTime.Parse (formDayFirst 2025 12 29 10 30 45) =
      .ok (Time.date 2025 12 29 10 30 45) ∧
    ParseMeterTimestamp GoTime.Parse (formTransposed 2025 12 29 10 30 45) =
      .ok (Time.date 2025 12 29 10 30 45) ∧
    ParseMeterTimestamp GoTime.Parse "2025-12-29T10:30:45Z" =
      .ok (Time.date 2025 12 29 10 30 45) :=
  have h := ParseMeterTimestamp_both_forms 2025 12 29 10 30 45 (by decide) (by decide)
    (by decide) (by decide) (by decide) (by decide) (by decide) (by decide)
  ⟨by decide, by decide, h.1, h.2.1, by decide⟩

/-! ## The valid results of the validator -/

/-- The values that the check `value < 0` lets through. -/
theorem not_below_zero (value : Float64) (h : value.lt Float64.zero = false) :
    (∃ q, value = .finite q ∧ 0 ≤ q) ∨ value = .posInf ∨ value = .nan := by
  cases value with
  | finite q =>
    left
    refine ⟨q, rfl, ?_⟩
    simpa [Float64.lt, Float64.zero] using h
  | posInf => exact Or.inr (Or.inl rfl)
  | negInf => simp [Float64.lt, Float64.zero] at h
  | nan => exact Or.inr (Or.inr rfl)

/-- The result of `ValidateMetricData` is valid exactly when the four checks
pass, and then it is the parsed value, the parsed time and an empty reason. -/
theorem ValidateMetricData_valid_cases (lib : Lib) (v : Validator) (metric : MetricData)
    (receivedAt : Time) :
    (v.ValidateMetricData lib metric receivedAt).2.2.IsValid = true ↔
      metric.Name ≠ "" ∧ ∃ value, lib.parseFloat (stringsTrim metric.Data "[]") = .ok value ∧
        value.lt Float64.zero = false ∧
        ∃ t, ParseMeterTimestamp lib.timeParse metric.Date = .ok t ∧
          IsWithinTolerance t receivedAt v.timestampToleranceMinutes = true ∧
          v.ValidateMetricData lib metric receivedAt = (value, t, ⟨true, ""⟩) := by
  unfold Validator.ValidateMetricData
  by_cases hname : metric.Name = ""
  · simp [hname]
  · rcases hp : lib.parseFloat (stringsTrim metric.Data "[]") with e | value
    · simp [hname, hp]
    · rcases hneg : value.lt Float64.zero with _ | _
      · rcases ht : ParseMeterTimestamp lib.timeParse metric.Date with e | t
        · simp [hname, hp, hneg, ht]
        · rcases hw : IsWithinTolerance t receivedAt v.timestampToleranceMinutes with _ | _
          · simp [hname, hp, hneg, ht, hw]
          · simp [hname, hp, hneg, ht, hw]
      · simp [hname, hp, hneg]

/-- C12, as the code has it: on every input for which `ValidateMetricData`
returns a valid result, the returned value is the value that the number parser
gave for the trimmed data, and it is not below zero: a finite number that is at
least zero, positive infinity or not-a-number. -/
theorem ValidateMetricData_valid_value (lib : Lib) (v : Validator) (metric : MetricData)
    (receivedAt : Time)
    (hvalid : (v.ValidateMetricData lib metric receivedAt).2.2.IsValid = true) :
    lib.parseFloat (stringsTrim metric.Data "[]") =
      .ok (v.ValidateMetricData lib metric receivedAt).1 ∧
    (v.ValidateMetricData lib metric receivedAt).1.lt Float64.zero = false ∧
    ((∃ q, (v.ValidateMetricData lib metric receivedAt).1 = .finite q ∧ 0 ≤ q) ∨
      (v.ValidateMetricData lib metric receivedAt).1 = .posInf ∨
      (v.ValidateMetricData lib metric receivedAt).1 = .nan) := by
  obtain ⟨_, value, hp, hneg, t, _, _, hres⟩ :=
    (ValidateMetricData_valid_cases lib v metric receivedAt).mp hvalid
  rw [hres]
  exact ⟨hp, hneg, not_below_zero value hneg⟩

/-- Witness of C12: the valid reading of the validator test, with value 245.5. -/
theorem ValidateMetricData_valid_value_witness :
    ((⟨5⟩ : Validator).ValidateMetricData goLib
      ⟨"29/12/2025 10:30:00", "245.5", "power_consumption"⟩ sampleReceivedAt).1 =
      .finite (mkRat 491 2) ∧
    ((⟨5⟩ : Validator).ValidateMetricData goLib
      ⟨"29/12/2025 10:30:00", "245.5", "power_consumption"⟩ sampleReceivedAt).1.lt
      Float64.zero = false :=
  ⟨by decide, (ValidateMetricData_valid_value goLib ⟨5⟩
    ⟨"29/12/2025 10:30:00", "245.5", "power_consumption"⟩ sampleReceivedAt (by decide)).2.1⟩

/-- C12, as stated, fails: the data `+Inf` and `NaN`, which `strconv.ParseFloat`
accepts, give valid results whose values are not finite numbers, and neither is
rejected as an invalid metric value. -/
theorem ValidateMetricData_accepts_non_finite :
    (⟨5⟩ : Validator).ValidateMetricData goLib
      ⟨"29/12/2025 10:30:00", "+Inf", "power_consumption"⟩ sampleReceivedAt =
      (.posInf, Time.date 2025 12 29 10 30 0, ⟨true, ""⟩) ∧
    (⟨5⟩ : Validator).ValidateMetricData goLib
      ⟨"29/12/2025 10:30:00", "NaN", "power_consumption"⟩ sampleReceivedAt =
      (.nan, Time.date 2025 12 29 10 30 0, ⟨true, ""⟩) ∧
    Float64.posInf.isFiniteNonNeg = false ∧ Float64.nan.isFiniteNonNeg = false := by
  decide

/-- When the four checks of the validator pass, the result is the parsed value,
the parsed time and a valid outcome with an empty reason. -/
theorem ValidateMetricData_valid_of_checks (lib : Lib) (v : Validator) (metric : MetricData)
    (receivedAt : Time) (value : Float64) (t : Time) (hname : metric.Name ≠ "")
    (hp : lib.parseFloat (stringsTrim metric.Data "[]") = .ok value)
    (hneg : value.lt Float64.zero = false)
    (ht : ParseMeterTimestamp lib.timeParse metric.Date = .ok t)
    (hw : IsWithinTolerance t receivedAt v.timestampToleranceMinutes = true) :
    v.ValidateMetricData lib metric receivedAt = (value, t, ⟨true, ""⟩) := by
  unfold Validator.ValidateMetricData
  simp [hname, hp, hneg, ht, hw]

/-- C13, as the code has it: `ValidateMetricData` returns a valid result exactly
when the name is not empty, the trimmed data parses to a value that is not below
zero, the date is accepted by `ParseMeterTimestamp` and the parsed time is at
most the tolerance away from the receipt time; the result is then the parsed
value, the parsed time and an empty reason.  The statement is for parsed times
less than `2 ^ 63` nanoseconds from the receipt time and for a tolerance whose
count of nanoseconds fits in an `int64`. -/
theorem ValidateMetricData_valid_iff (lib : Lib) (v : Validator) (metric : MetricData)
    (receivedAt : Time)
    (hrange : ∀ t, ParseMeterTimestamp lib.timeParse metric.Date = .ok t →
      minInt64 < t.nanos - receivedAt.nanos ∧ t.nanos - receivedAt.nanos ≤ maxInt64)
    (htol : minInt64 ≤ v.timestampToleranceMinutes * Minute ∧
      v.timestampToleranceMinutes * Minute ≤ maxInt64) :
    ((v.ValidateMetricData lib metric receivedAt).2.2.IsValid = true ↔
      metric.Name ≠ "" ∧ ∃ value, lib.parseFloat (stringsTrim metric.Data "[]") = .ok value ∧
        value.lt Float64.zero = false ∧
        ∃ t, ParseMeterTimestamp lib.timeParse metric.Date = .ok t ∧
          |t.nanos - receivedAt.nanos| ≤ v.timestampToleranceMinutes * Minute) ∧
    ((v.ValidateMetricData lib metric receivedAt).2.2.IsValid = true →
      ∃ value t, lib.parseFloat (stringsTrim metric.Data "[]") = .ok value ∧
        ParseMeterTimestamp lib.timeParse metric.Date = .ok t ∧
        v.ValidateMetricData lib metric receivedAt = (value, t, ⟨true, ""⟩)) := by
  refine ⟨⟨?_, ?_⟩, ?_⟩
  · intro hvalid
    obtain ⟨hname, value, hp, hneg, t, ht, hw, _⟩ :=
      (ValidateMetricData_valid_cases lib v metric receivedAt).mp hvalid
    exact ⟨hname, value, hp, hneg, t, ht,
      (IsWithinTolerance_in_range t receivedAt _ (hrange t ht).1 (hrange t ht).2 htol.1
        htol.2).mp hw⟩
  · rintro ⟨hname, value, hp, hneg, t, ht, hw⟩
    have hin := (IsWithinTolerance_in_range t receivedAt _ (hrange t ht).1 (hrange t ht).2
      htol.1 htol.2).mpr hw
    rw [ValidateMetricData_valid_of_checks lib v metric receivedAt value t hname hp hneg ht hin]
  · intro hvalid
    obtain ⟨_, value, hp, _, t, ht, _, hres⟩ :=
      (ValidateMetricData_valid_cases lib v metric receivedAt).mp hvalid
    exact ⟨value, t, hp, ht, hres⟩

/-- Witness of C13: the reading of the validator tests in both date forms, with
value 245.5, receipt time 10:32:00 and tolerance 5, is valid with the time
2025-12-29T10:30:00Z; the validity follows from the four checks. -/
theorem ValidateMetricData_valid_iff_witness :
    (⟨5⟩ : Validator).ValidateMetricData goLib
      ⟨"29/12/2025 10:30:00", "245.5", "power_consumption"⟩
      (Time.date 2025 12 29 10 32 0) =
      (.finite (mkRat 491 2), Time.date 2025 12 29 10 30 0, ⟨true, ""⟩) ∧
    (⟨5⟩ : Validator).ValidateMetricData goLib
      ⟨"29 10:30:00/12/2025", "245.5", "power_consumption"⟩
      (Time.date 2025 12 29 10 32 0) =
      (.finite (mkRat 491 2), Time.date 2025 12 29 10 30 0, ⟨true, ""⟩) ∧
    ((⟨5⟩ : Validator).ValidateMetricData goLib
      ⟨"29/12/2025 10:30:00", "245.5", "power_consumption"⟩
      (Time.date 2025 12 29 10 32 0)).2.2.IsValid = true :=
  ⟨by decide, by decide,
    (ValidateMetricData_valid_iff goLib ⟨5⟩
      ⟨"29/12/2025 10:30:00", "245.5", "power_consumption"⟩ (Time.date 2025 12 29 10 32 0)
      (fun t ht => by
        have h : ParseMeterTimestamp goLib.timeParse "29/12/2025 10:30:00" =
            .ok (Time.date 2025 12 29 10 30 0) := by decide
        rw [h] at ht
        cases ht
        decide)
      (by decide)).1.mpr
      ⟨by decide, .finite (mkRat 491 2), by decide, by decide, Time.date 2025 12 29 10 30 0,
        by decide, by decide⟩⟩

/-- C13, as stated, fails: the data `NaN` parses to not-a-number, which is not a
number at least zero, and the result is valid all the same. -/
theorem ValidateMetricData_accepts_nan :
    ((⟨5⟩ : Validator).ValidateMetricData goLib
      ⟨"29/12/2025 10:30:00", "NaN", "power_consumption"⟩
      (Time.date 2025 12 29 10 32 0)).2.2.IsValid = true ∧
    goLib.parseFloat (stringsTrim "NaN" "[]") = .ok .nan ∧
    ¬ ∃ q : ℚ, Float64.nan = .finite q ∧ 0 ≤ q := by
  refine ⟨by decide, by decide, ?_⟩
  rintro ⟨q, hq, _⟩
  cases hq

/-! ## The detector on an empty history -/

/-- C26: for a detector whose minimum number of data points is at most zero and
a value that is not below zero, `DetectAnomaly` on the empty history returns not
anomalous with the empty reason; the average it computes there, zero divided by
the length zero, is the float64 value NaN, which is not greater than zero. -/
theorem DetectAnomaly_empty_history (d : Detector) (value : Float64)
    (hmin : d.minDataPointsForDetection ≤ 0) (hvalue : value.lt Float64.zero = false) :
    d.DetectAnomaly value [] = (false, "") ∧ rollingAverage [] = Float64.nan ∧
      (rollingAverage []).gt Float64.zero = false := by
  have hlen : ¬ (([] : List Float64).length : Int) < d.minDataPointsForDetection := by
    simp only [List.length_nil, Nat.cast_zero]
    omega
  have havg : rollingAverage [] = Float64.nan := by decide
  refine ⟨?_, havg, by rw [havg]; decide⟩
  rw [DetectAnomaly_spike_branch d value [] hvalue hlen, havg]
  have hgt : Float64.nan.gt Float64.zero = false := by decide
  simp [hgt]

/-- Witness of C26: the detectors with minimum 0 and minimum -1 on the values
300 and 0 and an empty history. -/
theorem DetectAnomaly_empty_history_witness :
    (Detector.DetectAnomaly ⟨.finite 3, 0⟩ (.finite 300) [] = (false, "") ∧
      rollingAverage [] = Float64.nan ∧ (rollingAverage []).gt Float64.zero = false) ∧
    (Detector.DetectAnomaly ⟨.finite 3, -1⟩ (.finite 0) [] = (false, "") ∧
      rollingAverage [] = Float64.nan ∧ (rollingAverage []).gt Float64.zero = false) :=
  ⟨DetectAnomaly_empty_history ⟨.finite 3, 0⟩ (.finite 300) (by decide) (by decide),
    DetectAnomaly_empty_history ⟨.finite 3, -1⟩ (.finite 0) (by decide) (by decide)⟩

/-! ## Status, reason and timestamp of a scored sub-reading -/

/-- The outcome of the validator is valid, or its reason is not empty. -/
theorem ValidateMetricData_valid_or_reason (lib : Lib) (v : Validator) (metric : MetricData)
    (receivedAt : Time) :
    (v.ValidateMetricData lib metric receivedAt).2.2.IsValid = true ∨
      (v.ValidateMetricData lib metric receivedAt).2.2.AnomalyReason ≠ "" := by
  unfold Validator.ValidateMetricData
  split
  · exact Or.inr (by decide)
  · simp only
    split
    · exact Or.inr (append_ne_empty _ _ (by decide))
    · split
      · exact Or.inr (by simp)
      · split
        · exact Or.inr (append_ne_empty _ _ (by decide))
        · split
          · exact Or.inr (append_ne_empty _ _ (append_ne_empty _ _ (by decide)))
          · exact Or.inl rfl

/-- The outcome of the detector is not anomalous, or its reason is not empty. -/
theorem DetectAnomaly_quiet_or_reason (d : Detector) (value : Float64)
    (historicalValues : List Float64) :
    (d.DetectAnomaly value historicalValues).1 = false ∨
      (d.DetectAnomaly value historicalValues).2 ≠ "" := by
  unfold Detector.DetectAnomaly
  split
  · exact Or.inr (by decide)
  · split
    · exact Or.inl rfl
    · simp only
      split
      · exact Or.inr (append_ne_empty _ _ (append_ne_empty _ _ (append_ne_empty _ _
          (append_ne_empty _ _ (append_ne_empty _ _ (by decide))))))
      · exact Or.inl rfl

/-- The status and the reason that `scoreReading` computes: the status is
"valid" without a reason, or "invalid" with a reason that is not empty. -/
theorem scoreReading_status {σ : Type} (lib : Lib) (env : Env σ) (s : ProcessorService)
    (clientID : UUID) (pm : PMData) (receivedAt : Time) (w : σ) :
    ((scoreReading lib env s clientID pm receivedAt w).1.validationStatus = "valid" ∧
      (scoreReading lib env s clientID pm receivedAt w).1.anomalyReason = none) ∨
    ((scoreReading lib env s clientID pm receivedAt w).1.validationStatus = "invalid" ∧
      ∃ reason, reason ≠ "" ∧
        (scoreReading lib env s clientID pm receivedAt w).1.anomalyReason = some reason) := by
  unfold scoreReading
  simp only
  rcases hv : (s.validator.ValidateMetricData lib ⟨pm.Date, pm.Data, pm.Name⟩
    receivedAt).2.2.IsValid with _ | _
  · have hr := ValidateMetricData_valid_or_reason lib s.validator ⟨pm.Date, pm.Data, pm.Name⟩
      receivedAt
    simp only [hv, Bool.false_eq_true, false_or] at hr
    simp only [Bool.not_false, if_true]
    exact Or.inr ⟨by simp, _, hr, by simp⟩
  · simp only [Bool.not_true, Bool.false_eq_true, if_false]
    rcases hh : env.queryRecentReadings clientID pm.Name 10 w with ⟨_ | hist, w1⟩
    · exact Or.inl ⟨rfl, rfl⟩
    · simp only
      rcases hd : (s.detector.DetectAnomaly (s.validator.ValidateMetricData lib
        ⟨pm.Date, pm.Data, pm.Name⟩ receivedAt).1 hist).1 with _ | _
      · simp only [Bool.false_eq_true, if_false]
        exact Or.inl ⟨by simp, by simp⟩
      · have hr := DetectAnomaly_quiet_or_reason s.detector (s.validator.ValidateMetricData lib
          ⟨pm.Date, pm.Data, pm.Name⟩ receivedAt).1 hist
        simp only [hd, Bool.true_eq_false, false_or] at hr
        simp only [if_true]
        exact Or.inr ⟨by simp, _, hr, by simp⟩

/-- The calls of `processSingleReading` end with exactly one insert, of the
reading built from the scored sub-reading, and a returned event is built from
the same scored sub-reading. -/
theorem processSingleReading_insert {σ : Type} (lib : Lib) (env : Env σ) (s : ProcessorService)
    (clientID : UUID) (pm : PMData) (receivedAt : Time) (rawPayload : String) (w : σ) :
    (∃ ok, Call.insertReading
        (buildReading (scoreReading lib env s clientID pm receivedAt w).1 clientID pm receivedAt
          rawPayload) ok ∈
        (processSingleReading lib env s clientID pm receivedAt rawPayload w).2.2) ∧
    (∀ reading ok, Call.insertReading reading ok ∈
        (processSingleReading lib env s clientID pm receivedAt rawPayload w).2.2 →
      reading = buildReading (scoreReading lib env s clientID pm receivedAt w).1 clientID pm
        receivedAt rawPayload) ∧
    (∀ event, (processSingleReading lib env s clientID pm receivedAt rawPayload w).1 = .ok event →
      event = buildEvent lib (scoreReading lib env s clientID pm receivedAt w).1 clientID pm) := by
  have hq := (scoreReading_quiet lib env s clientID pm receivedAt w).2
  have hnot : ∀ reading ok,
      Call.insertReading reading ok ∉ (scoreReading lib env s clientID pm receivedAt w).2.2 := by
    intro reading ok hmem
    have := List.filterMap_eq_nil_iff.mp hq _ hmem
    simp [Call.inserted] at this
  unfold processSingleReading
  simp only
  split
  · refine ⟨⟨false, by simp⟩, ?_, by simp⟩
    intro reading ok hmem
    rcases List.mem_append.mp hmem with h | h
    · exact absurd h (hnot reading ok)
    · simp at h
      exact h.1
  · refine ⟨⟨true, by simp⟩, ?_, ?_⟩
    · intro reading ok hmem
      rcases List.mem_append.mp hmem with h | h
      · exact absurd h (hnot reading ok)
      · simp at h
        exact h.1
    · intro event h
      simp at h
      exact h.symm

/-- The value and the reading time that `scoreReading` computes: the value of
the validator, and the time of the validator unless it is the zero time, which
is replaced by the receipt time. -/
theorem scoreReading_value_time {σ : Type} (lib : Lib) (env : Env σ) (s : ProcessorService)
    (clientID : UUID) (pm : PMData) (receivedAt : Time) (w : σ) :
    (scoreReading lib env s clientID pm receivedAt w).1.value =
      (s.validator.ValidateMetricData lib ⟨pm.Date, pm.Data, pm.Name⟩ receivedAt).1 ∧
    (scoreReading lib env s clientID pm receivedAt w).1.readingTime =
      if (s.validator.ValidateMetricData lib ⟨pm.Date, pm.Data, pm.Name⟩
          receivedAt).2.1.IsZero = true then receivedAt
      else (s.validator.ValidateMetricData lib ⟨pm.Date, pm.Data, pm.Name⟩ receivedAt).2.1 := by
  unfold scoreReading
  simp only
  split
  · exact ⟨rfl, rfl⟩
  · split <;> [skip; split] <;> exact ⟨rfl, rfl⟩

/-- C25: for every sub-reading and every behaviour of the collaborators,
`processSingleReading` hands a reading to storage, and every reading it hands to
storage has the status "valid" or "invalid", has an anomaly reason exactly when
the status is "invalid", that reason is not the empty string, and a returned
event has the status of the reading. -/
theorem processSingleReading_status_reason {σ : Type} (lib : Lib) (env : Env σ)
    (s : ProcessorService) (clientID : UUID) (pm : PMData) (receivedAt : Time)
    (rawPayload : String) (w : σ) :
    (∃ reading ok, Call.insertReading reading ok ∈
        (processSingleReading lib env s clientID pm receivedAt rawPayload w).2.2) ∧
    ∀ reading ok, Call.insertReading reading ok ∈
        (processSingleReading lib env s clientID pm receivedAt rawPayload w).2.2 →
      (reading.ValidationStatus = "valid" ∨ reading.ValidationStatus = "invalid") ∧
      (reading.AnomalyReason.isSome = true ↔ reading.ValidationStatus = "invalid") ∧
      (∀ reason, reading.AnomalyReason = some reason → reason ≠ "") ∧
      ∀ event, (processSingleReading lib env s clientID pm receivedAt rawPayload w).1 =
        .ok event → event.ValidationStatus = reading.ValidationStatus := by
  obtain ⟨⟨ok0, h0⟩, hall, hev⟩ :=
    processSingleReading_insert lib env s clientID pm receivedAt rawPayload w
  refine ⟨⟨_, ok0, h0⟩, ?_⟩
  intro reading ok hmem
  have hr := hall reading ok hmem
  have hevent : ∀ event,
      (processSingleReading lib env s clientID pm receivedAt rawPayload w).1 = .ok event →
      event.ValidationStatus = reading.ValidationStatus := by
    intro event he
    rw [hev event he, hr]
    rfl
  have hst : reading.ValidationStatus =
      (scoreReading lib env s clientID pm receivedAt w).1.validationStatus := by rw [hr]; rfl
  have hre : reading.AnomalyReason =
      (scoreReading lib env s clientID pm receivedAt w).1.anomalyReason := by rw [hr]; rfl
  rcases scoreReading_status lib env s clientID pm receivedAt w with ⟨h1, h2⟩ | ⟨h1, reason, h2, h3⟩
  · rw [hst, hre, h1, h2]
    refine ⟨Or.inl rfl, ?_, ?_, ?_⟩
    · simp
    · simp
    · intro event he
      rw [hevent event he, hst, h1]
  · rw [hst, hre, h1, h3]
    refine ⟨Or.inr rfl, ?_, ?_, ?_⟩
    · simp
    · intro r hr2
      simp at hr2
      rw [← hr2]
      exact h2
    · intro event he
      rw [hevent event he, hst, h1]

/-- C23: for a sub-reading that the validator accepts, when the lookup of the
recent readings fails, `processSingleReading` makes exactly two calls, the failed
lookup and the insert of a reading with the validated value, the status "valid"
and no anomaly reason; the detector is not run; when the insert succeeds the
result is an event with the status "valid" and the validated value, and an error
can only be the error of the insert. -/
theorem processSingleReading_lookup_failure {σ : Type} (lib : Lib) (env : Env σ)
    (s : ProcessorService) (clientID : UUID) (pm : PMData) (receivedAt : Time)
    (rawPayload : String) (w : σ)
    (hvalid : (s.validator.ValidateMetricData lib ⟨pm.Date, pm.Data, pm.Name⟩
      receivedAt).2.2.IsValid = true)
    (hlookup : succeeded (env.queryRecentReadings clientID pm.Name 10 w).1 = false) :
    ∃ reading ok,
      (processSingleReading lib env s clientID pm receivedAt rawPayload w).2.2 =
        [Call.getRecentReadings clientID pm.Name 10 false, Call.insertReading reading ok] ∧
      (∀ c ∈ (processSingleReading lib env s clientID pm receivedAt rawPayload w).2.2,
        c.isDetectAnomaly = false) ∧
      reading.ValidationStatus = "valid" ∧ reading.AnomalyReason = none ∧
      reading.MetricValue =
        (s.validator.ValidateMetricData lib ⟨pm.Date, pm.Data, pm.Name⟩ receivedAt).1 ∧
      ok = succeeded (Repository.InsertMeterReadingTx env reading
        (env.queryRecentReadings clientID pm.Name 10 w).2).1 ∧
      (ok = true → ∃ event,
        (processSingleReading lib env s clientID pm receivedAt rawPayload w).1 = .ok event ∧
        event.ValidationStatus = "valid" ∧ event.MetricValue = reading.MetricValue) ∧
      (ok = false → ∃ err,
        (Repository.InsertMeterReadingTx env reading
          (env.queryRecentReadings clientID pm.Name 10 w).2).1 = .error err ∧
        (processSingleReading lib env s clientID pm receivedAt rawPayload w).1 =
          .error (GoError.wrap "failed to insert reading: " err)) := by
  have hs : scoreReading lib env s clientID pm receivedAt w =
      (⟨(s.validator.ValidateMetricData lib ⟨pm.Date, pm.Data, pm.Name⟩ receivedAt).1,
        if (s.validator.ValidateMetricData lib ⟨pm.Date, pm.Data, pm.Name⟩
          receivedAt).2.1.IsZero = true then receivedAt
        else (s.validator.ValidateMetricData lib ⟨pm.Date, pm.Data, pm.Name⟩ receivedAt).2.1,
        "valid", none⟩, (env.queryRecentReadings clientID pm.Name 10 w).2,
        [Call.getRecentReadings clientID pm.Name 10 false]) := by
    unfold scoreReading
    simp only [hvalid, Bool.not_true, Bool.false_eq_true, if_false]
    rcases hh : env.queryRecentReadings clientID pm.Name 10 w with ⟨_ | hist, w1⟩
    · rfl
    · rw [hh] at hlookup
      simp [succeeded] at hlookup
  refine ⟨buildReading (scoreReading lib env s clientID pm receivedAt w).1 clientID pm receivedAt
    rawPayload, succeeded (Repository.InsertMeterReadingTx env
      (buildReading (scoreReading lib env s clientID pm receivedAt w).1 clientID pm receivedAt
        rawPayload) (env.queryRecentReadings clientID pm.Name 10 w).2).1, ?_⟩
  unfold processSingleReading
  simp only [hs]
  rcases hi : Repository.InsertMeterReadingTx env (buildReading
    ⟨(s.validator.ValidateMetricData lib ⟨pm.Date, pm.Data, pm.Name⟩ receivedAt).1,
      if (s.validator.ValidateMetricData lib ⟨pm.Date, pm.Data, pm.Name⟩
        receivedAt).2.1.IsZero = true then receivedAt
      else (s.validator.ValidateMetricData lib ⟨pm.Date, pm.Data, pm.Name⟩ receivedAt).2.1,
      "valid", none⟩ clientID pm receivedAt rawPayload)
    (env.queryRecentReadings clientID pm.Name 10 w).2 with ⟨err | u, w2⟩
  · simp [succeeded, Call.isDetectAnomaly, buildReading]
  · simp [succeeded, Call.isDetectAnomaly, buildReading, buildEvent]

/-- Witness of C23: the valid sample sub-reading with value 250 when the lookup
of the history fails; the reading is inserted as valid, the event is returned,
and the sample message as a whole is processed without error. -/
theorem processSingleReading_lookup_failure_witness :
    (∃ reading ok,
      (processSingleReading sampleLib (sampleEnv none none true fun _ => true) sampleService ⟨7⟩
        ⟨"29/12/2025 10:30:00", "250", "power_consumption"⟩ sampleReceivedAt "raw" ⟨0, 0⟩).2.2 =
        [Call.getRecentReadings ⟨7⟩ "power_consumption" 10 false,
          Call.insertReading reading ok] ∧
      (∀ c ∈ (processSingleReading sampleLib (sampleEnv none none true fun _ => true)
          sampleService ⟨7⟩ ⟨"29/12/2025 10:30:00", "250", "power_consumption"⟩ sampleReceivedAt
          "raw" ⟨0, 0⟩).2.2, c.isDetectAnomaly = false) ∧
      reading.ValidationStatus = "valid" ∧ reading.AnomalyReason = none ∧
      reading.MetricValue =
        (sampleService.validator.ValidateMetricData sampleLib
          ⟨"29/12/2025 10:30:00", "250", "power_consumption"⟩ sampleReceivedAt).1 ∧
      ok = succeeded (Repository.InsertMeterReadingTx (sampleEnv none none true fun _ => true)
        reading ((sampleEnv none none true fun _ => true).queryRecentReadings ⟨7⟩
          "power_consumption" 10 ⟨0, 0⟩).2).1 ∧
      (ok = true → ∃ event,
        (processSingleReading sampleLib (sampleEnv none none true fun _ => true) sampleService
          ⟨7⟩ ⟨"29/12/2025 10:30:00", "250", "power_consumption"⟩ sampleReceivedAt "raw"
          ⟨0, 0⟩).1 = .ok event ∧
        event.ValidationStatus = "valid" ∧ event.MetricValue = reading.MetricValue) ∧
      (ok = false → ∃ err,
        (Repository.InsertMeterReadingTx (sampleEnv none none true fun _ => true) reading
          ((sampleEnv none none true fun _ => true).queryRecentReadings ⟨7⟩
            "power_consumption" 10 ⟨0, 0⟩).2).1 = .error err ∧
        (processSingleReading sampleLib (sampleEnv none none true fun _ => true) sampleService
          ⟨7⟩ ⟨"29/12/2025 10:30:00", "250", "power_consumption"⟩ sampleReceivedAt "raw"
          ⟨0, 0⟩).1 = .error (GoError.wrap "failed to insert reading: " err))) ∧
    (processSingleReading sampleLib (sampleEnv none none true fun _ => true) sampleService ⟨7⟩
      ⟨"29/12/2025 10:30:00", "250", "power_consumption"⟩ sampleReceivedAt "raw" ⟨0, 0⟩).1 =
      .ok ⟨"00000000-0000-0000-0000-000000000007", "power_consumption", .finite 250,
        "2025-12-29T10:30:00Z", "valid"⟩ ∧
    (ProcessMessage sampleLib (sampleEnv none none true fun _ => true) sampleService sampleBody
      ⟨0, 0⟩).1 = none :=
  ⟨processSingleReading_lookup_failure sampleLib (sampleEnv none none true fun _ => true)
      sampleService ⟨7⟩ ⟨"29/12/2025 10:30:00", "250", "power_consumption"⟩ sampleReceivedAt
      "raw" ⟨0, 0⟩ (by decide) (by decide),
    by decide, by decide⟩

/-- The zero time is zero for `Time.IsZero`. -/
theorem Time.zero_IsZero : Time.zero.IsZero = true := by decide

/-- The time that the validator returns: the zero time when the name is empty,
the value does not parse or is below zero, or the date does not parse, and the
parsed date in every other case, inside the tolerance window or not. -/
theorem ValidateMetricData_time (lib : Lib) (v : Validator) (metric : MetricData)
    (receivedAt : Time) :
    ((metric.Name = "" ∨ succeeded (lib.parseFloat (stringsTrim metric.Data "[]")) = false ∨
        (∃ value, lib.parseFloat (stringsTrim metric.Data "[]") = .ok value ∧
          value.lt Float64.zero = true) ∨
        succeeded (ParseMeterTimestamp lib.timeParse metric.Date) = false) →
      (v.ValidateMetricData lib metric receivedAt).2.1 = Time.zero) ∧
    (∀ value readingTime, metric.Name ≠ "" →
      lib.parseFloat (stringsTrim metric.Data "[]") = .ok value →
      value.lt Float64.zero = false →
      ParseMeterTimestamp lib.timeParse metric.Date = .ok readingTime →
      (v.ValidateMetricData lib metric receivedAt).2.1 = readingTime ∧
      ((v.ValidateMetricData lib metric receivedAt).2.2.IsValid = true ↔
        IsWithinTolerance readingTime receivedAt v.timestampToleranceMinutes = true)) := by
  unfold Validator.ValidateMetricData
  by_cases hname : metric.Name = ""
  · simp [hname]
  · simp only [hname, if_false]
    rcases hp : lib.parseFloat (stringsTrim metric.Data "[]") with err | value
    · simp [succeeded]
    · simp only
      rcases hneg : value.lt Float64.zero with _ | _
      · simp only [Bool.false_eq_true, if_false]
        rcases ht : ParseMeterTimestamp lib.timeParse metric.Date with err | readingTime
        · simp [succeeded]
        · simp only
          rcases hw : IsWithinTolerance readingTime receivedAt v.timestampToleranceMinutes
            with _ | _
          · simp only [succeeded, hneg, Bool.not_false, if_true]
            refine ⟨by simp [hneg], ?_⟩
            intro value1 readingTime1 _ h1 _ h2
            cases h1
            cases h2
            simp [hw]
          · simp only [succeeded, hneg, Bool.not_true, Bool.false_eq_true, if_false]
            refine ⟨by simp [hneg], ?_⟩
            intro value1 readingTime1 _ h1 _ h2
            cases h1
            cases h2
            simp [hw]
      · simp only [if_true, succeeded]
        refine ⟨by simp, ?_⟩
        intro value1 readingTime1 _ h1 h3
        cases h1
        rw [hneg] at h3
        cases h3

/-- C24, as the code has it: for every sub-reading, the reading handed to
storage carries the receipt time of the message when the validator returned the
zero time, and the time of the validator otherwise; unless the time of the
validator is the receipt time itself, the stored time is therefore the receipt
time if and only if the validator returned the zero time.  A returned event
carries the text that the RFC 3339 formatter gives for the stored time, and the
text that `Time.formatUTC` gives does not depend on the fraction of a second.
The validator returns the zero time exactly when the name is empty, the value
does not parse or is below zero, the date does not parse, or the date parses to
the zero time; in every other case, inside the tolerance window or not, it
returns the parsed date, which the reading keeps. -/
theorem processSingleReading_timestamp {σ : Type} (lib : Lib) (env : Env σ)
    (s : ProcessorService) (clientID : UUID) (pm : PMData) (receivedAt : Time)
    (rawPayload : String) (w : σ) :
    (∃ reading ok, Call.insertReading reading ok ∈
        (processSingleReading lib env s clientID pm receivedAt rawPayload w).2.2) ∧
    (∀ reading ok, Call.insertReading reading ok ∈
        (processSingleReading lib env s clientID pm receivedAt rawPayload w).2.2 →
      (reading.ReadingTimestamp =
        if (s.validator.ValidateMetricData lib ⟨pm.Date, pm.Data, pm.Name⟩
            receivedAt).2.1.IsZero = true then receivedAt
        else (s.validator.ValidateMetricData lib ⟨pm.Date, pm.Data, pm.Name⟩
          receivedAt).2.1) ∧
      ((s.validator.ValidateMetricData lib ⟨pm.Date, pm.Data, pm.Name⟩ receivedAt).2.1 ≠
          receivedAt →
        (reading.ReadingTimestamp = receivedAt ↔
          (s.validator.ValidateMetricData lib ⟨pm.Date, pm.Data, pm.Name⟩
            receivedAt).2.1.IsZero = true)) ∧
      ∀ event, (processSingleReading lib env s clientID pm receivedAt rawPayload w).1 =
        .ok event → event.ReadingTimestamp = lib.formatRFC3339 reading.ReadingTimestamp) ∧
    ((s.validator.ValidateMetricData lib ⟨pm.Date, pm.Data, pm.Name⟩
        receivedAt).2.1.IsZero = true ↔
      (pm.Name = "" ∨ succeeded (lib.parseFloat (stringsTrim pm.Data "[]")) = false ∨
        (∃ value, lib.parseFloat (stringsTrim pm.Data "[]") = .ok value ∧
          value.lt Float64.zero = true) ∨
        succeeded (ParseMeterTimestamp lib.timeParse pm.Date) = false ∨
        ∃ readingTime, ParseMeterTimestamp lib.timeParse pm.Date = .ok readingTime ∧
          readingTime.IsZero = true)) ∧
    (∀ value readingTime, pm.Name ≠ "" →
      lib.parseFloat (stringsTrim pm.Data "[]") = .ok value →
      value.lt Float64.zero = false →
      ParseMeterTimestamp lib.timeParse pm.Date = .ok readingTime →
      readingTime.IsZero = false →
      ∀ reading ok, Call.insertReading reading ok ∈
        (processSingleReading lib env s clientID pm receivedAt rawPayload w).2.2 →
      reading.ReadingTimestamp = readingTime) ∧
    (∀ (t : Time) (nsec : Int), Time.formatUTC { t with nsec := nsec } = Time.formatUTC t) := by
  obtain ⟨⟨ok0, h0⟩, hall, hev⟩ :=
    processSingleReading_insert lib env s clientID pm receivedAt rawPayload w
  have hvt := (scoreReading_value_time lib env s clientID pm receivedAt w).2
  obtain ⟨hzero, hkeep⟩ := ValidateMetricData_time lib s.validator ⟨pm.Date, pm.Data, pm.Name⟩
    receivedAt
  have hstored : ∀ reading ok, Call.insertReading reading ok ∈
      (processSingleReading lib env s clientID pm receivedAt rawPayload w).2.2 →
      reading.ReadingTimestamp =
        if (s.validator.ValidateMetricData lib ⟨pm.Date, pm.Data, pm.Name⟩
            receivedAt).2.1.IsZero = true then receivedAt
        else (s.validator.ValidateMetricData lib ⟨pm.Date, pm.Data, pm.Name⟩
          receivedAt).2.1 := by
    intro reading ok hmem
    rw [hall reading ok hmem, ← hvt]
    rfl
  refine ⟨⟨_, ok0, h0⟩, ?_, ?_, ?_, fun _ _ => rfl⟩
  · intro reading ok hmem
    refine ⟨hstored reading ok hmem, ?_, ?_⟩
    · intro hne
      rw [hstored reading ok hmem]
      by_cases hz : (s.validator.ValidateMetricData lib ⟨pm.Date, pm.Data, pm.Name⟩
          receivedAt).2.1.IsZero = true
      · simp [hz]
      · simp [hz, hne]
    intro event he
    rw [hev event he, hall reading ok hmem]
    rfl
  · constructor
    · intro hz
      by_cases hname : pm.Name = ""
      · exact Or.inl hname
      · rcases hp : lib.parseFloat (stringsTrim pm.Data "[]") with err | value
        · exact Or.inr (Or.inl rfl)
        · rcases hneg : value.lt Float64.zero with _ | _
          · rcases ht : ParseMeterTimestamp lib.timeParse pm.Date with err | readingTime
            · exact Or.inr (Or.inr (Or.inr (Or.inl rfl)))
            · have hk := (hkeep value readingTime hname hp hneg ht).1
              rw [hk] at hz
              exact Or.inr (Or.inr (Or.inr (Or.inr ⟨readingTime, rfl, hz⟩)))
          · exact Or.inr (Or.inr (Or.inl ⟨value, rfl, hneg⟩))
    · intro h
      rcases h with h | h | h | h | ⟨readingTime, ht, hz⟩
      · rw [hzero (Or.inl h)]; exact Time.zero_IsZero
      · rw [hzero (Or.inr (Or.inl h))]; exact Time.zero_IsZero
      · rw [hzero (Or.inr (Or.inr (Or.inl h)))]; exact Time.zero_IsZero
      · rw [hzero (Or.inr (Or.inr (Or.inr h)))]; exact Time.zero_IsZero
      · by_cases hname : pm.Name = ""
        · rw [hzero (Or.inl hname)]; exact Time.zero_IsZero
        · rcases hp : lib.parseFloat (stringsTrim pm.Data "[]") with err | value
          · rw [hzero (Or.inr (Or.inl (by rw [hp]; rfl)))]; exact Time.zero_IsZero
          · rcases hneg : value.lt Float64.zero with _ | _
            · rw [(hkeep value readingTime hname hp hneg ht).1]; exact hz
            · rw [hzero (Or.inr (Or.inr (Or.inl ⟨value, hp, hneg⟩)))]; exact Time.zero_IsZero
  · intro value readingTime hname hp hneg ht hz reading ok hmem
    rw [hstored reading ok hmem, (hkeep value readingTime hname hp hneg ht).1]
    simp [hz]

/-- C24, as stated, fails in two ways.  A sub-reading whose date is the receipt
time itself is stored with the receipt time although the validator returned the
parsed date and not the zero time.  And for a receipt time with half a second, a
sub-reading with an empty name is stored with that receipt time, while the text
in the event, read back as an RFC 3339 date-time, is the instant half a second
before it. -/
theorem processSingleReading_receipt_time_coincides :
    (((processSingleReading goLib (sampleEnv none (some []) true fun _ => true) sampleService
        ⟨7⟩ ⟨"29/12/2025 10:32:00", "250", "power_consumption"⟩ sampleReceivedAt "raw"
        ⟨0, 0⟩).2.2.filterMap Call.inserted).map (fun r => r.ReadingTimestamp) =
        [sampleReceivedAt] ∧
      (sampleService.validator.ValidateMetricData goLib
        ⟨"29/12/2025 10:32:00", "250", "power_consumption"⟩ sampleReceivedAt).2.1.IsZero =
        false) ∧
    (((processSingleReading goLib (sampleEnv none (some []) true fun _ => true) sampleService
        ⟨7⟩ ⟨"29/12/2025 10:30:00", "250", ""⟩ { sampleReceivedAt with nsec := 500000000 }
        "raw" ⟨0, 0⟩).2.2.filterMap Call.inserted).map (fun r => r.ReadingTimestamp) =
        [{ sampleReceivedAt with nsec := 500000000 }] ∧
      ((processSingleReading goLib (sampleEnv none (some []) true fun _ => true) sampleService
        ⟨7⟩ ⟨"29/12/2025 10:30:00", "250", ""⟩ { sampleReceivedAt with nsec := 500000000 }
        "raw" ⟨0, 0⟩).1.map fun e => e.ReadingTimestamp) = .ok "2025-12-29T10:32:00Z" ∧
      GoTime.Parse RFC3339 "2025-12-29T10:32:00Z" = .ok sampleReceivedAt ∧
      sampleReceivedAt.nanos + 500000000 =
        ({ sampleReceivedAt with nsec := 500000000 } : Time).nanos) := by
  decide

/-! ## The receive loop handles one delivery at a time -/

/-- The calls of `Consumer.processMessage`: the handler, then one settlement of
the delivery. -/
theorem processMessage_calls {σ : Type} (env : DeliveryEnv σ) (body : String) (w : σ) :
    (Consumer.processMessage env body w).2 =
        [DeliveryCall.handler body false, DeliveryCall.nack false false] ∨
      (Consumer.processMessage env body w).2 =
        [DeliveryCall.handler body true, DeliveryCall.ack false] := by
  unfold Consumer.processMessage
  split
  · exact Or.inl rfl
  · exact Or.inr rfl

/-- C22, as the code has it: the receive loop handles the deliveries one at a
time.  Its events are, delivery after delivery, the receipt, the call of the
handler and the acknowledgement or refusal, so that a delivery is received only
when every earlier delivery has been settled; after every number of events at
most one delivery is in the state Processing, and none is at the end. -/
theorem receiveLoop_sequential {σ : Type} (env : DeliveryEnv σ) (deliveries : List String)
    (w : σ) :
    (∃ outcomes : List Bool, outcomes.length = deliveries.length ∧
      (Consumer.receiveLoop env deliveries w).2 =
        ((deliveries.zip outcomes).map fun p => passEvents p.1 p.2).flatten) ∧
    (∀ n, 0 ≤ inProcessing ((Consumer.receiveLoop env deliveries w).2.take n) ∧
      inProcessing ((Consumer.receiveLoop env deliveries w).2.take n) ≤ 1) ∧
    inProcessing (Consumer.receiveLoop env deliveries w).2 = 0 := by
  induction deliveries generalizing w with
  | nil =>
    refine ⟨⟨[], rfl, rfl⟩, ?_, rfl⟩
    intro n
    simp [Consumer.receiveLoop, inProcessing]
  | cons body rest ih =>
    obtain ⟨⟨outcomes, hlen, htrace⟩, hbound, hend⟩ :=
      ih (Consumer.processMessage env body w).1
    unfold inProcessing at hbound hend
    rcases processMessage_calls env body w with hc | hc
    · refine ⟨⟨false :: outcomes, by simp [hlen], ?_⟩, ?_, ?_⟩
      · simp [Consumer.receiveLoop, hc, htrace, passEvents]
      · intro n
        rcases n with _ | _ | _ | n
        · simp [inProcessing]
        · simp [Consumer.receiveLoop, hc, inProcessing, LoopEvent.delta]
        · simp [Consumer.receiveLoop, hc, inProcessing, LoopEvent.delta]
        · simpa [Consumer.receiveLoop, hc, inProcessing, LoopEvent.delta] using hbound n
      · simpa [Consumer.receiveLoop, hc, inProcessing, LoopEvent.delta] using hend
    · refine ⟨⟨true :: outcomes, by simp [hlen], ?_⟩, ?_, ?_⟩
      · simp [Consumer.receiveLoop, hc, htrace, passEvents]
      · intro n
        rcases n with _ | _ | _ | n
        · simp [inProcessing]
        · simp [Consumer.receiveLoop, hc, inProcessing, LoopEvent.delta]
        · simp [Consumer.receiveLoop, hc, inProcessing, LoopEvent.delta]
        · simpa [Consumer.receiveLoop, hc, inProcessing, LoopEvent.delta] using hbound n
      · simpa [Consumer.receiveLoop, hc, inProcessing, LoopEvent.delta] using hend

/-- Counterexample to C22 as stated: with two deliveries in the channel, the
second one is received only after the first has been acknowledged, and at no
point of the run are two deliveries in the state Processing. -/
theorem receiveLoop_second_waits :
    (Consumer.receiveLoop sampleDeliveryEnv ["first", "second"] 0).2 =
      [LoopEvent.received "first", LoopEvent.call (DeliveryCall.handler "first" true),
        LoopEvent.call (DeliveryCall.ack false), LoopEvent.received "second",
        LoopEvent.call (DeliveryCall.handler "second" true),
        LoopEvent.call (DeliveryCall.ack false)] ∧
    (Consumer.receiveLoop sampleDeliveryEnv ["first", "second"] 0).2.length = 6 ∧
    ¬ ∃ n, n ≤ 6 ∧
      2 ≤ inProcessing ((Consumer.receiveLoop sampleDeliveryEnv ["first", "second"] 0).2.take n) :=
  by decide

/-! ## Idempotence of the client registry -/

/-- The update of the last-seen time keeps the fingerprints and the IDs of the
rows. -/
theorem updateLastSeen_keys (table : ClientTable) (now : Time) (id : UUID) :
    ((table.updateLastSeen now id).map fun r => r.ClientFingerprint) =
        (table.map fun r => r.ClientFingerprint) ∧
      ((table.updateLastSeen now id).map fun r => r.ID) = (table.map fun r => r.ID) := by
  unfold ClientTable.updateLastSeen
  constructor <;>
  · rw [List.map_map]
    apply List.map_congr_left
    intro r _
    simp only [Function.comp]
    split <;> rfl

/-- On a table with unique IDs, the update of the last-seen time changes the
row with the given ID and no other row. -/
theorem updateLastSeen_split (pre post : List MeterClient) (row : MeterClient) (now : Time)
    (hid : ((pre ++ row :: post).map fun r => r.ID).Nodup) :
    ClientTable.updateLastSeen (pre ++ row :: post) now row.ID =
      pre ++ { row with LastSeenAt := now } :: post := by
  have hpre : ∀ x ∈ pre, x.ID ≠ row.ID := by
    intro x hx heq
    rw [List.map_append, List.map_cons, List.nodup_append] at hid
    exact hid.2.2 (List.mem_map.mpr ⟨x, hx, heq⟩) (List.mem_cons_self _ _)
  have hpost : ∀ x ∈ post, x.ID ≠ row.ID := by
    intro x hx heq
    rw [List.map_append, List.map_cons, List.nodup_append] at hid
    have h := (List.nodup_cons.mp hid.2.1).1
    exact h (List.mem_map.mpr ⟨x, hx, heq⟩)
  unfold ClientTable.updateLastSeen
  rw [List.map_append, List.map_cons]
  have h1 : pre.map (fun r => if r.ID = row.ID then { r with LastSeenAt := now } else r) =
      pre := by
    conv_rhs => rw [← List.map_id pre]
    apply List.map_congr_left
    intro x hx
    simp [hpre x hx]
  have h2 : post.map (fun r => if r.ID = row.ID then { r with LastSeenAt := now } else r) =
      post := by
    conv_rhs => rw [← List.map_id post]
    apply List.map_congr_left
    intro x hx
    simp [hpost x hx]
  rw [h1, h2]
  simp

/-- The two ways in which `GetOrCreateClient` succeeds: the select finds a row,
whose last-seen time is updated, or it finds none and a row is inserted. -/
theorem GetOrCreateClient_ok_cases (db : DBCall) (fingerprint ipAddress : String)
    (userAgent : Option String) (table : ClientTable) (client : MeterClient)
    (h : (Repository.GetOrCreateClient db fingerprint ipAddress userAgent table).1 =
      .ok client) :
    (∃ row, table.find? (fun r => r.ClientFingerprint == fingerprint) = some row ∧
      client.ID = row.ID ∧
      (Repository.GetOrCreateClient db fingerprint ipAddress userAgent table).2 =
        table.updateLastSeen db.now row.ID) ∨
    (table.find? (fun r => r.ClientFingerprint == fingerprint) = none ∧
      (∀ x ∈ table, x.ID ≠ db.newID ∧ x.ClientFingerprint ≠ fingerprint) ∧
      client.ID = db.newID ∧
      (Repository.GetOrCreateClient db fingerprint ipAddress userAgent table).2 =
        table ++ [{ ID := db.newID, ClientFingerprint := fingerprint, IPAddress := ipAddress,
                    UserAgent := userAgent, FirstSeenAt := db.now, LastSeenAt := db.now,
                    CreatedAt := db.now }]) := by
  rcases hq : db.queryError with _ | err
  · rcases hf : table.find? (fun r => r.ClientFingerprint == fingerprint) with _ | row
    · rcases hi : db.insertError with _ | err
      · by_cases hany : table.any
            (fun r => r.ID == db.newID || r.ClientFingerprint == fingerprint) = true
        · simp [Repository.GetOrCreateClient, hq, hf, hi, hany] at h
        · have hnone : ∀ x ∈ table, x.ID ≠ db.newID ∧ x.ClientFingerprint ≠ fingerprint := by
            intro x hx
            constructor
            · intro heq
              apply hany
              rw [List.any_eq_true]
              exact ⟨x, hx, by simp [heq]⟩
            · intro heq
              apply hany
              rw [List.any_eq_true]
              exact ⟨x, hx, by simp [heq]⟩
          have hany2 : table.any
              (fun r => r.ID == db.newID || r.ClientFingerprint == fingerprint) = false := by
            simpa using hany
          simp only [Repository.GetOrCreateClient, hq, hf, hi, hany2, Bool.false_eq_true,
            if_false, Except.ok.injEq] at h ⊢
          exact Or.inr ⟨trivial, hnone, by rw [← h], trivial⟩
      · simp [Repository.GetOrCreateClient, hq, hf, hi] at h
    · rcases hu : db.updateError with _ | err
      · simp only [Repository.GetOrCreateClient, hq, hf, hu, Except.ok.injEq] at h ⊢
        exact Or.inl ⟨row, rfl, by rw [← h], rfl⟩
      · simp [Repository.GetOrCreateClient, hq, hf, hu] at h
  · simp [Repository.GetOrCreateClient, hq] at h

/-- After a successful call of `GetOrCreateClient` on a table that satisfies its
constraints, the table still satisfies them and the select by the fingerprint
finds a row with the returned ID. -/
theorem GetOrCreateClient_registers (db : DBCall) (fingerprint ipAddress : String)
    (userAgent : Option String) (table : ClientTable) (client : MeterClient)
    (hwf : table.WellFormed)
    (h : (Repository.GetOrCreateClient db fingerprint ipAddress userAgent table).1 =
      .ok client) :
    (Repository.GetOrCreateClient db fingerprint ipAddress userAgent table).2.WellFormed ∧
    ∃ row, (Repository.GetOrCreateClient db fingerprint ipAddress userAgent table).2.find?
        (fun r => r.ClientFingerprint == fingerprint) = some row ∧ row.ID = client.ID := by
  rcases GetOrCreateClient_ok_cases db fingerprint ipAddress userAgent table client h with
    ⟨row, hf, hid, ht⟩ | ⟨hf, hnone, hid, ht⟩
  · rw [ht]
    have hk := updateLastSeen_keys table db.now row.ID
    refine ⟨⟨by rw [hk.1]; exact hwf.1, by rw [hk.2]; exact hwf.2⟩, ?_⟩
    refine ⟨{ row with LastSeenAt := db.now }, ?_, hid.symm⟩
    unfold ClientTable.updateLastSeen
    rw [List.find?_map]
    have hcomp : ((fun r : MeterClient => r.ClientFingerprint == fingerprint) ∘
        fun r => if r.ID = row.ID then { r with LastSeenAt := db.now } else r) =
        fun r => r.ClientFingerprint == fingerprint := by
      funext r
      simp only [Function.comp]
      split <;> rfl
    rw [hcomp, hf]
    simp
  · rw [ht]
    refine ⟨⟨?_, ?_⟩, ?_⟩
    · rw [List.map_append, List.nodup_append]
      refine ⟨hwf.1, by simp, ?_⟩
      intro a ha hb
      simp at hb
      obtain ⟨x, hx, hxa⟩ := List.mem_map.mp ha
      exact (hnone x hx).2 (hxa.trans hb)
    · rw [List.map_append, List.nodup_append]
      refine ⟨hwf.2, by simp, ?_⟩
      intro a ha hb
      simp at hb
      obtain ⟨x, hx, hxa⟩ := List.mem_map.mp ha
      exact (hnone x hx).1 (hxa.trans hb)
    · refine ⟨(⟨db.newID, fingerprint, ipAddress, userAgent, db.now, db.now, db.now⟩ :
        MeterClient), ?_, hid.symm⟩
      rw [List.find?_append, hf]
      simp

/-- A successful call of `GetOrCreateClient` on a table where the select by the
fingerprint finds a row returns the ID of that row and changes only the
last-seen time of that row. -/
theorem GetOrCreateClient_refreshes (db : DBCall) (fingerprint ipAddress : String)
    (userAgent : Option String) (table : ClientTable) (client row : MeterClient)
    (hwf : table.WellFormed)
    (hfound : table.find? (fun r => r.ClientFingerprint == fingerprint) = some row)
    (h : (Repository.GetOrCreateClient db fingerprint ipAddress userAgent table).1 =
      .ok client) :
    client.ID = row.ID ∧ row.ClientFingerprint = fingerprint ∧
    ∃ pre post, table = pre ++ row :: post ∧
      (Repository.GetOrCreateClient db fingerprint ipAddress userAgent table).2 =
        pre ++ { row with LastSeenAt := db.now } :: post := by
  obtain ⟨hp, pre, post, hsplit, _⟩ := List.find?_eq_some.mp hfound
  rcases GetOrCreateClient_ok_cases db fingerprint ipAddress userAgent table client h with
    ⟨row2, hf, hid, ht⟩ | ⟨hf, _, _, _⟩
  · rw [hfound] at hf
    cases hf
    refine ⟨hid, by simpa using hp, pre, post, hsplit, ?_⟩
    rw [ht]
    have hnd := hwf.2
    rw [hsplit] at hnd
    conv_lhs => rw [hsplit]
    exact updateLastSeen_split pre post row db.now hnd
  · rw [hfound] at hf
    cases hf

/-- C21: on a client table that satisfies its constraints, when two successive
calls of `GetOrCreateClient` with the same fingerprint succeed, whatever address
and agent string each of them passes, the second returns the client ID of the
first, the table has exactly one row with the fingerprint after it, and the
table after the second call is the table after the first with the last-seen time
of that one row set to the time of the second call and nothing else changed; the
table still satisfies its constraints. -/
theorem GetOrCreateClient_idempotent (db1 db2 : DBCall) (fingerprint ip1 ip2 : String)
    (ua1 ua2 : Option String) (table : ClientTable) (c1 c2 : MeterClient)
    (hwf : table.WellFormed)
    (h1 : (Repository.GetOrCreateClient db1 fingerprint ip1 ua1 table).1 = .ok c1)
    (h2 : (Repository.GetOrCreateClient db2 fingerprint ip2 ua2
      (Repository.GetOrCreateClient db1 fingerprint ip1 ua1 table).2).1 = .ok c2) :
    c2.ID = c1.ID ∧
    (((Repository.GetOrCreateClient db2 fingerprint ip2 ua2
        (Repository.GetOrCreateClient db1 fingerprint ip1 ua1 table).2).2.map
      fun r => r.ClientFingerprint).count fingerprint = 1) ∧
    (∃ pre row post,
      (Repository.GetOrCreateClient db1 fingerprint ip1 ua1 table).2 = pre ++ row :: post ∧
      row.ClientFingerprint = fingerprint ∧ row.ID = c1.ID ∧
      (Repository.GetOrCreateClient db2 fingerprint ip2 ua2
        (Repository.GetOrCreateClient db1 fingerprint ip1 ua1 table).2).2 =
        pre ++ { row with LastSeenAt := db2.now } :: post) ∧
    (Repository.GetOrCreateClient db2 fingerprint ip2 ua2
      (Repository.GetOrCreateClient db1 fingerprint ip1 ua1 table).2).2.WellFormed := by
  obtain ⟨hwf1, row, hfound, hrow⟩ :=
    GetOrCreateClient_registers db1 fingerprint ip1 ua1 table c1 hwf h1
  obtain ⟨hid, hfp, pre, post, hsplit, hafter⟩ :=
    GetOrCreateClient_refreshes db2 fingerprint ip2 ua2 _ c2 row hwf1 hfound h2
  have hwf2 := (GetOrCreateClient_registers db2 fingerprint ip2 ua2 _ c2 hwf1 h2).1
  refine ⟨hid.trans hrow, ?_, ⟨pre, row, post, hsplit, hfp, hrow, hafter⟩, hwf2⟩
  apply List.count_eq_one_of_mem hwf2.1
  rw [hafter]
  simp [hfp]

/-- Witness of C21: on a table that holds the sample client, the fingerprint
`fp-2` is resolved twice, the second time with another address and another agent
string; the first call inserts a row, and the second returns the same ID and
changes only the last-seen time of that row. -/
theorem GetOrCreateClient_idempotent_witness :
    (({ sampleCreated with LastSeenAt := sampleSecondCall } : MeterClient).ID =
        sampleCreated.ID ∧
      (((Repository.GetOrCreateClient (sampleDBCall sampleSecondCall 9) "fp-2" "10.0.0.9"
          (some "meter/2.0")
          (Repository.GetOrCreateClient (sampleDBCall sampleReceivedAt 8) "fp-2" "10.0.0.2"
            (some "meter/1.0") [sampleClient]).2).2.map
        fun r => r.ClientFingerprint).count "fp-2" = 1) ∧
      (∃ pre row post,
        (Repository.GetOrCreateClient (sampleDBCall sampleReceivedAt 8) "fp-2" "10.0.0.2"
          (some "meter/1.0") [sampleClient]).2 = pre ++ row :: post ∧
        row.ClientFingerprint = "fp-2" ∧ row.ID = sampleCreated.ID ∧
        (Repository.GetOrCreateClient (sampleDBCall sampleSecondCall 9) "fp-2" "10.0.0.9"
          (some "meter/2.0")
          (Repository.GetOrCreateClient (sampleDBCall sampleReceivedAt 8) "fp-2" "10.0.0.2"
            (some "meter/1.0") [sampleClient]).2).2 =
          pre ++ { row with LastSeenAt := (sampleDBCall sampleSecondCall 9).now } :: post) ∧
      (Repository.GetOrCreateClient (sampleDBCall sampleSecondCall 9) "fp-2" "10.0.0.9"
        (some "meter/2.0")
        (Repository.GetOrCreateClient (sampleDBCall sampleReceivedAt 8) "fp-2" "10.0.0.2"
          (some "meter/1.0") [sampleClient]).2).2.WellFormed) ∧
    (Repository.GetOrCreateClient (sampleDBCall sampleReceivedAt 8) "fp-2" "10.0.0.2"
      (some "meter/1.0") [sampleClient]).2 = [sampleClient, sampleCreated] ∧
    (Repository.GetOrCreateClient (sampleDBCall sampleSecondCall 9) "fp-2" "10.0.0.9"
      (some "meter/2.0") [sampleClient, sampleCreated]).2 =
      [sampleClient, { sampleCreated with LastSeenAt := sampleSecondCall }] :=
  ⟨GetOrCreateClient_idempotent (sampleDBCall sampleReceivedAt 8)
      (sampleDBCall sampleSecondCall 9) "fp-2" "10.0.0.2" "10.0.0.9" (some "meter/1.0")
      (some "meter/2.0") [sampleClient] sampleCreated
      { sampleCreated with LastSeenAt := sampleSecondCall }
      ⟨by decide, by decide⟩ (by decide) (by decide),
    by decide, by decide⟩

end EnergyMetering
